import Mathlib

/-!
# tyrquake GL renderer (`common/gl_rmain.c`): a shallow embedding

C `float` values are embedded as rationals (exact arithmetic, no rounding,
no NaN), C `int` values as `Int`, cvar values as rationals that are "on"
when nonzero.  Pointers that are only compared or followed are embedded as
indices, `NULL` as `none`.
-/

namespace GLRMain

/-! ## Vectors and planes -/

/-- A `vec3_t`: three floats, components `[0]`, `[1]`, `[2]`. -/
structure vec3_t where
  x : ℚ
  y : ℚ
  z : ℚ
  deriving DecidableEq

/-- The `DotProduct` macro of `mathlib.h`. -/
def DotProduct (a b : vec3_t) : ℚ :=
  a.x * b.x + a.y * b.y + a.z * b.z

/-- The `VectorAdd` macro: componentwise sum. -/
def VectorAdd (a b : vec3_t) : vec3_t :=
  ⟨a.x + b.x, a.y + b.y, a.z + b.z⟩

/-- The `VectorSubtract` macro: componentwise difference. -/
def VectorSubtract (a b : vec3_t) : vec3_t :=
  ⟨a.x - b.x, a.y - b.y, a.z - b.z⟩

/-- The `VectorMA` macro: `a + s * b`. -/
def VectorMA (a : vec3_t) (s : ℚ) (b : vec3_t) : vec3_t :=
  ⟨a.x + s * b.x, a.y + s * b.y, a.z + s * b.z⟩

/-- An `mplane_t`; `signbits` is the three-bit mask, one bit per axis. -/
structure mplane_t where
  normal : vec3_t
  dist : ℚ
  type : Nat
  signbits : Fin 8
  deriving DecidableEq

/-- Modelled from the spec: the constant `PLANE_ANYZ` of `model.h`, the
plane-type classification "arbitrary" that `R_SetFrustum` stores. -/
def PLANE_ANYZ : Nat := 5

/-- Modelled from the spec: `SignbitsForPlane` (declared outside this file).
Bit `j` of the mask is set when `normal[j] < 0`, so the mask names the box
corner that is most negative relative to the plane. -/
def SignbitsForPlane (normal : vec3_t) : Fin 8 :=
  ⟨((if normal.x < 0 then 1 else 0) + (if normal.y < 0 then 2 else 0)
      + (if normal.z < 0 then 4 else 0)) % 8, Nat.mod_lt _ (by decide)⟩

/-- The coordinate of the box corner picked for `dist1` on one axis: the
minimum when the sign bit of the axis is set, the maximum otherwise. -/
def cornerHi (bit : Bool) (emin emax : ℚ) : ℚ := if bit then emin else emax

/-- The coordinate of the opposite corner, picked for `dist2`. -/
def cornerLo (bit : Bool) (emin emax : ℚ) : ℚ := if bit then emax else emin

/-- Modelled from the spec: `BoxOnPlaneSide` (defined in `mathlib.c`, not in
this file), general case.  The corner farthest along the normal is chosen by
the sign bits; the result has bit 1 when that corner reaches the plane
(`dist1 >= dist`) and bit 2 when the opposite corner is behind it
(`dist2 < dist`): 1 = entirely inside, 2 = entirely outside,
3 = intersecting. -/
def BoxOnPlaneSide (emins emaxs : vec3_t) (p : mplane_t) : Nat :=
  let b0 := p.signbits.val.testBit 0
  let b1 := p.signbits.val.testBit 1
  let b2 := p.signbits.val.testBit 2
  let dist1 := p.normal.x * cornerHi b0 emins.x emaxs.x
    + p.normal.y * cornerHi b1 emins.y emaxs.y
    + p.normal.z * cornerHi b2 emins.z emaxs.z
  let dist2 := p.normal.x * cornerLo b0 emins.x emaxs.x
    + p.normal.y * cornerLo b1 emins.y emaxs.y
    + p.normal.z * cornerLo b2 emins.z emaxs.z
  (if dist1 ≥ p.dist then 1 else 0) ||| (if dist2 < p.dist then 2 else 0)

/-- The static array `frustum[4]`. -/
abbrev Frustum := Fin 4 → mplane_t

/-- The loop of `R_CullBox` over the plane indices still to test.  The second
component counts the `BoxOnPlaneSide` tests made so far. -/
def cullScan (frustum : Frustum) (mins maxs : vec3_t) :
    List (Fin 4) → Nat → Bool × Nat
  | [], tested => (false, tested)
  | i :: rest, tested =>
    if BoxOnPlaneSide mins maxs (frustum i) = 2 then (true, tested + 1)
    else cullScan frustum mins maxs rest (tested + 1)

/-- `R_CullBox` together with the number of planes it tested. -/
def R_CullBox_traced (frustum : Frustum) (mins maxs : vec3_t) : Bool × Nat :=
  cullScan frustum mins maxs [0, 1, 2, 3] 0

/-- `R_CullBox`: true if the box is completely outside the frustum. -/
def R_CullBox (frustum : Frustum) (mins maxs : vec3_t) : Bool :=
  (R_CullBox_traced frustum mins maxs).1

/-- The view state read by `R_SetFrustum`. -/
structure ViewState where
  r_origin : vec3_t
  vpn : vec3_t
  vright : vec3_t
  vup : vec3_t
  fov_x : ℚ
  fov_y : ℚ

/-- The plane normals chosen by `R_SetFrustum`.  For `fov_x == 90` they are
`vpn ± vright` and `vpn ± vup`; otherwise they come from
`RotatePointAroundVector` (trigonometric, defined elsewhere), whose four
results are the parameter `rotated`. -/
def frustumNormal (v : ViewState) (rotated : Fin 4 → vec3_t) (i : Fin 4) : vec3_t :=
  if v.fov_x = 90 then
    match i with
    | 0 => VectorAdd v.vpn v.vright
    | 1 => VectorSubtract v.vpn v.vright
    | 2 => VectorAdd v.vpn v.vup
    | 3 => VectorSubtract v.vpn v.vup
  else rotated i

/-- `R_SetFrustum`: with `r_lockfrustum` on the old planes are kept; otherwise
every plane gets its normal, `type = PLANE_ANYZ`,
`dist = DotProduct(r_origin, normal)` and `signbits = SignbitsForPlane`. -/
def R_SetFrustum (r_lockfrustum : ℚ) (v : ViewState) (rotated : Fin 4 → vec3_t)
    (frustum : Frustum) : Frustum :=
  if r_lockfrustum ≠ 0 then frustum
  else fun i =>
    let n := frustumNormal v rotated i
    { normal := n, dist := DotProduct v.r_origin n, type := PLANE_ANYZ,
      signbits := SignbitsForPlane n }

/-- The closed box `[mins, maxs]`. -/
def InBox (mins maxs p : vec3_t) : Prop :=
  mins.x ≤ p.x ∧ p.x ≤ maxs.x ∧ mins.y ≤ p.y ∧ p.y ≤ maxs.y ∧ mins.z ≤ p.z ∧ p.z ≤ maxs.z

instance (mins maxs p : vec3_t) : Decidable (InBox mins maxs p) := by
  unfold InBox; infer_instance


/-! ## Entities and the draw list -/

/-- The `modtype_t` enumeration of `model.h`. -/
inductive modtype_t
  | mod_brush
  | mod_sprite
  | mod_alias
  deriving DecidableEq

/-- The fields of `model_t` that the renderer reads. -/
structure model_t where
  name : String
  type : modtype_t
  mins : vec3_t
  maxs : vec3_t

/-- The fields of `entity_t` that the renderer reads or writes. -/
structure entity_t where
  model : model_t
  origin : vec3_t
  angles : vec3_t
  frame : Int
  syncbase : ℚ
  currentframe : Int
  previousframe : Int
  currentframetime : ℚ
  previousframetime : ℚ
  currentpose : Int
  previouspose : Int
  currentorigin : vec3_t
  previousorigin : vec3_t
  currentorigintime : ℚ
  previousorigintime : ℚ
  currentangles : vec3_t
  previousangles : vec3_t
  currentanglestime : ℚ
  previousanglestime : ℚ

/-- A draw call issued by `R_DrawEntitiesOnList` for `&cl_visedicts[i]`. -/
inductive DrawCall
  | R_AliasDrawModel (i : Nat)
  | R_DrawBrushModel (i : Nat)
  | R_DrawSpriteModel (i : Nat)
  deriving DecidableEq

/-- The index in `cl_visedicts` of the entity a draw call is for. -/
def DrawCall.ent : DrawCall → Nat
  | .R_AliasDrawModel i => i
  | .R_DrawBrushModel i => i
  | .R_DrawSpriteModel i => i

/-- Whether the call is the translucent (sprite) draw. -/
def DrawCall.isSprite : DrawCall → Bool
  | .R_DrawSpriteModel _ => true
  | _ => false

/-- The body of the first loop of `R_DrawEntitiesOnList` for entity `i`. -/
def firstPassCase (i : Nat) (e : entity_t) : List DrawCall :=
  match e.model.type with
  | .mod_alias => [DrawCall.R_AliasDrawModel i]
  | .mod_brush => [DrawCall.R_DrawBrushModel i]
  | _ => []

/-- The body of the second loop of `R_DrawEntitiesOnList` for entity `i`. -/
def secondPassCase (i : Nat) (e : entity_t) : List DrawCall :=
  match e.model.type with
  | .mod_sprite => [DrawCall.R_DrawSpriteModel i]
  | _ => []

/-- A loop `for (i = start; i < cl_numvisedicts; i++)` over the entities from
index `i` on, collecting the calls of `body`. -/
def drawLoop (body : Nat → entity_t → List DrawCall) : List entity_t → Nat → List DrawCall
  | [], _ => []
  | e :: rest, i => body i e ++ drawLoop body rest (i + 1)

/-- `R_DrawEntitiesOnList`: nothing when `r_drawentities` is off; otherwise a
pass over the list for alias and brush models, then a pass for sprites. -/
def R_DrawEntitiesOnList (r_drawentities : ℚ) (cl_visedicts : List entity_t) :
    List DrawCall :=
  if r_drawentities = 0 then []
  else drawLoop firstPassCase cl_visedicts 0 ++ drawLoop secondPassCase cl_visedicts 0

/-- The draw call that belongs to an entity of the list by its model type. -/
def dispatchOf (p : Nat × entity_t) : DrawCall :=
  match p.2.model.type with
  | .mod_alias => DrawCall.R_AliasDrawModel p.1
  | .mod_brush => DrawCall.R_DrawBrushModel p.1
  | .mod_sprite => DrawCall.R_DrawSpriteModel p.1

/-! ## Visibility marking -/

/-- A pointer into the world model, as `R_MarkLeaves` uses it: either
`&cl.worldmodel->leafs[n]` (cast to `mnode_t *`) or `&cl.worldmodel->nodes[n]`. -/
inductive NodeRef
  | leaf (n : Nat)
  | node (n : Nat)
  deriving DecidableEq

/-- A `leafbits_t` bit set: entry `n` is bit `n`. -/
abbrev leafbits_t := List Bool

/-- The part of `cl.worldmodel` that `R_MarkLeaves` touches: the `parent` link
and the `visframe` mark of every leaf and node, and the result of
`Mod_LeafPVS(cl.worldmodel, &leafs[n])` (defined in the model code) for every
leaf `n`, leaf 0 giving the all-visible set. -/
structure World where
  parent : NodeRef → Option NodeRef
  visframe : NodeRef → Int
  Mod_LeafPVS : Nat → leafbits_t

/-- The globals read and written by `R_MarkLeaves`.  `r_viewleaf` is the index
of the view leaf in `cl.worldmodel->leafs` (`R_SetupFrame` has set and
dereferenced it before the call); `r_oldviewleaf` may still be `NULL`.
`r_visframecount` is an `int` taken as an unbounded integer. -/
structure RenderState where
  r_visframecount : Int
  r_viewleaf : Nat
  r_oldviewleaf : Option Nat
  r_novis : ℚ
  mirror : Bool
  worldmodel : World

/-- What one call of `R_MarkLeaves` did: the leaf numbers whose ancestor walk
was started and the nodes whose `visframe` was written, latest first. -/
structure MarkTrace where
  walks : List Nat
  writes : List NodeRef
  deriving DecidableEq

/-- Modelled from the spec: the `foreach_leafbit` iteration macro (defined in
the model headers) visits every leaf index present in the bit set, in
ascending order. -/
def foreach_leafbit (pvs : leafbits_t) : List Nat :=
  (List.range pvs.length).filter (fun n => pvs.getD n false)

/-- The `do { ... } while (node)` ancestor walk of `R_MarkLeaves`: stop at a
node already carrying the current count, else mark it and go to its parent.
`none` when the fuel runs out before the walk ends. -/
def markWalk (parent : NodeRef → Option NodeRef) (count : Int) :
    Nat → NodeRef → (NodeRef → Int) → List NodeRef →
      Option ((NodeRef → Int) × List NodeRef)
  | 0, _, _, _ => none
  | fuel + 1, node, vis, writes =>
    if vis node = count then some (vis, writes)
    else
      match parent node with
      | none => some (Function.update vis node count, node :: writes)
      | some p => markWalk parent count fuel p (Function.update vis node count) (node :: writes)

/-- The body of `foreach_leafbit` in `R_MarkLeaves`: for each leaf number the
walk starts at `&cl.worldmodel->leafs[leafnum + 1]`. -/
def markLeafbits (parent : NodeRef → Option NodeRef) (count : Int) (fuel : Nat) :
    List Nat → (NodeRef → Int) → MarkTrace → Option ((NodeRef → Int) × MarkTrace)
  | [], vis, tr => some (vis, tr)
  | leafnum :: rest, vis, tr =>
    match markWalk parent count fuel (NodeRef.leaf (leafnum + 1)) vis tr.writes with
    | none => none
    | some (vis1, writes1) =>
      markLeafbits parent count fuel rest vis1 ⟨leafnum :: tr.walks, writes1⟩

/-- The leaf whose PVS `R_MarkLeaves` looks up: leaf 0 (all visible) when
`r_novis` is on, the view leaf otherwise. -/
def pvsLeaf (s : RenderState) : Nat :=
  if s.r_novis ≠ 0 then 0 else s.r_viewleaf

/-- `R_MarkLeaves`.  `fuel` bounds the length of each ancestor walk; the
result is `none` only when a walk runs out of fuel. -/
def R_MarkLeaves (fuel : Nat) (s : RenderState) : Option (RenderState × MarkTrace) :=
  if s.r_oldviewleaf = some s.r_viewleaf ∧ s.r_novis = 0 then some (s, ⟨[], []⟩)
  else if s.mirror then some (s, ⟨[], []⟩)
  else
    match markLeafbits s.worldmodel.parent (s.r_visframecount + 1) fuel
        (foreach_leafbit (s.worldmodel.Mod_LeafPVS (pvsLeaf s)))
        s.worldmodel.visframe ⟨[], []⟩ with
    | none => none
    | some (vis, tr) =>
      some ({ s with
                r_visframecount := s.r_visframecount + 1
                r_oldviewleaf := some s.r_viewleaf
                worldmodel := { s.worldmodel with visframe := vis } }, tr)

/-- Whether the parent chain starting at `x` reaches `NULL` within `d` links. -/
def chainEnds (parent : NodeRef → Option NodeRef) : Nat → NodeRef → Bool
  | 0, _ => false
  | d + 1, x =>
    match parent x with
    | none => true
    | some p => chainEnds parent d p

/-- The node reached from `x` after following `k` parent links. -/
def parentIter (parent : NodeRef → Option NodeRef) : Nat → NodeRef → Option NodeRef
  | 0, x => some x
  | k + 1, x =>
    match parent x with
    | none => none
    | some p => parentIter parent k p

/-- The node `a` is `x` itself or an ancestor of `x` through parent links. -/
def IsAncestorOrSelf (parent : NodeRef → Option NodeRef) (a x : NodeRef) : Prop :=
  ∃ k, parentIter parent k x = some a

/-- The node `x` is a leaf with its bit set in `pvs` (bit `n` standing for
`leafs[n + 1]`) or an ancestor of such a leaf. -/
def VisibleFrom (parent : NodeRef → Option NodeRef) (pvs : leafbits_t) (x : NodeRef) : Prop :=
  ∃ n, n ∈ foreach_leafbit pvs ∧ IsAncestorOrSelf parent x (NodeRef.leaf (n + 1))

/-- Every node marked with `count` has its parent marked too, except that the
parent may be the node `pending` the walk is about to visit. -/
def ClosedUpTo (parent : NodeRef → Option NodeRef) (count : Int) (vis : NodeRef → Int)
    (pending : NodeRef) : Prop :=
  ∀ x p, vis x = count → parent x = some p → vis p = count ∨ p = pending

/-- Every node marked with `count` has its parent marked too. -/
def Closed (parent : NodeRef → Option NodeRef) (count : Int) (vis : NodeRef → Int) : Prop :=
  ∀ x p, vis x = count → parent x = some p → vis p = count

/-- A small world: leafs 0, 1, 2 and one node; `leafs[1]` and `leafs[2]` hang
under `nodes[0]`, the root.  Leaf 0 sees everything, leaf 1 only itself, leaf
2 only itself. -/
def exWorld : World where
  parent := fun x =>
    match x with
    | NodeRef.leaf 1 => some (NodeRef.node 0)
    | NodeRef.leaf 2 => some (NodeRef.node 0)
    | _ => none
  visframe := fun _ => 0
  Mod_LeafPVS := fun n =>
    match n with
    | 0 => [true, true]
    | 1 => [true, false]
    | _ => [false, true]

/-- The view has just moved into leaf 1 of `exWorld`; `r_novis` is off. -/
def exMoved : RenderState where
  r_visframecount := 0
  r_viewleaf := 1
  r_oldviewleaf := none
  r_novis := 0
  mirror := false
  worldmodel := exWorld

/-- The view rests in leaf 1 of `exWorld` (old and new view leaf equal) and
`r_novis` is on. -/
def exNovis : RenderState where
  r_visframecount := 0
  r_viewleaf := 1
  r_oldviewleaf := some 1
  r_novis := 1
  mirror := false
  worldmodel := exWorld

/-! ## Alias models: pose selection and interpolation -/

/-- Modelled from the spec: the `qclamp(x, lo, hi)` macro of the common
headers, `clamp(x, lo, hi)`: `lo` below the range, `hi` above it, else `x`. -/
def qclamp (x lo hi : ℚ) : ℚ :=
  if x < lo then lo else if x > hi then hi else x

/-- The C conversion `(int)x` of a float: truncation toward zero. -/
def truncToInt (x : ℚ) : Int :=
  if 0 ≤ x then ⌊x⌋ else ⌈x⌉

/-- A C array read `a[i]` with an `int` index; a read outside the list gives
the default value `d`. -/
def readAt {α : Type} (a : List α) (i : Int) (d : α) : α :=
  if i < 0 then d else a.getD i.toNat d

/-- A `maliasframedesc_t`: the pose range of one animation frame. -/
structure maliasframedesc_t where
  firstpose : Int
  numposes : Int
  deriving DecidableEq

/-- The fields of `aliashdr_t` read by `R_AliasSetupFrame`; `poseintervals` is
the float table at offset `pahdr->poseintervals`, indexed by pose number. -/
structure aliashdr_t where
  numframes : Int
  frames : List maliasframedesc_t
  poseintervals : List ℚ

/-- The linear search `for (i = 0; i < numposes - 1; i++) if (intervals[i] >
targettime) break;` with `remaining` iterations left at index `i`; the value
is `i` after the loop. -/
def poseSearch (intervals : Nat → ℚ) (targettime : ℚ) : Nat → Nat → Nat
  | 0, i => i
  | remaining + 1, i =>
    if intervals i > targettime then i
    else poseSearch intervals targettime remaining (i + 1)

/-- The line `targettime = time - (int)(time / fullinterval) * fullinterval`
with `fullinterval = intervals[numposes - 1]`. -/
def poseTargetTime (intervals : Nat → ℚ) (numposes : Int) (time : ℚ) : ℚ :=
  time - (truncToInt (time / intervals (numposes - 1).toNat) : ℚ)
    * intervals (numposes - 1).toNat

/-- Modelled from the spec: `Mod_FindInterval` (defined in the model code):
the first interval-table entry whose cumulative time exceeds the elapsed time
modulo the total duration, found by the same linear search. -/
def Mod_FindInterval (intervals : Nat → ℚ) (numintervals : Int) (time : ℚ) : Nat :=
  poseSearch intervals (poseTargetTime intervals numintervals time)
    (numintervals - 1).toNat 0

/-- What `R_AliasSetupFrame` leaves behind: the two pose numbers stored in the
entity, the blend passed to `GL_AliasDrawModel`, and the indices it used into
`pahdr->frames`. -/
structure SetupFrameResult where
  currentpose : Int
  previouspose : Int
  blend : ℚ
  frameidx : List Int
  deriving DecidableEq

/-- The frame index after the range check of `R_AliasSetupFrame`. -/
def checkedFrame (e : entity_t) (pahdr : aliashdr_t) : Int :=
  if e.frame ≥ pahdr.numframes ∨ e.frame < 0 then 0 else e.frame

/-- `R_AliasSetupFrame`.  `nq` says whether the file is built with `NQ_HACK`
(the interpolation code exists only there); `viewent` is `e == &cl.viewent`. -/
def R_AliasSetupFrame (nq : Bool) (r_lerpmodels cl_time : ℚ) (viewent : Bool)
    (e : entity_t) (pahdr : aliashdr_t) : SetupFrameResult :=
  let nodesc : maliasframedesc_t := ⟨0, 0⟩
  let frame := checkedFrame e pahdr
  let pose := (readAt pahdr.frames frame nodesc).firstpose
  let numposes := (readAt pahdr.frames frame nodesc).numposes
  let intervals : Nat → ℚ := fun i => readAt pahdr.poseintervals (pose + i) 0
  let pose1 :=
    if numposes > 1 then pose + Mod_FindInterval intervals numposes (cl_time + e.syncbase)
    else pose
  if nq = true ∧ r_lerpmodels ≠ 0 ∧ ¬ (e.currentframetime < e.previousframetime)
      ∧ ¬ (e.currentframetime - e.previousframetime > 1) ∧ viewent = false then
    if numposes > 1 then
      let targettime := poseTargetTime intervals numposes (cl_time + e.syncbase)
      let i := poseSearch intervals targettime (numposes - 1).toNat 0
      let currentpose := (readAt pahdr.frames e.currentframe nodesc).firstpose + i
      if i = 0 then
        { currentpose := currentpose
          previouspose := (readAt pahdr.frames e.currentframe nodesc).firstpose + (numposes - 1)
          blend := qclamp (targettime / intervals 0) 0 1
          frameidx := [frame, e.currentframe] }
      else
        { currentpose := currentpose
          previouspose := currentpose - 1
          blend := qclamp ((targettime - intervals (i - 1))
                    / (intervals i - intervals (i - 1))) 0 1
          frameidx := [frame, e.currentframe] }
    else
      { currentpose := (readAt pahdr.frames e.currentframe nodesc).firstpose
        previouspose := (readAt pahdr.frames e.previousframe nodesc).firstpose
        blend := qclamp ((cl_time - e.currentframetime)
                  / (e.currentframetime - e.previousframetime)) 0 1
        frameidx := [frame, e.currentframe, e.previousframe] }
  else
    { currentpose := pose1, previouspose := pose1, blend := 1, frameidx := [frame] }

/-- The local `frac` of the origin lerp in `R_AliasDrawModel`. -/
def originFrac (cl_time : ℚ) (e : entity_t) : ℚ :=
  qclamp ((cl_time - e.currentorigintime)
    / (e.currentorigintime - e.previousorigintime)) 0 1

/-- The local `frac` of the angles lerp in `R_AliasDrawModel`. -/
def anglesFrac (cl_time : ℚ) (e : entity_t) : ℚ :=
  qclamp ((cl_time - e.currentanglestime)
    / (e.currentanglestime - e.previousanglestime)) 0 1

/-- The wrap applied to each component of `lerpvec` in the angles lerp. -/
def wrapDelta (d : ℚ) : ℚ :=
  if d > 180 then d - 360 else if d < -180 then d + 360 else d

/-- The value `lerp_origin` computed at the top of `R_AliasDrawModel`. -/
def lerp_origin (nq : Bool) (r_lerpmove cl_time : ℚ) (viewent : Bool) (e : entity_t) : vec3_t :=
  if nq = true ∧ r_lerpmove ≠ 0 ∧ viewent = false then
    VectorMA e.previousorigin (originFrac cl_time e)
      (VectorSubtract e.currentorigin e.previousorigin)
  else e.origin

/-- The value `lerp_angles` computed at the top of `R_AliasDrawModel`. -/
def lerp_angles (nq : Bool) (r_lerpmove cl_time : ℚ) (viewent : Bool) (e : entity_t) : vec3_t :=
  if nq = true ∧ r_lerpmove ≠ 0 ∧ e.previousanglestime ≠ e.currentanglestime
      ∧ viewent = false then
    let lerpvec := VectorSubtract e.currentangles e.previousangles
    VectorMA e.previousangles (anglesFrac cl_time e)
      ⟨wrapDelta lerpvec.x, wrapDelta lerpvec.y, wrapDelta lerpvec.z⟩
  else e.angles

/-- The lighting clamp of `R_AliasDrawModel` on `(ambientlight, shadelight)`:
`if (ambientlight > 128) ambientlight = 128;` then
`if (ambientlight + shadelight > 192) shadelight = 192 - ambientlight;`. -/
def clampLighting (ambientlight shadelight : ℚ) : ℚ × ℚ :=
  let ambient1 := if ambientlight > 128 then 128 else ambientlight
  let shade1 := if ambient1 + shadelight > 192 then 192 - ambient1 else shadelight
  (ambient1, shade1)

/-- An alias-model entity at rest, all times and vectors zero. -/
def exEntity : entity_t where
  model := ⟨"progs/soldier.mdl", modtype_t.mod_alias, ⟨-16, -16, -24⟩, ⟨16, 16, 40⟩⟩
  origin := ⟨0, 0, 0⟩
  angles := ⟨0, 0, 0⟩
  frame := 0
  syncbase := 0
  currentframe := 0
  previousframe := 0
  currentframetime := 0
  previousframetime := 0
  currentpose := 0
  previouspose := 0
  currentorigin := ⟨0, 0, 0⟩
  previousorigin := ⟨0, 0, 0⟩
  currentorigintime := 0
  previousorigintime := 0
  currentangles := ⟨0, 0, 0⟩
  previousangles := ⟨0, 0, 0⟩
  currentanglestime := 0
  previousanglestime := 0

/-- An entity whose origin, angles and frame were all updated from time 0 to
time 1. -/
def exLerpEntity : entity_t :=
  { exEntity with
      currentorigintime := 1
      currentanglestime := 1
      currentframetime := 1
      currentorigin := ⟨8, 0, 0⟩
      currentangles := ⟨0, 90, 0⟩ }

/-- An entity whose frame timestamps are 0 and 2, more than one time unit
apart. -/
def exStaleEntity : entity_t :=
  { exEntity with currentframetime := 2 }

/-- An alias header with one frame of a single pose. -/
def exHdr : aliashdr_t where
  numframes := 1
  frames := [⟨0, 1⟩]
  poseintervals := []

/-- The camera at the origin looking along +X with a 90 degree field of view
(`vright` is -Y, `vup` is +Z). -/
def exView : ViewState where
  r_origin := ⟨0, 0, 0⟩
  vpn := ⟨1, 0, 0⟩
  vright := ⟨0, -1, 0⟩
  vup := ⟨0, 0, 1⟩
  fov_x := 90
  fov_y := 90

/-- The frustum `R_SetFrustum` builds for `exView`. -/
def exFrustum : Frustum :=
  R_SetFrustum 0 exView (fun _ => ⟨0, 0, 0⟩) (fun _ => ⟨⟨0, 0, 0⟩, 0, 0, 0⟩)

/-- A sprite entity. -/
def exSprite : entity_t :=
  { exEntity with model := ⟨"progs/s_light.spr", modtype_t.mod_sprite, ⟨-8, -8, -8⟩, ⟨8, 8, 8⟩⟩ }

/-- A brush-model entity. -/
def exBrush : entity_t :=
  { exEntity with model := ⟨"*1", modtype_t.mod_brush, ⟨-32, -32, 0⟩, ⟨32, 32, 64⟩⟩ }

/-- An alias header with one frame of three poses whose cumulative interval
table is `[0.1, 0.3, 0.6]`. -/
def exHdr3 : aliashdr_t where
  numframes := 1
  frames := [⟨0, 3⟩]
  poseintervals := [1 / 10, 3 / 10, 6 / 10]

/-! ## Mirror reflection and the shading row -/

/-- The new `r_refdef.vieworg` of `R_Mirror`:
`d = DotProduct(vieworg, normal) - dist; VectorMA(vieworg, -2 * d, normal, vieworg)`. -/
def R_Mirror_vieworg (vieworg normal : vec3_t) (dist : ℚ) : vec3_t :=
  VectorMA vieworg (-2 * (DotProduct vieworg normal - dist)) normal

/-- The new `vpn` of `R_Mirror`:
`d = DotProduct(vpn, normal); VectorMA(vpn, -2 * d, normal, vpn)`. -/
def R_Mirror_vpn (vpn normal : vec3_t) : vec3_t :=
  VectorMA vpn (-2 * DotProduct vpn normal) normal

/-- The constant `SHADEDOT_QUANT`: the number of rows of `r_avertexnormal_dots`. -/
def SHADEDOT_QUANT : Nat := 16

/-- The local `shadequant` of `R_AliasDrawModel`:
`(int)(lerp_angles[1] * (SHADEDOT_QUANT / 360.0))`. -/
def shadequant (yaw : ℚ) : Int :=
  truncToInt (yaw * ((SHADEDOT_QUANT : ℚ) / 360))

/-- The row index `shadequant & (SHADEDOT_QUANT - 1)` of `R_AliasDrawModel`.
The `int` is taken as its 32-bit two's-complement pattern before the mask. -/
def shadeRow (yaw : ℚ) : Nat :=
  (shadequant yaw % 4294967296).toNat &&& (SHADEDOT_QUANT - 1)

/-- An entity whose yaw went from 0 to 600 degrees between times 0 and 1. -/
def exSpinEntity : entity_t :=
  { exEntity with
      currentangles := ⟨0, 600, 0⟩
      currentanglestime := 1 }

/-- An entity whose frame index 5 is out of range for a one-frame model; the
frame was last updated between times 0 and 1. -/
def exBadFrameEntity : entity_t :=
  { exEntity with
      frame := 5
      currentframe := 5
      previousframe := 5
      currentframetime := 1 }

/-! ## Entity drawing: culling of alias models, sprites -/

/-- The test at the top of `R_AliasDrawModel`: the model box moved to
`lerp_origin` is passed to `R_CullBox`, and the function returns without
drawing when it is true. -/
def R_AliasDrawModel_culled (nq : Bool) (r_lerpmove cl_time : ℚ) (viewent : Bool)
    (frustum : Frustum) (e : entity_t) : Bool :=
  R_CullBox frustum
    (VectorAdd (lerp_origin nq r_lerpmove cl_time viewent e) e.model.mins)
    (VectorAdd (lerp_origin nq r_lerpmove cl_time viewent e) e.model.maxs)

/-- The extents of an `mspriteframe_t`. -/
structure mspriteframe_t where
  up : ℚ
  down : ℚ
  left : ℚ
  right : ℚ

/-- `R_DrawSpriteModel`: the four `glVertex3fv` points of the quad it submits
between `glBegin(GL_QUADS)` and `glEnd()`.  `up` and `right` are the axes it
picked (`vup`, `vright`, or those of `AngleVectors` for an oriented sprite).
There is no frustum test on this path. -/
def R_DrawSpriteModel (up right : vec3_t) (frame : mspriteframe_t) (e : entity_t) :
    List vec3_t :=
  [VectorMA (VectorMA e.origin frame.down up) frame.left right,
   VectorMA (VectorMA e.origin frame.up up) frame.left right,
   VectorMA (VectorMA e.origin frame.up up) frame.right right,
   VectorMA (VectorMA e.origin frame.down up) frame.right right]

/-- Whether the function called for a dispatch goes on to submit geometry.
Entities of `cl_visedicts` are never `&cl.viewent`.  `R_DrawBrushModel` is
defined with the world surfaces; its outcome is the parameter `brushDraws`. -/
def submitsGeometry (nq : Bool) (r_lerpmove cl_time : ℚ) (frustum : Frustum)
    (brushDraws : entity_t → Bool) (spriteUp spriteRight : entity_t → vec3_t)
    (Mod_GetSpriteFrame : entity_t → mspriteframe_t) (cl_visedicts : List entity_t) :
    DrawCall → Bool
  | .R_AliasDrawModel i =>
    match cl_visedicts[i]? with
    | some e => !R_AliasDrawModel_culled nq r_lerpmove cl_time false frustum e
    | none => false
  | .R_DrawBrushModel i =>
    match cl_visedicts[i]? with
    | some e => brushDraws e
    | none => false
  | .R_DrawSpriteModel i =>
    match cl_visedicts[i]? with
    | some e => !(R_DrawSpriteModel (spriteUp e) (spriteRight e) (Mod_GetSpriteFrame e) e).isEmpty
    | none => false

/-- The calls of `R_DrawEntitiesOnList` that end in submitted geometry, in the
order they are issued. -/
def entitiesDrawn (r_drawentities : ℚ) (nq : Bool) (r_lerpmove cl_time : ℚ)
    (frustum : Frustum) (brushDraws : entity_t → Bool)
    (spriteUp spriteRight : entity_t → vec3_t)
    (Mod_GetSpriteFrame : entity_t → mspriteframe_t) (cl_visedicts : List entity_t) :
    List DrawCall :=
  (R_DrawEntitiesOnList r_drawentities cl_visedicts).filter
    (submitsGeometry nq r_lerpmove cl_time frustum brushDraws spriteUp spriteRight
      Mod_GetSpriteFrame cl_visedicts)

/-- An opaque alias-model entity at distance 500 along +X with half-extent 10. -/
def exBoxEntity : entity_t :=
  { exEntity with
      model := ⟨"progs/box.mdl", modtype_t.mod_alias, ⟨-10, -10, -10⟩, ⟨10, 10, 10⟩⟩
      origin := ⟨500, 0, 0⟩ }

/-- The sprite entity `exSprite` placed at `o`. -/
def spriteAt (o : vec3_t) : entity_t :=
  { exSprite with origin := o }

/-- A 16 by 16 sprite frame centred on the origin of its entity. -/
def exSpriteFrame : mspriteframe_t := ⟨8, -8, -8, 8⟩

/-! ## Post-process blend -/

/-- The GL capabilities toggled by the renderer code modelled here. -/
inductive GLCap
  | GL_ALPHA_TEST
  | GL_BLEND
  | GL_DEPTH_TEST
  | GL_TEXTURE_2D
  deriving DecidableEq

/-- The blend factors passed to `glBlendFunc` by `R_PolyBlend`. -/
inductive GLFactor
  | GL_DST_COLOR
  | GL_SRC_ALPHA
  | GL_ONE_MINUS_SRC_ALPHA
  deriving DecidableEq

/-- The GL calls issued by `R_PolyBlend`, `GL_DrawBlendPoly` and the end of
`R_SetupGL`. -/
inductive GLCall
  | GL_DisableMultitexture
  | glDisable (cap : GLCap)
  | glEnable (cap : GLCap)
  | glLoadIdentity
  | glRotatef (angle x y z : ℚ)
  | glColor4fv (r g b a : ℚ)
  | glColor4f (r g b a : ℚ)
  | glBlendFunc (sfactor dfactor : GLFactor)
  | glBegin_GL_QUADS
  | glVertex3f (x y z : ℚ)
  | glEnd
  deriving DecidableEq

/-- `GL_DrawBlendPoly`: one quad covering the whole screen. -/
def GL_DrawBlendPoly : List GLCall :=
  [GLCall.glBegin_GL_QUADS, GLCall.glVertex3f 10 100 100, GLCall.glVertex3f 10 (-100) 100,
   GLCall.glVertex3f 10 (-100) (-100), GLCall.glVertex3f 10 100 (-100), GLCall.glEnd]

/-- The inputs of `R_PolyBlend`: the results of `VID_IsFullScreen()` and of the
test `VID_SetGammaRamp != NULL`, three cvar values and the `v_blend` colour. -/
structure PolyBlendInput where
  VID_IsFullScreen : Bool
  VID_SetGammaRamp : Bool
  _gl_allowgammafallback : ℚ
  v_gamma : ℚ
  gl_polyblend : ℚ
  v_blend0 : ℚ
  v_blend1 : ℚ
  v_blend2 : ℚ
  v_blend3 : ℚ

/-- The local `gamma` of `R_PolyBlend`: 1.0 unless the fallback applies, else
`v_gamma.value * v_gamma.value` limited to `[0.25, 1.0]`. -/
def polyBlendGamma (i : PolyBlendInput) : ℚ :=
  if i.VID_IsFullScreen = false ∨
      (i.VID_SetGammaRamp = false ∧ i._gl_allowgammafallback ≠ 0) then
    if i.v_gamma * i.v_gamma < 1 / 4 then 1 / 4
    else if i.v_gamma * i.v_gamma > 1 then 1
    else i.v_gamma * i.v_gamma
  else 1

/-- `R_PolyBlend`: the GL calls it issues, in order. -/
def R_PolyBlend (i : PolyBlendInput) : List GLCall :=
  if (i.gl_polyblend ≠ 0 ∧ i.v_blend3 ≠ 0) ∨ polyBlendGamma i < 1 then
    [GLCall.GL_DisableMultitexture,
     GLCall.glDisable GLCap.GL_ALPHA_TEST,
     GLCall.glEnable GLCap.GL_BLEND,
     GLCall.glDisable GLCap.GL_DEPTH_TEST,
     GLCall.glDisable GLCap.GL_TEXTURE_2D,
     GLCall.glLoadIdentity,
     GLCall.glRotatef (-90) 1 0 0,
     GLCall.glRotatef 90 0 0 1]
    ++ (if i.gl_polyblend ≠ 0 ∧ i.v_blend3 ≠ 0 then
          GLCall.glColor4fv i.v_blend0 i.v_blend1 i.v_blend2 i.v_blend3 :: GL_DrawBlendPoly
        else [])
    ++ (if polyBlendGamma i < 1 then
          [GLCall.glBlendFunc GLFactor.GL_DST_COLOR GLFactor.GL_ONE_MINUS_SRC_ALPHA,
           GLCall.glColor4f 1 1 1 (polyBlendGamma i)]
          ++ GL_DrawBlendPoly
          ++ [GLCall.glBlendFunc GLFactor.GL_SRC_ALPHA GLFactor.GL_ONE_MINUS_SRC_ALPHA]
        else [])
    ++ [GLCall.glDisable GLCap.GL_BLEND,
        GLCall.glEnable GLCap.GL_TEXTURE_2D,
        GLCall.glEnable GLCap.GL_ALPHA_TEST]
  else []

/-- A quad as the rasterizer sees it: the colour and the blend function last
set before its `glBegin(GL_QUADS)` (`none` when the call sequence set none). -/
structure Quad where
  colour : Option (ℚ × ℚ × ℚ × ℚ)
  blendfunc : Option (GLFactor × GLFactor)
  deriving DecidableEq

/-- The quads begun by a sequence of GL calls, in order, starting from the
current colour and blend function. -/
def quadsDrawn : List GLCall → Quad → List Quad
  | [], _ => []
  | GLCall.glColor4fv r g b a :: rest, q => quadsDrawn rest { q with colour := some (r, g, b, a) }
  | GLCall.glColor4f r g b a :: rest, q => quadsDrawn rest { q with colour := some (r, g, b, a) }
  | GLCall.glBlendFunc s d :: rest, q => quadsDrawn rest { q with blendfunc := some (s, d) }
  | GLCall.glBegin_GL_QUADS :: rest, q => q :: quadsDrawn rest q
  | _ :: rest, q => quadsDrawn rest q

/-- The colour-blend quad of `R_PolyBlend`: colour `v_blend`, drawn with the
blend function `q0` that was current before the call. -/
def colourBlendQuad (i : PolyBlendInput) (q0 : Quad) : Quad :=
  { q0 with colour := some (i.v_blend0, i.v_blend1, i.v_blend2, i.v_blend3) }

/-- The gamma quad of `R_PolyBlend`: white with alpha `gamma`, blended with
`GL_DST_COLOR`. -/
def gammaQuad (i : PolyBlendInput) : Quad :=
  ⟨some (1, 1, 1, polyBlendGamma i),
    some (GLFactor.GL_DST_COLOR, GLFactor.GL_ONE_MINUS_SRC_ALPHA)⟩

/-- The enable flags of the four capabilities. -/
structure GLState where
  alpha_test : Bool
  blend : Bool
  depth_test : Bool
  texture_2d : Bool
  deriving DecidableEq

/-- The effect of `glEnable(cap)` / `glDisable(cap)` on the enable flags. -/
def GLState.set (s : GLState) (cap : GLCap) (flag : Bool) : GLState :=
  match cap with
  | GLCap.GL_ALPHA_TEST => { s with alpha_test := flag }
  | GLCap.GL_BLEND => { s with blend := flag }
  | GLCap.GL_DEPTH_TEST => { s with depth_test := flag }
  | GLCap.GL_TEXTURE_2D => { s with texture_2d := flag }

/-- The enable flags after a sequence of GL calls.  `GL_DisableMultitexture`
(defined with the texture code) only switches the second texture unit off;
the flags here are those of the first unit. -/
def runGL : List GLCall → GLState → GLState
  | [], s => s
  | GLCall.glEnable cap :: rest, s => runGL rest (s.set cap true)
  | GLCall.glDisable cap :: rest, s => runGL rest (s.set cap false)
  | _ :: rest, s => runGL rest s

/-- The last three calls of `R_SetupGL`. -/
def R_SetupGL_drawparms : List GLCall :=
  [GLCall.glDisable GLCap.GL_BLEND, GLCall.glDisable GLCap.GL_ALPHA_TEST,
   GLCall.glEnable GLCap.GL_DEPTH_TEST]

/-- A windowed display with gamma 0.7, screen blending on and a red flash of
alpha 1/2. -/
def exBlendInput : PolyBlendInput where
  VID_IsFullScreen := false
  VID_SetGammaRamp := true
  _gl_allowgammafallback := 1
  v_gamma := 7 / 10
  gl_polyblend := 1
  v_blend0 := 1
  v_blend1 := 0
  v_blend2 := 0
  v_blend3 := 1 / 2

/-- A windowed display with gamma -2 and no screen blend. -/
def exNegGammaInput : PolyBlendInput :=
  { exBlendInput with v_gamma := -2, v_blend3 := 0 }

/-! ## Alias model lighting -/

/-- The fields of `dlight_t` read by `R_AliasDrawModel`. -/
structure dlight_t where
  origin : vec3_t
  radius : ℚ
  die : ℚ

/-- The dynamic-light loop of `R_AliasDrawModel` over the array `cl_dlights`,
acting on `(ambientlight, shadelight)`.  `Length` (the Euclidean norm, defined
in the math library) is a parameter. -/
def addDlights (Length : vec3_t → ℚ) (cl_time : ℚ) (lerp_origin : vec3_t) :
    List dlight_t → ℚ × ℚ → ℚ × ℚ
  | [], l => l
  | dl :: rest, l =>
    if dl.die ≥ cl_time then
      if dl.radius - Length (VectorSubtract lerp_origin dl.origin) > 0 then
        addDlights Length cl_time lerp_origin rest
          (l.1 + (dl.radius - Length (VectorSubtract lerp_origin dl.origin)),
           l.2 + (dl.radius - Length (VectorSubtract lerp_origin dl.origin)))
      else addDlights Length cl_time lerp_origin rest l
    else addDlights Length cl_time lerp_origin rest l

/-- The lighting computation of `R_AliasDrawModel` up to (not including)
`shadelight /= 200.0`: the pair `(ambientlight, shadelight)`.  `lightpoint` is
the value of `R_LightPoint(lerp_origin)`; `playerEntity` is the result of the
test `CL_PlayerEntity(e)` used by the `NQ_HACK` build, the other build tests
the model name instead. -/
def aliasLighting (nq viewent playerEntity : Bool) (modelname : String) (lightpoint : ℚ)
    (Length : vec3_t → ℚ) (cl_time : ℚ) (lerp_origin : vec3_t)
    (cl_dlights : List dlight_t) : ℚ × ℚ :=
  let l0 : ℚ × ℚ :=
    if viewent = true ∧ lightpoint < 24 then (24, 24) else (lightpoint, lightpoint)
  let l1 := addDlights Length cl_time lerp_origin cl_dlights l0
  let l2 := clampLighting l1.1 l1.2
  if (if nq then playerEntity else decide (modelname = "progs/player.mdl")) = true then
    if l2.1 < 8 then (8, 8) else l2
  else if modelname = "progs/flame.mdl" ∨ modelname = "progs/flame2.mdl" then (256, 256)
  else l2

/-! ## Dedicated-server console input (`QW/server/sys_win.c`) -/

/-- The statics of `Sys_ConsoleInput`: the array `text[256]` (by index) and
`len`. -/
structure ConsoleState where
  text : Int → Int
  len : Int

/-- What one call of `Sys_ConsoleInput` did: the statics afterwards, whether it
returned `text` (else `NULL`), the keys left unread, the indices of its
writes to `text[]` and the characters passed to `putch`, both latest first. -/
structure ConsoleResult where
  state : ConsoleState
  returnsText : Bool
  pending : List Int
  writes : List Int
  echo : List Int

/-- The `while (_kbhit())` loop of `Sys_ConsoleInput` over the keys that
`_getch()` will deliver; `'\r'` is 13, backspace 8, `sizeof(text)` 256. -/
def consoleLoop : List Int → ConsoleState → List Int → List Int → ConsoleResult
  | [], st, writes, echo => ⟨st, false, [], writes, echo⟩
  | c :: rest, st, writes, echo =>
    if c = 13 then
      ⟨{ text := Function.update st.text st.len 0, len := 0 }, true, rest,
        st.len :: writes, 10 :: c :: echo⟩
    else if c = 8 then
      if st.len ≠ 0 then
        consoleLoop rest
          { text := Function.update st.text (st.len - 1) 0, len := st.len - 1 }
          ((st.len - 1) :: writes) (c :: 32 :: c :: echo)
      else consoleLoop rest st writes (c :: echo)
    else if st.len + 1 = 256 then
      ⟨{ text := Function.update (Function.update st.text st.len c) 0 0, len := 0 }, true,
        rest, 0 :: st.len :: writes, c :: echo⟩
    else
      consoleLoop rest
        { text := Function.update (Function.update st.text st.len c) (st.len + 1) 0,
          len := st.len + 1 }
        ((st.len + 1) :: st.len :: writes) (c :: echo)

/-- One call of `Sys_ConsoleInput` with the keys `keys` waiting. -/
def Sys_ConsoleInput (keys : List Int) (st : ConsoleState) : ConsoleResult :=
  consoleLoop keys st [] []

/-- The statics at program start: zero-initialised. -/
def consoleInit : ConsoleState := ⟨fun _ => 0, 0⟩

/-- A run of calls: before each call a batch of keys arrives behind the keys
still unread; the results of the calls, in order. -/
def consoleCalls : List (List Int) → List Int → ConsoleState → List ConsoleResult
  | [], _, _ => []
  | arrived :: more, pending, st =>
    Sys_ConsoleInput (pending ++ arrived) st
      :: consoleCalls more (Sys_ConsoleInput (pending ++ arrived) st).pending
          (Sys_ConsoleInput (pending ++ arrived) st).state

/-! ## Skin flood fill -/

/-- The constant `FLOODFILL_FIFO_SIZE` (0x1000). -/
def FLOODFILL_FIFO_SIZE : Nat := 4096

/-- The constant `FLOODFILL_FIFO_MASK`. -/
def FLOODFILL_FIFO_MASK : Nat := FLOODFILL_FIFO_SIZE - 1

/-- The variables that a `FLOODFILL_STEP` reads and writes: the skin bytes by
index, the FIFO entries `(x, y)` by index, `inpt` and `fdc`.  Bytes are
naturals; no arithmetic is done on them. -/
structure FloodVars where
  skin : Nat → Nat
  fifo : Nat → Nat × Nat
  inpt : Nat
  fdc : Nat

/-- The macro `FLOODFILL_STEP(off, dx, dy)`, with `pos` the index of
`pos[off]` in the skin and `(nx, ny)` the pair `(x + dx, y + dy)`. -/
def FLOODFILL_STEP (fillcolor pos nx ny : Nat) (v : FloodVars) : FloodVars :=
  if v.skin pos = fillcolor then
    { skin := Function.update v.skin pos 255
      fifo := Function.update v.fifo v.inpt (nx, ny)
      inpt := (v.inpt + 1) &&& FLOODFILL_FIFO_MASK
      fdc := v.fdc }
  else if v.skin pos ≠ 255 then { v with fdc := v.skin pos }
  else v

/-- The variables alive across iterations of the `while` loop of
`GL_FloodFillSkin`. -/
structure FloodState where
  skin : Nat → Nat
  fifo : Nat → Nat × Nat
  inpt : Nat
  outpt : Nat

/-- One iteration of the `while (outpt != inpt)` loop.  The guards keep the
subtractions exact: `x - 1` is taken only for `x > 0`, `y - 1` and the offset
`-skinwidth` only for `y > 0`. -/
def floodIter (fillcolor filledcolor skinwidth skinheight : Nat) (s : FloodState) :
    FloodState :=
  let x := (s.fifo s.outpt).1
  let y := (s.fifo s.outpt).2
  let v0 : FloodVars := ⟨s.skin, s.fifo, s.inpt, filledcolor⟩
  let v1 := if x > 0 then
      FLOODFILL_STEP fillcolor (x + skinwidth * y - 1) (x - 1) y v0 else v0
  let v2 := if x < skinwidth - 1 then
      FLOODFILL_STEP fillcolor (x + skinwidth * y + 1) (x + 1) y v1 else v1
  let v3 := if y > 0 then
      FLOODFILL_STEP fillcolor (x + skinwidth * y - skinwidth) x (y - 1) v2 else v2
  let v4 := if y < skinheight - 1 then
      FLOODFILL_STEP fillcolor (x + skinwidth * y + skinwidth) x (y + 1) v3 else v3
  { skin := Function.update v4.skin (x + skinwidth * y) v4.fdc
    fifo := v4.fifo
    inpt := v4.inpt
    outpt := (s.outpt + 1) &&& FLOODFILL_FIFO_MASK }

/-- The `while (outpt != inpt)` loop, at most `fuel` iterations; `none` when
the fuel runs out first. -/
def floodLoop (fillcolor filledcolor skinwidth skinheight : Nat) :
    Nat → FloodState → Option FloodState
  | 0, _ => none
  | fuel + 1, s =>
    if s.outpt = s.inpt then some s
    else floodLoop fillcolor filledcolor skinwidth skinheight fuel
      (floodIter fillcolor filledcolor skinwidth skinheight s)

/-- The search for opaque black: the first `i < 256` with
`d_8to24table[i] == (255 << 0)`, else 0. -/
def findFilledColor (d_8to24table : Nat → Nat) : Nat :=
  ((List.range 256).find? (fun i => decide (d_8to24table i = 255))).getD 0

/-- `GL_FloodFillSkin`: the skin bytes after the call.  `fifo0` is the content
of the uninitialised local array `fifo`. -/
def GL_FloodFillSkin (d_8to24table : Nat → Nat) (fifo0 : Nat → Nat × Nat) (fuel : Nat)
    (skin : Nat → Nat) (skinwidth skinheight : Nat) : Option (Nat → Nat) :=
  if skin 0 = findFilledColor d_8to24table ∨ skin 0 = 255 then some skin
  else
    (floodLoop (skin 0) (findFilledColor d_8to24table) skinwidth skinheight fuel
      { skin := skin
        fifo := Function.update fifo0 0 (0, 0)
        inpt := (0 + 1) &&& FLOODFILL_FIFO_MASK
        outpt := 0 }).map (fun s => s.skin)

/-- The index of pixel `(x, y)` in the skin: `x + skinwidth * y`. -/
def pixelIndex (w : Nat) (p : Nat × Nat) : Nat := p.1 + w * p.2

/-- The pixel `(x, y)` lies in the `w` by `h` skin. -/
def ValidPixel (w h : Nat) (p : Nat × Nat) : Prop := p.1 < w ∧ p.2 < h

/-- The pixel `q` is the left, right, upper or lower neighbour of `p` inside
the skin. -/
def Adjacent (w h : Nat) (p q : Nat × Nat) : Prop :=
  (0 < p.1 ∧ q = (p.1 - 1, p.2)) ∨ (p.1 < w - 1 ∧ q = (p.1 + 1, p.2)) ∨
  (0 < p.2 ∧ q = (p.1, p.2 - 1)) ∨ (p.2 < h - 1 ∧ q = (p.1, p.2 + 1))

/-- The 4-connected component of pixel `(0, 0)` among the pixels that have its
colour in `skin`. -/
inductive InComponent (w h : Nat) (skin : Nat → Nat) : Nat × Nat → Prop
  | start : InComponent w h skin (0, 0)
  | step (p q : Nat × Nat) : InComponent w h skin p → Adjacent w h p q →
      skin (pixelIndex w q) = skin 0 → InComponent w h skin q

/-- The loop invariant of the flood fill while FIFO entry `o` is the one being
(or about to be) taken out: entries below `inpt` are distinct pixels of the
component, all of them except entry `o` no longer have the fill colour,
pixels never entered are untouched, and every fill-coloured neighbour of an
entry below `o` has been entered. -/
structure FloodInv (w h : Nat) (sk0 : Nat → Nat) (o : Nat) (skin : Nat → Nat)
    (fifo : Nat → Nat × Nat) (inpt : Nat) : Prop where
  first : 0 < inpt ∧ fifo 0 = (0, 0)
  valid : ∀ j < inpt, ValidPixel w h (fifo j) ∧ InComponent w h sk0 (fifo j)
  inj : ∀ i < inpt, ∀ j < inpt, fifo i = fifo j → i = j
  marked : ∀ j < inpt, j ≠ o → skin (pixelIndex w (fifo j)) ≠ sk0 0
  kept : ∀ q, ValidPixel w h q → (∀ j < inpt, fifo j ≠ q) →
    skin (pixelIndex w q) = sk0 (pixelIndex w q)
  closed : ∀ j < o, ∀ q, Adjacent w h (fifo j) q → sk0 (pixelIndex w q) = sk0 0 →
    ∃ i < inpt, fifo i = q

/-- A 2 by 2 skin with colours 1 1 / 2 1 (row by row); bytes beyond it are 0. -/
def exSkin : Nat → Nat := fun i => [1, 1, 2, 1].getD i 0

/-- A palette whose entry 0 is opaque black. -/
def exPalette : Nat → Nat := fun i => if i = 0 then 255 else 0

/-! # Theorems -/

/-! ## Frustum culling -/

theorem BoxOnPlaneSide_eq_two (emins emaxs : vec3_t) (p : mplane_t) :
    BoxOnPlaneSide emins emaxs p = 2 ↔
      (p.normal.x * cornerHi (p.signbits.val.testBit 0) emins.x emaxs.x
        + p.normal.y * cornerHi (p.signbits.val.testBit 1) emins.y emaxs.y
        + p.normal.z * cornerHi (p.signbits.val.testBit 2) emins.z emaxs.z < p.dist) ∧
      (p.normal.x * cornerLo (p.signbits.val.testBit 0) emins.x emaxs.x
        + p.normal.y * cornerLo (p.signbits.val.testBit 1) emins.y emaxs.y
        + p.normal.z * cornerLo (p.signbits.val.testBit 2) emins.z emaxs.z < p.dist) := by
  unfold BoxOnPlaneSide
  simp only []
  split_ifs with h1 h2 h2
  · simp only [not_lt.mpr h1, false_and]; decide
  · simp only [not_lt.mpr h1, false_and]; decide
  · simp only [not_le.mp h1, h2, and_self]; decide
  · simp only [h2, and_false]

theorem signbits_testBit (n : vec3_t) :
    (SignbitsForPlane n).val.testBit 0 = decide (n.x < 0) ∧
    (SignbitsForPlane n).val.testBit 1 = decide (n.y < 0) ∧
    (SignbitsForPlane n).val.testBit 2 = decide (n.z < 0) := by
  unfold SignbitsForPlane
  by_cases hx : n.x < 0 <;> by_cases hy : n.y < 0 <;> by_cases hz : n.z < 0 <;>
    simp [hx, hy, hz] <;> decide

theorem axis_le_cornerHi (n lo hi c : ℚ) (h1 : lo ≤ c) (h2 : c ≤ hi) :
    n * c ≤ n * cornerHi (decide (n < 0)) lo hi := by
  unfold cornerHi
  by_cases hn : n < 0
  · simp only [hn, decide_True, if_true]
    exact mul_le_mul_of_nonpos_left h1 hn.le
  · simp only [hn, decide_False]
    exact mul_le_mul_of_nonneg_left h2 (not_lt.mp hn)


theorem dot_le_farCorner (n mins maxs p : vec3_t) (hp : InBox mins maxs p) :
    DotProduct n p ≤
      n.x * cornerHi ((SignbitsForPlane n).val.testBit 0) mins.x maxs.x
        + n.y * cornerHi ((SignbitsForPlane n).val.testBit 1) mins.y maxs.y
        + n.z * cornerHi ((SignbitsForPlane n).val.testBit 2) mins.z maxs.z := by
  obtain ⟨b0, b1, b2⟩ := signbits_testBit n
  obtain ⟨hx1, hx2, hy1, hy2, hz1, hz2⟩ := hp
  rw [b0, b1, b2]
  unfold DotProduct
  have ex := axis_le_cornerHi n.x mins.x maxs.x p.x hx1 hx2
  have ey := axis_le_cornerHi n.y mins.y maxs.y p.y hy1 hy2
  have ez := axis_le_cornerHi n.z mins.z maxs.z p.z hz1 hz2
  linarith

theorem cullScan_spec (frustum : Frustum) (mins maxs : vec3_t) (l : List (Fin 4)) :
    ∀ t : Nat,
      ((cullScan frustum mins maxs l t).1 = true ↔
        ∃ i ∈ l, BoxOnPlaneSide mins maxs (frustum i) = 2) ∧
      ((cullScan frustum mins maxs l t).1 = false →
        (cullScan frustum mins maxs l t).2 = t + l.length) := by
  induction l with
  | nil => intro t; simp [cullScan]
  | cons i rest ih =>
    intro t
    by_cases h : BoxOnPlaneSide mins maxs (frustum i) = 2
    · simp [cullScan, h]
    · obtain ⟨h1, h2⟩ := ih (t + 1)
      simp only [cullScan, h, if_false, List.mem_cons, exists_eq_or_imp, false_or,
        List.length_cons]
      refine ⟨h1, fun hf => ?_⟩
      rw [h2 hf]; omega

theorem R_CullBox_iff (frustum : Frustum) (mins maxs : vec3_t) :
    R_CullBox frustum mins maxs = true ↔
      ∃ i : Fin 4, BoxOnPlaneSide mins maxs (frustum i) = 2 := by
  unfold R_CullBox R_CullBox_traced
  rw [(cullScan_spec frustum mins maxs [0, 1, 2, 3] 0).1]
  constructor
  · rintro ⟨i, _, hi⟩; exact ⟨i, hi⟩
  · rintro ⟨i, hi⟩
    refine ⟨i, ?_, hi⟩
    fin_cases i <;> simp

theorem R_SetFrustum_outside (v : ViewState) (rotated : Fin 4 → vec3_t)
    (old : Frustum) (mins maxs : vec3_t) (i : Fin 4)
    (hi : BoxOnPlaneSide mins maxs (R_SetFrustum 0 v rotated old i) = 2)
    (p : vec3_t) (hp : InBox mins maxs p) :
    DotProduct (R_SetFrustum 0 v rotated old i).normal p
      < (R_SetFrustum 0 v rotated old i).dist := by
  rw [BoxOnPlaneSide_eq_two] at hi
  have hle := dot_le_farCorner (R_SetFrustum 0 v rotated old i).normal mins maxs p hp
  have hs : (R_SetFrustum 0 v rotated old i).signbits
      = SignbitsForPlane (R_SetFrustum 0 v rotated old i).normal := by
    simp [R_SetFrustum]
  rw [hs] at hi
  exact lt_of_le_of_lt hle hi.1

theorem R_SetFrustum_keeps_origin_box (v : ViewState) (rotated : Fin 4 → vec3_t)
    (old : Frustum) (mins maxs : vec3_t) (ho : InBox mins maxs v.r_origin) :
    R_CullBox (R_SetFrustum 0 v rotated old) mins maxs = false := by
  by_contra hne
  have hc : R_CullBox (R_SetFrustum 0 v rotated old) mins maxs = true := by
    simpa using hne
  obtain ⟨i, hi⟩ := (R_CullBox_iff _ mins maxs).1 hc
  have := R_SetFrustum_outside v rotated old mins maxs i hi v.r_origin ho
  have hd : (R_SetFrustum 0 v rotated old i).dist
      = DotProduct v.r_origin (R_SetFrustum 0 v rotated old i).normal := by
    simp [R_SetFrustum]
  rw [hd] at this
  have hcomm : ∀ a b : vec3_t, DotProduct a b = DotProduct b a := by
    intro a b; unfold DotProduct; ring
  rw [hcomm] at this
  exact lt_irrefl _ this

/-- C1. Frustum culling is sound.  After `R_SetFrustum` (frustum lock off) has
built the four planes, each plane has `dist = r_origin . normal`; whenever
`R_CullBox` returns true some plane has `normal . p < dist` for every point
`p` of the box, so no point of the box is inside all four half-spaces; and a
box that contains `r_origin` is never culled. -/
theorem C1_frustum_culling_sound (v : ViewState) (rotated : Fin 4 → vec3_t)
    (old : Frustum) (mins maxs : vec3_t) :
    (∀ i, (R_SetFrustum 0 v rotated old i).dist
        = DotProduct v.r_origin (R_SetFrustum 0 v rotated old i).normal) ∧
    (R_CullBox (R_SetFrustum 0 v rotated old) mins maxs = true →
      (∃ i, ∀ p, InBox mins maxs p →
        DotProduct (R_SetFrustum 0 v rotated old i).normal p
          < (R_SetFrustum 0 v rotated old i).dist) ∧
      (∀ p, InBox mins maxs p →
        ¬ ∀ i, DotProduct (R_SetFrustum 0 v rotated old i).normal p
          ≥ (R_SetFrustum 0 v rotated old i).dist)) ∧
    (InBox mins maxs v.r_origin →
      R_CullBox (R_SetFrustum 0 v rotated old) mins maxs = false) := by
  refine ⟨fun i => by simp [R_SetFrustum], ?_,
    R_SetFrustum_keeps_origin_box v rotated old mins maxs⟩
  intro hc
  obtain ⟨i, hi⟩ := (R_CullBox_iff _ mins maxs).1 hc
  refine ⟨⟨i, R_SetFrustum_outside v rotated old mins maxs i hi⟩, fun p hp hall => ?_⟩
  exact absurd (R_SetFrustum_outside v rotated old mins maxs i hi p hp) (not_lt.mpr (hall i))

/-- C2. `R_CullBox` returns true exactly when one of the four planes
classifies the box as entirely outside (`BoxOnPlaneSide == 2`); planes that
all classify it as inside (1) or intersecting (3) give false; a false result
comes only after all four planes were tested; and permuting the four planes
does not change the result. -/
theorem C2_cullbox_iff_some_plane_outside (frustum : Frustum) (mins maxs : vec3_t) :
    (R_CullBox frustum mins maxs = true ↔
      ∃ i : Fin 4, BoxOnPlaneSide mins maxs (frustum i) = 2) ∧
    ((∀ i : Fin 4, BoxOnPlaneSide mins maxs (frustum i) = 3 ∨
        BoxOnPlaneSide mins maxs (frustum i) = 1) →
      R_CullBox frustum mins maxs = false) ∧
    (R_CullBox frustum mins maxs = false →
      (R_CullBox_traced frustum mins maxs).2 = 4) ∧
    (∀ σ : Equiv.Perm (Fin 4),
      R_CullBox (fun i => frustum (σ i)) mins maxs = R_CullBox frustum mins maxs) := by
  refine ⟨R_CullBox_iff frustum mins maxs, ?_, ?_, ?_⟩
  · intro hall
    by_contra hne
    have hc : R_CullBox frustum mins maxs = true := by simpa using hne
    obtain ⟨i, hi⟩ := (R_CullBox_iff _ mins maxs).1 hc
    rcases hall i with h | h <;> omega
  · intro hf
    have := (cullScan_spec frustum mins maxs [0, 1, 2, 3] 0).2 hf
    simpa [R_CullBox_traced] using this
  · intro σ
    rw [Bool.eq_iff_iff, R_CullBox_iff, R_CullBox_iff]
    constructor
    · rintro ⟨i, hi⟩; exact ⟨σ i, hi⟩
    · rintro ⟨i, hi⟩; exact ⟨σ.symm i, by simpa using hi⟩

/-! ## Two-pass draw order -/

theorem drawLoop_first (ents : List entity_t) : ∀ i : Nat,
    drawLoop firstPassCase ents i
      = ((ents.enumFrom i).filter
          (fun p => decide (p.2.model.type ≠ modtype_t.mod_sprite))).map dispatchOf := by
  induction ents with
  | nil => intro i; rfl
  | cons e rest ih =>
    intro i
    rw [drawLoop, ih (i + 1), List.enumFrom_cons, List.filter_cons]
    cases h : e.model.type <;> simp [firstPassCase, dispatchOf, h]

theorem drawLoop_second (ents : List entity_t) : ∀ i : Nat,
    drawLoop secondPassCase ents i
      = ((ents.enumFrom i).filter
          (fun p => decide (p.2.model.type = modtype_t.mod_sprite))).map dispatchOf := by
  induction ents with
  | nil => intro i; rfl
  | cons e rest ih =>
    intro i
    rw [drawLoop, ih (i + 1), List.enumFrom_cons, List.filter_cons]
    cases h : e.model.type <;> simp [secondPassCase, dispatchOf, h]

theorem dispatchOf_ent (p : Nat × entity_t) : (dispatchOf p).ent = p.1 := by
  unfold dispatchOf
  cases p.2.model.type <;> rfl

theorem dispatchOf_isSprite (p : Nat × entity_t) :
    (dispatchOf p).isSprite = decide (p.2.model.type = modtype_t.mod_sprite) := by
  unfold dispatchOf
  cases h : p.2.model.type <;> simp [DrawCall.isSprite]

theorem split_order (A B : List DrawCall)
    (hA : ∀ c ∈ A, c.isSprite = false) (hB : ∀ c ∈ B, c.isSprite = true)
    (k l : Nat) (c d : DrawCall) (hk : (A ++ B)[k]? = some c) (hl : (A ++ B)[l]? = some d)
    (hc : c.isSprite = false) (hd : d.isSprite = true) : k < l := by
  have hkA : k < A.length := by
    by_contra hge
    rw [List.getElem?_append_right (not_lt.mp hge)] at hk
    have := hB c (List.getElem?_mem hk)
    rw [hc] at this; exact Bool.noConfusion this
  have hlA : A.length ≤ l := by
    by_contra hlt
    rw [List.getElem?_append_left (not_le.mp hlt)] at hl
    have := hA d (List.getElem?_mem hl)
    rw [hd] at this; exact Bool.noConfusion this
  omega

/-- C3. Two-pass draw order.  With `r_drawentities` on, the draw calls of
`R_DrawEntitiesOnList` are the alias and brush entities in list order followed
by the sprite entities in list order; every opaque draw is strictly before
every sprite draw, and no entity is dispatched twice. -/
theorem C3_two_pass_draw_order (r_drawentities : ℚ) (hon : r_drawentities ≠ 0)
    (cl_visedicts : List entity_t) :
    R_DrawEntitiesOnList r_drawentities cl_visedicts
      = (cl_visedicts.enum.filter
          (fun p => decide (p.2.model.type ≠ modtype_t.mod_sprite))).map dispatchOf
        ++ (cl_visedicts.enum.filter
          (fun p => decide (p.2.model.type = modtype_t.mod_sprite))).map dispatchOf ∧
    (∀ (k l : Nat) (c d : DrawCall),
      (R_DrawEntitiesOnList r_drawentities cl_visedicts)[k]? = some c →
      (R_DrawEntitiesOnList r_drawentities cl_visedicts)[l]? = some d →
      c.isSprite = false → d.isSprite = true → k < l) ∧
    ((R_DrawEntitiesOnList r_drawentities cl_visedicts).map DrawCall.ent).Nodup := by
  have heq : R_DrawEntitiesOnList r_drawentities cl_visedicts
      = (cl_visedicts.enum.filter
          (fun p => decide (p.2.model.type ≠ modtype_t.mod_sprite))).map dispatchOf
        ++ (cl_visedicts.enum.filter
          (fun p => decide (p.2.model.type = modtype_t.mod_sprite))).map dispatchOf := by
    unfold R_DrawEntitiesOnList
    rw [if_neg hon, drawLoop_first, drawLoop_second]
    rfl
  refine ⟨heq, ?_, ?_⟩
  · rw [heq]
    apply split_order
    · intro c hc
      obtain ⟨p, hp, rfl⟩ := List.mem_map.1 hc
      rw [dispatchOf_isSprite]
      have := (List.mem_filter.1 hp).2
      simpa using this
    · intro c hc
      obtain ⟨p, hp, rfl⟩ := List.mem_map.1 hc
      rw [dispatchOf_isSprite]
      have := (List.mem_filter.1 hp).2
      simpa using this
  · rw [heq, List.map_append, List.map_map, List.map_map]
    have hfun : (DrawCall.ent ∘ dispatchOf) = Prod.fst := by
      funext p; exact dispatchOf_ent p
    rw [hfun, ← List.map_append]
    have hperm : (cl_visedicts.enum.filter
          (fun p => decide (p.2.model.type ≠ modtype_t.mod_sprite))
        ++ cl_visedicts.enum.filter
          (fun p => decide (p.2.model.type = modtype_t.mod_sprite))).Perm
        cl_visedicts.enum := by
      have h := List.filter_append_perm
        (fun p : Nat × entity_t => decide (p.2.model.type ≠ modtype_t.mod_sprite))
        cl_visedicts.enum
      have hneg : (fun p : Nat × entity_t =>
          !decide (p.2.model.type ≠ modtype_t.mod_sprite))
          = (fun p : Nat × entity_t => decide (p.2.model.type = modtype_t.mod_sprite)) := by
        funext p; simp
      rw [hneg] at h
      exact h
    rw [(hperm.map Prod.fst).nodup_iff, List.enum_map_fst]
    exact List.nodup_range _

/-! ## Visibility marking -/

theorem closed_ancestors (parent : NodeRef → Option NodeRef) (count : Int)
    (vis : NodeRef → Int) (hcl : Closed parent count vis) :
    ∀ (k : Nat) (x a : NodeRef), vis x = count → parentIter parent k x = some a →
      vis a = count := by
  intro k
  induction k with
  | zero =>
    intro x a hx h
    simp only [parentIter, Option.some.injEq] at h
    rw [← h]; exact hx
  | succ k ih =>
    intro x a hx h
    unfold parentIter at h
    cases hp : parent x with
    | none => rw [hp] at h; exact Option.noConfusion h
    | some p =>
      rw [hp] at h
      exact ih p a (hcl x p hx hp) h

theorem ancestor_step (parent : NodeRef → Option NodeRef) (node p a : NodeRef)
    (hp : parent node = some p) :
    IsAncestorOrSelf parent a node ↔ a = node ∨ IsAncestorOrSelf parent a p := by
  constructor
  · rintro ⟨k, hk⟩
    cases k with
    | zero =>
      simp only [parentIter, Option.some.injEq] at hk
      exact Or.inl hk.symm
    | succ k =>
      unfold parentIter at hk
      rw [hp] at hk
      exact Or.inr ⟨k, hk⟩
  · rintro (rfl | ⟨k, hk⟩)
    · exact ⟨0, rfl⟩
    · refine ⟨k + 1, ?_⟩
      unfold parentIter
      rw [hp]; exact hk

theorem ancestor_root (parent : NodeRef → Option NodeRef) (node a : NodeRef)
    (hp : parent node = none) :
    IsAncestorOrSelf parent a node ↔ a = node := by
  constructor
  · rintro ⟨k, hk⟩
    cases k with
    | zero =>
      simp only [parentIter, Option.some.injEq] at hk
      exact hk.symm
    | succ k =>
      unfold parentIter at hk
      rw [hp] at hk
      exact Option.noConfusion hk
  · rintro rfl
    exact ⟨0, rfl⟩

theorem markWalk_spec (parent : NodeRef → Option NodeRef) (count : Int) :
    ∀ (fuel : Nat) (node : NodeRef) (vis : NodeRef → Int) (writes : List NodeRef),
      chainEnds parent fuel node = true →
      ClosedUpTo parent count vis node →
      (∀ y ∈ writes, vis y = count) → writes.Nodup →
      ∃ vis1 writes1, markWalk parent count fuel node vis writes = some (vis1, writes1) ∧
        (∀ x, vis1 x = count ↔ vis x = count ∨ IsAncestorOrSelf parent x node) ∧
        (∀ x, vis1 x ≠ count → vis1 x = vis x) ∧
        Closed parent count vis1 ∧
        (∀ y ∈ writes1, vis1 y = count) ∧ writes1.Nodup := by
  intro fuel
  induction fuel with
  | zero => intro node vis writes h; simp [chainEnds] at h
  | succ fuel ih =>
    intro node vis writes hend hcl hw hnd
    by_cases hv : vis node = count
    · have hclosed : Closed parent count vis := by
        intro x p hx hp
        rcases hcl x p hx hp with h | h
        · exact h
        · rw [h]; exact hv
      refine ⟨vis, writes, by simp [markWalk, hv], ?_, fun _ _ => rfl, hclosed, hw, hnd⟩
      intro x
      constructor
      · exact fun h => Or.inl h
      · rintro (h | ⟨k, hk⟩)
        · exact h
        · exact closed_ancestors parent count vis hclosed k node x hv hk
    · have hnot : node ∉ writes := fun hmem => hv (hw node hmem)
      have hw1 : ∀ y ∈ node :: writes, Function.update vis node count y = count := by
        intro y hy
        rcases List.mem_cons.1 hy with rfl | hy
        · simp
        · by_cases hyn : y = node
          · rw [hyn]; simp
          · rw [Function.update_noteq hyn]; exact hw y hy
      have hnd1 : (node :: writes).Nodup := List.nodup_cons.2 ⟨hnot, hnd⟩
      have hupd : ∀ x, Function.update vis node count x = count ↔ x = node ∨ vis x = count := by
        intro x
        by_cases hx : x = node
        · rw [hx]; simp
        · rw [Function.update_noteq hx]; simp [hx]
      cases hp : parent node with
      | none =>
        refine ⟨Function.update vis node count, node :: writes, by simp [markWalk, hv, hp],
          ?_, ?_, ?_, hw1, hnd1⟩
        · intro x
          rw [hupd, ancestor_root parent node x hp]
          exact or_comm
        · intro x hx
          have hxn : x ≠ node := fun h => hx ((hupd x).2 (Or.inl h))
          exact Function.update_noteq hxn _ _
        · intro x p hx hpx
          rcases (hupd x).1 hx with rfl | hx'
          · rw [hp] at hpx; exact Option.noConfusion hpx
          · rcases hcl x p hx' hpx with h | h
            · exact (hupd p).2 (Or.inr h)
            · exact (hupd p).2 (Or.inl h)
      | some p =>
        have hend1 : chainEnds parent fuel p = true := by
          simpa [chainEnds, hp] using hend
        have hcl1 : ClosedUpTo parent count (Function.update vis node count) p := by
          intro x q hx hq
          rcases (hupd x).1 hx with rfl | hx'
          · rw [hp] at hq
            exact Or.inr (Option.some.inj hq).symm
          · rcases hcl x q hx' hq with h | h
            · exact Or.inl ((hupd q).2 (Or.inr h))
            · exact Or.inl ((hupd q).2 (Or.inl h))
        obtain ⟨vis1, writes1, hrun, hiff, hsame, hclosed, hw2, hnd2⟩ :=
          ih p (Function.update vis node count) (node :: writes) hend1 hcl1 hw1 hnd1
        refine ⟨vis1, writes1, by simp [markWalk, hv, hp, hrun], ?_, ?_, hclosed, hw2, hnd2⟩
        · intro x
          rw [hiff, hupd, ancestor_step parent node p x hp]
          tauto
        · intro x hx
          rw [hsame x hx]
          have hxn : x ≠ node := by
            intro h
            exact hx ((hiff x).2 (Or.inl ((hupd x).2 (Or.inl h))))
          exact Function.update_noteq hxn _ _

theorem markWalk_total (parent : NodeRef → Option NodeRef) (count : Int) :
    ∀ (fuel : Nat) (node : NodeRef) (vis : NodeRef → Int) (writes : List NodeRef),
      chainEnds parent fuel node = true →
      ∃ vis1 writes1, markWalk parent count fuel node vis writes = some (vis1, writes1) ∧
        vis1 node = count ∧
        (∀ x, vis x = count → vis1 x = count) ∧
        (∀ x, vis1 x ≠ count → vis1 x = vis x) := by
  intro fuel
  induction fuel with
  | zero => intro node vis writes h; simp [chainEnds] at h
  | succ fuel ih =>
    intro node vis writes hend
    by_cases hv : vis node = count
    · exact ⟨vis, writes, by simp [markWalk, hv], hv, fun _ h => h, fun _ _ => rfl⟩
    · have hupd : ∀ x, vis x = count → Function.update vis node count x = count := by
        intro x hx
        by_cases hxn : x = node
        · rw [hxn]; simp
        · rw [Function.update_noteq hxn]; exact hx
      have hsame : ∀ x, Function.update vis node count x ≠ count →
          Function.update vis node count x = vis x := by
        intro x hx
        have hxn : x ≠ node := by
          intro h; apply hx; rw [h]; simp
        exact Function.update_noteq hxn _ _
      cases hp : parent node with
      | none =>
        exact ⟨Function.update vis node count, node :: writes, by simp [markWalk, hv, hp],
          by simp, hupd, hsame⟩
      | some p =>
        have hend1 : chainEnds parent fuel p = true := by
          simpa [chainEnds, hp] using hend
        obtain ⟨vis1, writes1, hrun, _, hkeep, hsame1⟩ :=
          ih p (Function.update vis node count) (node :: writes) hend1
        refine ⟨vis1, writes1, by simp [markWalk, hv, hp, hrun], ?_, ?_, ?_⟩
        · exact hkeep node (by simp)
        · exact fun x hx => hkeep x (hupd x hx)
        · intro x hx
          rw [hsame1 x hx]
          apply hsame
          intro h
          exact hx (hkeep x h)

theorem markLeafbits_total (parent : NodeRef → Option NodeRef) (count : Int) (fuel : Nat) :
    ∀ (leafnums : List Nat) (vis : NodeRef → Int) (tr : MarkTrace),
      (∀ n ∈ leafnums, chainEnds parent fuel (NodeRef.leaf (n + 1)) = true) →
      ∃ vis1 tr1, markLeafbits parent count fuel leafnums vis tr = some (vis1, tr1) ∧
        (∀ n ∈ leafnums, vis1 (NodeRef.leaf (n + 1)) = count) ∧
        (∀ x, vis x = count → vis1 x = count) ∧
        (∀ x, vis1 x ≠ count → vis1 x = vis x) ∧
        tr1.walks = leafnums.reverse ++ tr.walks := by
  intro leafnums
  induction leafnums with
  | nil =>
    intro vis tr _
    exact ⟨vis, tr, rfl, by simp, fun _ h => h, fun _ _ => rfl, by simp⟩
  | cons n rest ih =>
    intro vis tr hend
    obtain ⟨vis1, writes1, hrun, hnode, hkeep, hsame⟩ :=
      markWalk_total parent count fuel (NodeRef.leaf (n + 1)) vis tr.writes
        (hend n (List.mem_cons_self _ _))
    obtain ⟨vis2, tr2, hrun2, hall, hkeep2, hsame2, hwalks⟩ :=
      ih vis1 ⟨n :: tr.walks, writes1⟩ (fun m hm => hend m (List.mem_cons_of_mem _ hm))
    refine ⟨vis2, tr2, by simp [markLeafbits, hrun, hrun2], ?_, ?_, ?_, ?_⟩
    · intro m hm
      rcases List.mem_cons.1 hm with rfl | hm
      · exact hkeep2 _ hnode
      · exact hall m hm
    · exact fun x hx => hkeep2 x (hkeep x hx)
    · intro x hx
      rw [hsame2 x hx]
      exact hsame x (fun h => hx (hkeep2 x h))
    · rw [hwalks]; simp

theorem markLeafbits_spec (parent : NodeRef → Option NodeRef) (count : Int) (fuel : Nat) :
    ∀ (leafnums : List Nat) (vis : NodeRef → Int) (tr : MarkTrace),
      (∀ n ∈ leafnums, chainEnds parent fuel (NodeRef.leaf (n + 1)) = true) →
      Closed parent count vis →
      (∀ y ∈ tr.writes, vis y = count) → tr.writes.Nodup →
      ∃ vis1 tr1, markLeafbits parent count fuel leafnums vis tr = some (vis1, tr1) ∧
        (∀ x, vis1 x = count ↔
          vis x = count ∨ ∃ n ∈ leafnums, IsAncestorOrSelf parent x (NodeRef.leaf (n + 1))) ∧
        (∀ x, vis1 x ≠ count → vis1 x = vis x) ∧
        Closed parent count vis1 ∧
        (∀ y ∈ tr1.writes, vis1 y = count) ∧ tr1.writes.Nodup := by
  intro leafnums
  induction leafnums with
  | nil =>
    intro vis tr _ hcl hw hnd
    exact ⟨vis, tr, rfl, by simp, fun _ _ => rfl, hcl, hw, hnd⟩
  | cons n rest ih =>
    intro vis tr hend hcl hw hnd
    obtain ⟨vis1, writes1, hrun, hiff, hsame, hcl1, hw1, hnd1⟩ :=
      markWalk_spec parent count fuel (NodeRef.leaf (n + 1)) vis tr.writes
        (hend n (List.mem_cons_self _ _)) (fun x p hx hp => Or.inl (hcl x p hx hp)) hw hnd
    obtain ⟨vis2, tr2, hrun2, hiff2, hsame2, hcl2, hw2, hnd2⟩ :=
      ih vis1 ⟨n :: tr.walks, writes1⟩ (fun m hm => hend m (List.mem_cons_of_mem _ hm))
        hcl1 hw1 hnd1
    refine ⟨vis2, tr2, by simp [markLeafbits, hrun, hrun2], ?_, ?_, hcl2, hw2, hnd2⟩
    · intro x
      rw [hiff2, hiff]
      simp only [List.mem_cons, exists_eq_or_imp]
      tauto
    · intro x hx
      rw [hsame2 x hx]
      exact hsame x (fun h => hx ((hiff2 x).2 (Or.inl h)))

theorem R_MarkLeaves_skip (fuel : Nat) (s : RenderState)
    (h : ¬ ((s.r_oldviewleaf ≠ some s.r_viewleaf ∨ s.r_novis ≠ 0) ∧ s.mirror = false)) :
    R_MarkLeaves fuel s = some (s, ⟨[], []⟩) := by
  unfold R_MarkLeaves
  by_cases h1 : s.r_oldviewleaf = some s.r_viewleaf ∧ s.r_novis = 0
  · rw [if_pos h1]
  · rw [if_neg h1]
    have hm : s.mirror = true := by
      cases hmir : s.mirror with
      | true => rfl
      | false =>
        exfalso; apply h
        refine ⟨?_, hmir⟩
        by_contra hcon
        push_neg at hcon
        exact h1 hcon
    simp [hm]

theorem R_MarkLeaves_unfold (fuel : Nat) (s : RenderState)
    (h : (s.r_oldviewleaf ≠ some s.r_viewleaf ∨ s.r_novis ≠ 0) ∧ s.mirror = false) :
    R_MarkLeaves fuel s =
      match markLeafbits s.worldmodel.parent (s.r_visframecount + 1) fuel
          (foreach_leafbit (s.worldmodel.Mod_LeafPVS (pvsLeaf s)))
          s.worldmodel.visframe ⟨[], []⟩ with
      | none => none
      | some (vis, tr) =>
        some ({ s with
                  r_visframecount := s.r_visframecount + 1
                  r_oldviewleaf := some s.r_viewleaf
                  worldmodel := { s.worldmodel with visframe := vis } }, tr) := by
  unfold R_MarkLeaves
  have h1 : ¬ (s.r_oldviewleaf = some s.r_viewleaf ∧ s.r_novis = 0) := by
    rintro ⟨ha, hb⟩
    rcases h.1 with h' | h'
    · exact h' ha
    · exact h' hb
  rw [if_neg h1]
  simp [h.2]

theorem R_MarkLeaves_recompute (fuel : Nat) (s : RenderState)
    (h : (s.r_oldviewleaf ≠ some s.r_viewleaf ∨ s.r_novis ≠ 0) ∧ s.mirror = false)
    (hend : ∀ n ∈ foreach_leafbit (s.worldmodel.Mod_LeafPVS (pvsLeaf s)),
      chainEnds s.worldmodel.parent fuel (NodeRef.leaf (n + 1)) = true)
    (hfresh : ∀ x, s.worldmodel.visframe x ≠ s.r_visframecount + 1) :
    ∃ s1 tr, R_MarkLeaves fuel s = some (s1, tr) ∧
      s1.r_visframecount = s.r_visframecount + 1 ∧
      s1.worldmodel.parent = s.worldmodel.parent ∧
      (∀ x, s1.worldmodel.visframe x = s1.r_visframecount ↔
        VisibleFrom s.worldmodel.parent (s.worldmodel.Mod_LeafPVS (pvsLeaf s)) x) ∧
      (∀ x, s1.worldmodel.visframe x ≠ s1.r_visframecount →
        s1.worldmodel.visframe x = s.worldmodel.visframe x) ∧
      tr.writes.Nodup := by
  obtain ⟨vis1, tr1, hrun, hiff, hsame, _, _, hnd⟩ :=
    markLeafbits_spec s.worldmodel.parent (s.r_visframecount + 1) fuel
      (foreach_leafbit (s.worldmodel.Mod_LeafPVS (pvsLeaf s))) s.worldmodel.visframe ⟨[], []⟩
      hend (fun x _ hx _ => absurd hx (hfresh x)) (by simp) (by simp)
  refine ⟨{ s with
              r_visframecount := s.r_visframecount + 1
              r_oldviewleaf := some s.r_viewleaf
              worldmodel := { s.worldmodel with visframe := vis1 } }, tr1,
    by rw [R_MarkLeaves_unfold fuel s h, hrun], rfl, rfl, ?_, hsame, hnd⟩
  intro x
  show vis1 x = s.r_visframecount + 1 ↔ _
  rw [hiff]
  unfold VisibleFrom
  constructor
  · rintro (hx | hx)
    · exact absurd hx (hfresh x)
    · exact hx
  · exact fun hx => Or.inr hx

theorem R_MarkLeaves_recompute_total (fuel : Nat) (s : RenderState)
    (h : (s.r_oldviewleaf ≠ some s.r_viewleaf ∨ s.r_novis ≠ 0) ∧ s.mirror = false)
    (hend : ∀ n ∈ foreach_leafbit (s.worldmodel.Mod_LeafPVS (pvsLeaf s)),
      chainEnds s.worldmodel.parent fuel (NodeRef.leaf (n + 1)) = true) :
    ∃ s1 tr, R_MarkLeaves fuel s = some (s1, tr) ∧
      s1.r_visframecount = s.r_visframecount + 1 ∧
      s1.r_oldviewleaf = some s.r_viewleaf ∧
      s1.r_viewleaf = s.r_viewleaf ∧ s1.r_novis = s.r_novis ∧ s1.mirror = s.mirror ∧
      s1.worldmodel.parent = s.worldmodel.parent ∧
      s1.worldmodel.Mod_LeafPVS = s.worldmodel.Mod_LeafPVS ∧
      (∀ n ∈ foreach_leafbit (s.worldmodel.Mod_LeafPVS (pvsLeaf s)),
        s1.worldmodel.visframe (NodeRef.leaf (n + 1)) = s1.r_visframecount) ∧
      (∀ x, s1.worldmodel.visframe x ≠ s1.r_visframecount →
        s1.worldmodel.visframe x = s.worldmodel.visframe x) ∧
      tr.walks = (foreach_leafbit (s.worldmodel.Mod_LeafPVS (pvsLeaf s))).reverse := by
  obtain ⟨vis1, tr1, hrun, hall, _, hsame, hwalks⟩ :=
    markLeafbits_total s.worldmodel.parent (s.r_visframecount + 1) fuel
      (foreach_leafbit (s.worldmodel.Mod_LeafPVS (pvsLeaf s))) s.worldmodel.visframe ⟨[], []⟩
      hend
  exact ⟨{ s with
              r_visframecount := s.r_visframecount + 1
              r_oldviewleaf := some s.r_viewleaf
              worldmodel := { s.worldmodel with visframe := vis1 } }, tr1,
    by rw [R_MarkLeaves_unfold fuel s h, hrun], rfl, rfl, rfl, rfl, rfl, rfl, rfl,
    hall, hsame, by simpa using hwalks⟩

theorem exWorld_chainEnds (x : NodeRef) : chainEnds exWorld.parent 2 x = true := by
  cases x with
  | leaf n =>
    rcases n with _ | _ | _ | n <;> simp [chainEnds, exWorld]
  | node n => simp [chainEnds, exWorld]

theorem exWorld_not_ancestor :
    ¬ IsAncestorOrSelf exWorld.parent (NodeRef.leaf 2) (NodeRef.leaf 1) := by
  rintro ⟨k, hk⟩
  rcases k with _ | _ | _ | k <;> simp [parentIter, exWorld] at hk

/-- C4 (as stated) fails when `r_novis` is on: the call recomputes on a fresh
finite tree, yet `leafs[2]` gets the new count although its bit is not set in
the PVS of the view leaf (leaf 1) and it is no ancestor of a leaf of that
PVS. -/
theorem C4_counterexample_novis :
    (∀ x, chainEnds exNovis.worldmodel.parent 2 x = true) ∧
    (∀ x, exNovis.worldmodel.visframe x ≠ exNovis.r_visframecount + 1) ∧
    ∃ s1 tr, R_MarkLeaves 2 exNovis = some (s1, tr) ∧
      s1.r_visframecount = exNovis.r_visframecount + 1 ∧
      ¬ (s1.worldmodel.visframe (NodeRef.leaf 2) = s1.r_visframecount ↔
          VisibleFrom exNovis.worldmodel.parent
            (exNovis.worldmodel.Mod_LeafPVS exNovis.r_viewleaf) (NodeRef.leaf 2)) := by
  have hfresh : ∀ x, exNovis.worldmodel.visframe x ≠ exNovis.r_visframecount + 1 := by
    intro x; simp [exNovis, exWorld]
  refine ⟨exWorld_chainEnds, hfresh, ?_⟩
  obtain ⟨s1, tr, hrun, hcount, _, hiff, _, _⟩ :=
    R_MarkLeaves_recompute 2 exNovis
      ⟨Or.inr (by simp [exNovis]), rfl⟩ (fun n _ => exWorld_chainEnds _) hfresh
  refine ⟨s1, tr, hrun, hcount, ?_⟩
  intro hcon
  have hmarked : s1.worldmodel.visframe (NodeRef.leaf 2) = s1.r_visframecount := by
    rw [hiff]
    refine ⟨1, ?_, 0, rfl⟩
    simp [exNovis, exWorld, pvsLeaf, foreach_leafbit, List.range, List.range.loop]
  obtain ⟨n, hn, hanc⟩ := hcon.1 hmarked
  have hn0 : n = 0 := by
    simpa [exNovis, exWorld, foreach_leafbit, List.range, List.range.loop] using hn
  subst hn0
  exact exWorld_not_ancestor hanc

/-- C4 (amended). When `R_MarkLeaves` recomputes, the parent chain of every
leaf of the looked-up PVS ends within `fuel` links, and no leaf or node
carries the new count, then the call returns and afterwards a leaf or node
has `visframe == r_visframecount` exactly when it is a leaf of the looked-up
PVS (that of the view leaf with `r_novis` off, of leaf 0 with it on; bit `n`
is `leafs[n+1]`) or an ancestor of one; every other `visframe` is unchanged
and no node is written twice. -/
theorem C4_visibility_mark_invariant (fuel : Nat) (s : RenderState)
    (hrecompute : (s.r_oldviewleaf ≠ some s.r_viewleaf ∨ s.r_novis ≠ 0) ∧ s.mirror = false)
    (htree : ∀ n ∈ foreach_leafbit (s.worldmodel.Mod_LeafPVS (pvsLeaf s)),
      chainEnds s.worldmodel.parent fuel (NodeRef.leaf (n + 1)) = true)
    (hfresh : ∀ x, s.worldmodel.visframe x ≠ s.r_visframecount + 1) :
    ∃ s1 tr, R_MarkLeaves fuel s = some (s1, tr) ∧
      s1.r_visframecount = s.r_visframecount + 1 ∧
      s1.worldmodel.parent = s.worldmodel.parent ∧
      (∀ x, s1.worldmodel.visframe x = s1.r_visframecount ↔
        VisibleFrom s.worldmodel.parent
          (s.worldmodel.Mod_LeafPVS (if s.r_novis ≠ 0 then 0 else s.r_viewleaf)) x) ∧
      (∀ x, s1.worldmodel.visframe x ≠ s1.r_visframecount →
        s1.worldmodel.visframe x = s.worldmodel.visframe x) ∧
      tr.writes.Nodup :=
  R_MarkLeaves_recompute fuel s hrecompute htree hfresh

/-- C4, witness: the view moves into leaf 1 of `exWorld` with `r_novis` off. -/
theorem C4_visibility_mark_invariant_witness :
    ∃ s1 tr, R_MarkLeaves 2 exMoved = some (s1, tr) ∧
      s1.r_visframecount = exMoved.r_visframecount + 1 ∧
      s1.worldmodel.parent = exMoved.worldmodel.parent ∧
      (∀ x, s1.worldmodel.visframe x = s1.r_visframecount ↔
        VisibleFrom exMoved.worldmodel.parent
          (exMoved.worldmodel.Mod_LeafPVS
            (if exMoved.r_novis ≠ 0 then 0 else exMoved.r_viewleaf)) x) ∧
      (∀ x, s1.worldmodel.visframe x ≠ s1.r_visframecount →
        s1.worldmodel.visframe x = exMoved.worldmodel.visframe x) ∧
      tr.writes.Nodup :=
  C4_visibility_mark_invariant 2 exMoved ⟨Or.inl (by simp [exMoved]), rfl⟩
    (fun _ _ => exWorld_chainEnds _) (by intro x; simp [exMoved, exWorld])

theorem exNovis_recompute :
    (exNovis.r_oldviewleaf ≠ some exNovis.r_viewleaf ∨ exNovis.r_novis ≠ 0)
      ∧ exNovis.mirror = false :=
  ⟨Or.inr (by simp [exNovis]), rfl⟩

/-- C5 (as stated) fails when `r_novis` is on: with the view leaf unchanged the
second call recomputes again, bumping `r_visframecount` and walking the tree. -/
theorem C5_counterexample_novis :
    ∃ s1 tr1 s2 tr2, R_MarkLeaves 2 exNovis = some (s1, tr1) ∧
      s1.r_viewleaf = exNovis.r_viewleaf ∧
      R_MarkLeaves 2 s1 = some (s2, tr2) ∧
      s2.r_visframecount ≠ s1.r_visframecount ∧ tr2.walks ≠ [] := by
  obtain ⟨s1, tr1, hrun1, _, hold1, hview1, hnovis1, hmirror1, hparent1, hpvs1, _, _, _⟩ :=
    R_MarkLeaves_recompute_total 2 exNovis exNovis_recompute (fun _ _ => exWorld_chainEnds _)
  have hre1 : (s1.r_oldviewleaf ≠ some s1.r_viewleaf ∨ s1.r_novis ≠ 0) ∧ s1.mirror = false := by
    refine ⟨Or.inr ?_, ?_⟩
    · rw [hnovis1]; simp [exNovis]
    · rw [hmirror1]; rfl
  obtain ⟨s2, tr2, hrun2, hcount2, _, _, _, _, _, _, _, _, hwalks2⟩ :=
    R_MarkLeaves_recompute_total 2 s1 hre1
      (fun _ _ => by rw [hparent1]; exact exWorld_chainEnds _)
  refine ⟨s1, tr1, s2, tr2, hrun1, hview1, hrun2, ?_, ?_⟩
  · rw [hcount2]; omega
  · rw [hwalks2, hpvs1]
    have hleaf : pvsLeaf s1 = 0 := by
      unfold pvsLeaf; rw [hnovis1]; simp [exNovis]
    rw [hleaf]
    simp [exNovis, exWorld, foreach_leafbit, List.range, List.range.loop]

theorem R_MarkLeaves_twice (fuel1 fuel2 : Nat) (s s1 : RenderState) (tr1 : MarkTrace)
    (hnovis : s.r_novis = 0) (hfirst : R_MarkLeaves fuel1 s = some (s1, tr1)) :
    R_MarkLeaves fuel2 s1 = some (s1, ⟨[], []⟩) := by
  by_cases h : (s.r_oldviewleaf ≠ some s.r_viewleaf ∨ s.r_novis ≠ 0) ∧ s.mirror = false
  · rw [R_MarkLeaves_unfold fuel1 s h] at hfirst
    cases hm : markLeafbits s.worldmodel.parent (s.r_visframecount + 1) fuel1
        (foreach_leafbit (s.worldmodel.Mod_LeafPVS (pvsLeaf s)))
        s.worldmodel.visframe ⟨[], []⟩ with
    | none => rw [hm] at hfirst; exact Option.noConfusion hfirst
    | some r =>
      rw [hm] at hfirst
      obtain ⟨vis, tr⟩ := r
      simp only [Option.some.injEq, Prod.mk.injEq] at hfirst
      apply R_MarkLeaves_skip
      rw [← hfirst.1]
      simp [hnovis]
  · rw [R_MarkLeaves_skip fuel1 s h] at hfirst
    simp only [Option.some.injEq, Prod.mk.injEq] at hfirst
    rw [← hfirst.1]
    exact R_MarkLeaves_skip fuel2 s h

theorem R_MarkLeaves_returns (fuel : Nat) (s : RenderState)
    (hend : ∀ n ∈ foreach_leafbit (s.worldmodel.Mod_LeafPVS (pvsLeaf s)),
      chainEnds s.worldmodel.parent fuel (NodeRef.leaf (n + 1)) = true) :
    ∃ s1 tr1, R_MarkLeaves fuel s = some (s1, tr1) ∧ s1.r_viewleaf = s.r_viewleaf := by
  by_cases h : (s.r_oldviewleaf ≠ some s.r_viewleaf ∨ s.r_novis ≠ 0) ∧ s.mirror = false
  · obtain ⟨s1, tr1, hrun, _, _, hview, _⟩ := R_MarkLeaves_recompute_total fuel s h hend
    exact ⟨s1, tr1, hrun, hview⟩
  · exact ⟨s, ⟨[], []⟩, R_MarkLeaves_skip fuel s h, rfl⟩

/-- C5 (amended). With `r_novis` off, the first call of `R_MarkLeaves` returns
(parent chains of the PVS leaves ending within the fuel) with the view leaf
unchanged, and a second call right after it is a no-op: it returns the same
state, `r_visframecount`, `r_oldviewleaf` and every `visframe` included, and
starts no walk and writes no mark. -/
theorem C5_second_call_is_noop (fuel1 fuel2 : Nat) (s : RenderState)
    (hnovis : s.r_novis = 0)
    (htree : ∀ n ∈ foreach_leafbit (s.worldmodel.Mod_LeafPVS (pvsLeaf s)),
      chainEnds s.worldmodel.parent fuel1 (NodeRef.leaf (n + 1)) = true) :
    ∃ s1 tr1, R_MarkLeaves fuel1 s = some (s1, tr1) ∧ s1.r_viewleaf = s.r_viewleaf ∧
      R_MarkLeaves fuel2 s1 = some (s1, ⟨[], []⟩) := by
  obtain ⟨s1, tr1, hrun, hview⟩ := R_MarkLeaves_returns fuel1 s htree
  exact ⟨s1, tr1, hrun, hview, R_MarkLeaves_twice fuel1 fuel2 s s1 tr1 hnovis hrun⟩

/-- C5, witness: the first call recomputes for `exMoved` (the counter goes
from 0 to 1), the second is a no-op. -/
theorem C5_second_call_is_noop_witness :
    ∃ s1 tr1, R_MarkLeaves 2 exMoved = some (s1, tr1) ∧ s1.r_viewleaf = exMoved.r_viewleaf ∧
      R_MarkLeaves 2 s1 = some (s1, ⟨[], []⟩) :=
  C5_second_call_is_noop 2 2 exMoved rfl (fun _ _ => exWorld_chainEnds _)

/-- C6 (as stated) fails when `r_novis` is on: the view leaf equals the old
view leaf, so the claimed recompute condition is false, yet the call bumps
`r_visframecount` and re-marks `leafs[1]`. -/
theorem C6_counterexample_novis :
    ¬ (exNovis.r_oldviewleaf ≠ some exNovis.r_viewleaf ∧ exNovis.r_novis = 0
        ∧ exNovis.mirror = false) ∧
    ∃ s1 tr, R_MarkLeaves 2 exNovis = some (s1, tr) ∧
      s1.r_visframecount ≠ exNovis.r_visframecount ∧
      s1.worldmodel.visframe (NodeRef.leaf 1) ≠ exNovis.worldmodel.visframe (NodeRef.leaf 1) := by
  refine ⟨by simp [exNovis], ?_⟩
  obtain ⟨s1, tr, hrun, hcount, _, _, _, _, _, _, hall, _, _⟩ :=
    R_MarkLeaves_recompute_total 2 exNovis exNovis_recompute (fun _ _ => exWorld_chainEnds _)
  refine ⟨s1, tr, hrun, by rw [hcount]; omega, ?_⟩
  have h1 := hall 0 (by
    simp [exNovis, exWorld, pvsLeaf, foreach_leafbit, List.range, List.range.loop])
  rw [h1, hcount]
  simp [exNovis, exWorld]

/-- C6 (amended). `R_MarkLeaves` recomputes exactly when the view leaf differs
from the old view leaf or `r_novis` is on, and `mirror` is false.  In every
other state it returns the state unchanged with no walk and no write.  When it
recomputes (parent chains of the PVS leaves ending within `fuel` links) it
returns with `r_visframecount` one higher, `r_oldviewleaf = r_viewleaf`, every
leaf of the looked-up PVS marked with the new count and a walk started for
each of them. -/
theorem C6_recompute_condition (fuel : Nat) (s : RenderState) :
    (¬ ((s.r_oldviewleaf ≠ some s.r_viewleaf ∨ s.r_novis ≠ 0) ∧ s.mirror = false) →
      R_MarkLeaves fuel s = some (s, ⟨[], []⟩)) ∧
    ((s.r_oldviewleaf ≠ some s.r_viewleaf ∨ s.r_novis ≠ 0) ∧ s.mirror = false →
      (∀ n ∈ foreach_leafbit (s.worldmodel.Mod_LeafPVS (pvsLeaf s)),
        chainEnds s.worldmodel.parent fuel (NodeRef.leaf (n + 1)) = true) →
      ∃ s1 tr, R_MarkLeaves fuel s = some (s1, tr) ∧
        s1.r_visframecount = s.r_visframecount + 1 ∧
        s1.r_oldviewleaf = some s.r_viewleaf ∧
        (∀ n ∈ foreach_leafbit (s.worldmodel.Mod_LeafPVS (pvsLeaf s)),
          s1.worldmodel.visframe (NodeRef.leaf (n + 1)) = s1.r_visframecount) ∧
        tr.walks = (foreach_leafbit (s.worldmodel.Mod_LeafPVS (pvsLeaf s))).reverse) := by
  refine ⟨R_MarkLeaves_skip fuel s, fun h hend => ?_⟩
  obtain ⟨s1, tr, hrun, hcount, hold, _, _, _, _, _, hall, _, hwalks⟩ :=
    R_MarkLeaves_recompute_total fuel s h hend
  exact ⟨s1, tr, hrun, hcount, hold, hall, hwalks⟩

/-- C6, witness: `exMoved` recomputes; the same state inside a mirror pass
does not. -/
theorem C6_recompute_condition_witness :
    (∃ s1 tr, R_MarkLeaves 2 exMoved = some (s1, tr) ∧
        s1.r_visframecount = exMoved.r_visframecount + 1 ∧
        s1.r_oldviewleaf = some exMoved.r_viewleaf ∧
        (∀ n ∈ foreach_leafbit (exMoved.worldmodel.Mod_LeafPVS (pvsLeaf exMoved)),
          s1.worldmodel.visframe (NodeRef.leaf (n + 1)) = s1.r_visframecount) ∧
        tr.walks = (foreach_leafbit
          (exMoved.worldmodel.Mod_LeafPVS (pvsLeaf exMoved))).reverse) ∧
    R_MarkLeaves 2 { exMoved with mirror := true }
      = some ({ exMoved with mirror := true }, ⟨[], []⟩) :=
  ⟨(C6_recompute_condition 2 exMoved).2 ⟨Or.inl (by simp [exMoved]), rfl⟩
      (fun _ _ => exWorld_chainEnds _),
    (C6_recompute_condition 2 { exMoved with mirror := true }).1 (by simp)⟩

/-! ## Pose selection, lighting clamp, blend fractions -/

theorem poseSearch_spec (intervals : Nat → ℚ) (t : ℚ) :
    ∀ (k i : Nat),
      i ≤ poseSearch intervals t k i ∧ poseSearch intervals t k i ≤ i + k ∧
      (∀ j, i ≤ j → j < poseSearch intervals t k i → ¬ intervals j > t) ∧
      (poseSearch intervals t k i < i + k → intervals (poseSearch intervals t k i) > t) := by
  intro k
  induction k with
  | zero =>
    intro i
    refine ⟨le_refl _, le_refl _, ?_, ?_⟩
    · intro j h1 h2; simp only [poseSearch] at h2; omega
    · intro h; simp only [poseSearch] at h; omega
  | succ k ih =>
    intro i
    by_cases h : intervals i > t
    · have hr : poseSearch intervals t (k + 1) i = i := by simp [poseSearch, h]
      rw [hr]
      exact ⟨le_refl _, by omega, fun j h1 h2 => by omega, fun _ => h⟩
    · have hr : poseSearch intervals t (k + 1) i = poseSearch intervals t k (i + 1) := by
        simp [poseSearch, h]
      rw [hr]
      obtain ⟨h1, h2, h3, h4⟩ := ih (i + 1)
      refine ⟨by omega, by omega, ?_, ?_⟩
      · intro j hj1 hj2
        by_cases hji : j = i
        · rw [hji]; exact h
        · exact h3 j (by omega) hj2
      · intro hlt
        exact h4 (by omega)

/-- C7. Pose interval selection.  For a table of `n >= 2` entries and any
target time, the index left by the linear search of `R_AliasSetupFrame` is at
most `n - 1`, no earlier entry is greater than the target, the entry at the
index is greater than the target whenever some entry of the table is (so it is
the least such index), and the index is `n - 1` when no entry is greater. -/
theorem C7_pose_interval_selection (intervals : Nat → ℚ) (n : Nat) (targettime : ℚ)
    (hn : 2 ≤ n) :
    poseSearch intervals targettime (n - 1) 0 ≤ n - 1 ∧
    (∀ j, j < poseSearch intervals targettime (n - 1) 0 → ¬ intervals j > targettime) ∧
    ((∃ j, j < n ∧ intervals j > targettime) →
      intervals (poseSearch intervals targettime (n - 1) 0) > targettime) ∧
    ((∀ j, j < n → ¬ intervals j > targettime) →
      poseSearch intervals targettime (n - 1) 0 = n - 1) := by
  obtain ⟨_, h2, h3, h4⟩ := poseSearch_spec intervals targettime (n - 1) 0
  refine ⟨by omega, fun j hj => h3 j (Nat.zero_le _) hj, ?_, ?_⟩
  · rintro ⟨j, hjn, hj⟩
    by_cases hlt : poseSearch intervals targettime (n - 1) 0 < 0 + (n - 1)
    · exact h4 hlt
    · have hjr : ¬ j < poseSearch intervals targettime (n - 1) 0 :=
        fun hlt2 => h3 j (Nat.zero_le _) hlt2 hj
      have : j = poseSearch intervals targettime (n - 1) 0 := by omega
      rw [← this]; exact hj
  · intro hall
    by_contra hne
    have hlt : poseSearch intervals targettime (n - 1) 0 < 0 + (n - 1) := by omega
    exact hall _ (by omega) (h4 hlt)

theorem truncToInt_unit (x : ℚ) (h0 : 0 ≤ x) (h1 : x < 1) : truncToInt x = 0 := by
  unfold truncToInt
  rw [if_pos h0, Int.floor_eq_iff]
  exact ⟨by simpa using h0, by simpa using h1⟩

theorem R_AliasSetupFrame_lerp_multipose (r_lerpmodels cl_time : ℚ) (e : entity_t)
    (pahdr : aliashdr_t) (hon : r_lerpmodels ≠ 0)
    (h1 : ¬ (e.currentframetime < e.previousframetime))
    (h2 : ¬ (e.currentframetime - e.previousframetime > 1))
    (hmulti : (readAt pahdr.frames (checkedFrame e pahdr) ⟨0, 0⟩).numposes > 1) :
    (R_AliasSetupFrame true r_lerpmodels cl_time false e pahdr).currentpose
      = (readAt pahdr.frames e.currentframe ⟨0, 0⟩).firstpose
        + poseSearch
            (fun i => readAt pahdr.poseintervals
              ((readAt pahdr.frames (checkedFrame e pahdr) ⟨0, 0⟩).firstpose + i) 0)
            (poseTargetTime
              (fun i => readAt pahdr.poseintervals
                ((readAt pahdr.frames (checkedFrame e pahdr) ⟨0, 0⟩).firstpose + i) 0)
              (readAt pahdr.frames (checkedFrame e pahdr) ⟨0, 0⟩).numposes
              (cl_time + e.syncbase))
            ((readAt pahdr.frames (checkedFrame e pahdr) ⟨0, 0⟩).numposes - 1).toNat 0 := by
  unfold R_AliasSetupFrame
  simp only []
  rw [if_pos ⟨trivial, hon, h1, h2, trivial⟩, if_pos hmulti]
  split_ifs <;> rfl

theorem exHdr3_frame :
    readAt exHdr3.frames (checkedFrame exEntity exHdr3) ⟨0, 0⟩ = ⟨0, 3⟩ := by
  norm_num [readAt, checkedFrame, exEntity, exHdr3]

theorem exHdr3_intervals :
    (fun i : Nat => readAt exHdr3.poseintervals ((0 : Int) + i) 0)
      = fun i => [(1 / 10 : ℚ), 3 / 10, 6 / 10].getD i 0 := by
  funext i
  have hi : ¬ ((i : Int) < 0) := by omega
  simp only [readAt, hi, if_false, exHdr3, zero_add, Int.toNat_ofNat]

/-- C7, witness: the table `[0.1, 0.3, 0.6]` with target `0.3` selects index 2,
the pose after the entry equal to the target, also through
`R_AliasSetupFrame` at `cl.time = 0.3`. -/
theorem C7_pose_interval_selection_witness :
    (R_AliasSetupFrame true 1 (3 / 10) false exEntity exHdr3).currentpose = 2 ∧
    poseSearch (fun i => [(1 / 10 : ℚ), 3 / 10, 6 / 10].getD i 0) (3 / 10) (3 - 1) 0 = 2 ∧
    (∀ j, j < poseSearch (fun i => [(1 / 10 : ℚ), 3 / 10, 6 / 10].getD i 0) (3 / 10) (3 - 1) 0 →
      ¬ (fun i => [(1 / 10 : ℚ), 3 / 10, 6 / 10].getD i 0) j > 3 / 10) ∧
    ((∃ j, j < 3 ∧ (fun i => [(1 / 10 : ℚ), 3 / 10, 6 / 10].getD i 0) j > 3 / 10) →
      (fun i => [(1 / 10 : ℚ), 3 / 10, 6 / 10].getD i 0)
        (poseSearch (fun i => [(1 / 10 : ℚ), 3 / 10, 6 / 10].getD i 0) (3 / 10) (3 - 1) 0)
          > 3 / 10) := by
  have hsearch :
      poseSearch (fun i => [(1 / 10 : ℚ), 3 / 10, 6 / 10].getD i 0) (3 / 10) 2 0 = 2 := by
    norm_num [poseSearch]
  have htarget : poseTargetTime (fun i => [(1 / 10 : ℚ), 3 / 10, 6 / 10].getD i 0) 3
      (3 / 10 + 0) = 3 / 10 := by
    have h3 : ((3 : Int) - 1).toNat = 2 := rfl
    unfold poseTargetTime
    rw [h3]
    have hlast : (fun i => [(1 / 10 : ℚ), 3 / 10, 6 / 10].getD i 0) 2 = 6 / 10 := rfl
    rw [hlast, truncToInt_unit _ (by norm_num) (by norm_num)]
    norm_num
  refine ⟨?_, hsearch,
    (C7_pose_interval_selection (fun i => [(1 / 10 : ℚ), 3 / 10, 6 / 10].getD i 0) 3 (3 / 10)
      (by decide)).2.1,
    (C7_pose_interval_selection (fun i => [(1 / 10 : ℚ), 3 / 10, 6 / 10].getD i 0) 3 (3 / 10)
      (by decide)).2.2.1⟩
  rw [R_AliasSetupFrame_lerp_multipose 1 (3 / 10) exEntity exHdr3 one_ne_zero
    (by norm_num [exEntity]) (by norm_num [exEntity])
    (by rw [exHdr3_frame]; decide)]
  rw [exHdr3_frame]
  simp only []
  rw [exHdr3_intervals]
  have hsync : exEntity.syncbase = 0 := rfl
  have h3 : ((3 : Int) - 1).toNat = 2 := rfl
  rw [hsync, htarget, h3, hsearch]
  norm_num [readAt, exEntity, exHdr3]

/-- C8. Lighting clamp.  Whatever `(ambientlight, shadelight)` enters the clamp
step of `R_AliasDrawModel`, afterwards `ambientlight <= 128` and
`ambientlight + shadelight <= 192`; `(150, 100)` becomes `(128, 64)`. -/
theorem C8_lighting_clamp (ambientlight shadelight : ℚ) :
    (clampLighting ambientlight shadelight).1 ≤ 128 ∧
    (clampLighting ambientlight shadelight).1 + (clampLighting ambientlight shadelight).2 ≤ 192 ∧
    clampLighting 150 100 = (128, 64) := by
  refine ⟨?_, ?_, ?_⟩
  · unfold clampLighting
    simp only []
    split_ifs with h <;> linarith
  · unfold clampLighting
    simp only []
    split_ifs with h1 h2 h2 <;> linarith
  · norm_num [clampLighting]

theorem qclamp_unit (x : ℚ) : qclamp x 0 1 = max 0 (min x 1) := by
  unfold qclamp
  split_ifs with h1 h2
  · rw [max_eq_left]; exact le_trans (min_le_left _ _) h1.le
  · rw [min_eq_right h2.le, max_eq_right]; norm_num
  · rw [min_eq_left (not_lt.mp h2), max_eq_right (not_lt.mp h1)]

theorem qclamp_unit_mem (x : ℚ) : 0 ≤ qclamp x 0 1 ∧ qclamp x 0 1 ≤ 1 := by
  unfold qclamp
  split_ifs with h1 h2
  · exact ⟨le_refl _, by norm_num⟩
  · exact ⟨by norm_num, le_refl _⟩
  · exact ⟨not_lt.mp h1, not_lt.mp h2⟩

theorem R_AliasSetupFrame_blend_mem (nq : Bool) (r_lerpmodels cl_time : ℚ) (viewent : Bool)
    (e : entity_t) (pahdr : aliashdr_t) :
    0 ≤ (R_AliasSetupFrame nq r_lerpmodels cl_time viewent e pahdr).blend ∧
      (R_AliasSetupFrame nq r_lerpmodels cl_time viewent e pahdr).blend ≤ 1 := by
  unfold R_AliasSetupFrame
  simp only []
  split_ifs
  all_goals first
    | exact qclamp_unit_mem _
    | exact ⟨zero_le_one, le_refl _⟩

/-- C9 (as stated) fails: the code measures elapsed time from the current
timestamp, not the previous one.  With timestamps 0 and 1 and `now = 3/2` the
origin, angle and single-pose fractions are all `1/2`, not
`clamp((now - previous) / (current - previous), 0, 1) = 1`; and with frame
timestamps 0 and 2 the pose blend is 1, not `clamp(1/2)`. -/
theorem C9_counterexample_elapsed_from_current :
    exLerpEntity.previousorigintime < exLerpEntity.currentorigintime ∧
    originFrac (3 / 2) exLerpEntity ≠
      max 0 (min ((3 / 2 - exLerpEntity.previousorigintime)
        / (exLerpEntity.currentorigintime - exLerpEntity.previousorigintime)) 1) ∧
    exLerpEntity.previousanglestime < exLerpEntity.currentanglestime ∧
    anglesFrac (3 / 2) exLerpEntity ≠
      max 0 (min ((3 / 2 - exLerpEntity.previousanglestime)
        / (exLerpEntity.currentanglestime - exLerpEntity.previousanglestime)) 1) ∧
    exLerpEntity.previousframetime < exLerpEntity.currentframetime ∧
    (R_AliasSetupFrame true 1 (3 / 2) false exLerpEntity exHdr).blend ≠
      max 0 (min ((3 / 2 - exLerpEntity.previousframetime)
        / (exLerpEntity.currentframetime - exLerpEntity.previousframetime)) 1) ∧
    exStaleEntity.previousframetime < exStaleEntity.currentframetime ∧
    (R_AliasSetupFrame true 1 1 false exStaleEntity exHdr).blend ≠
      max 0 (min ((1 - exStaleEntity.previousframetime)
        / (exStaleEntity.currentframetime - exStaleEntity.previousframetime)) 1) := by
  refine ⟨?_, ?_, ?_, ?_, ?_, ?_, ?_, ?_⟩
  · norm_num [exLerpEntity, exEntity]
  · norm_num [originFrac, qclamp, exLerpEntity, exEntity]
  · norm_num [exLerpEntity, exEntity]
  · norm_num [anglesFrac, qclamp, exLerpEntity, exEntity]
  · norm_num [exLerpEntity, exEntity]
  · norm_num [R_AliasSetupFrame, checkedFrame, readAt, qclamp, exLerpEntity, exEntity, exHdr]
  · norm_num [exStaleEntity, exEntity]
  · norm_num [R_AliasSetupFrame, checkedFrame, readAt, qclamp, exStaleEntity, exEntity, exHdr]

/-- C9 (amended). With interpolation on (`NQ_HACK`, `r_lerpmove`, `r_lerpmodels`),
the entity not the view weapon and `previous < current` for each timestamp
pair, the fraction used for the origin lerp, for the angles lerp and, when the
frame timestamps are at most 1 apart, for the single-pose frame lerp is
`clamp((now - currentTimestamp) / (currentTimestamp - previousTimestamp), 0, 1)`. -/
theorem C9_blend_fraction_formula (r_lerpmove r_lerpmodels cl_time : ℚ)
    (e : entity_t) (pahdr : aliashdr_t)
    (hmove : r_lerpmove ≠ 0) (hmodels : r_lerpmodels ≠ 0)
    (_horigin : e.previousorigintime < e.currentorigintime)
    (hangles : e.previousanglestime < e.currentanglestime)
    (hframe : e.previousframetime < e.currentframetime)
    (hspan : e.currentframetime - e.previousframetime ≤ 1)
    (hsingle : (readAt pahdr.frames (checkedFrame e pahdr) ⟨0, 0⟩).numposes ≤ 1) :
    lerp_origin true r_lerpmove cl_time false e
      = VectorMA e.previousorigin
          (max 0 (min ((cl_time - e.currentorigintime)
            / (e.currentorigintime - e.previousorigintime)) 1))
          (VectorSubtract e.currentorigin e.previousorigin) ∧
    lerp_angles true r_lerpmove cl_time false e
      = VectorMA e.previousangles
          (max 0 (min ((cl_time - e.currentanglestime)
            / (e.currentanglestime - e.previousanglestime)) 1))
          ⟨wrapDelta (VectorSubtract e.currentangles e.previousangles).x,
            wrapDelta (VectorSubtract e.currentangles e.previousangles).y,
            wrapDelta (VectorSubtract e.currentangles e.previousangles).z⟩ ∧
    (R_AliasSetupFrame true r_lerpmodels cl_time false e pahdr).blend
      = max 0 (min ((cl_time - e.currentframetime)
          / (e.currentframetime - e.previousframetime)) 1) := by
  refine ⟨?_, ?_, ?_⟩
  · unfold lerp_origin originFrac
    rw [if_pos ⟨rfl, hmove, rfl⟩, qclamp_unit]
  · unfold lerp_angles anglesFrac
    rw [if_pos ⟨rfl, hmove, ne_of_lt hangles, rfl⟩, qclamp_unit]
  · unfold R_AliasSetupFrame
    simp only []
    rw [if_pos ⟨trivial, hmodels, not_lt.mpr hframe.le, not_lt.mpr hspan, trivial⟩,
      if_neg (not_lt.mpr hsingle), qclamp_unit]

/-- C9, witness: timestamps 0 and 1, `now = 3/2`, a single-pose frame. -/
theorem C9_blend_fraction_formula_witness :
    lerp_origin true 1 (3 / 2) false exLerpEntity = ⟨4, 0, 0⟩ ∧
    lerp_angles true 1 (3 / 2) false exLerpEntity = ⟨0, 45, 0⟩ ∧
    (R_AliasSetupFrame true 1 (3 / 2) false exLerpEntity exHdr).blend = 1 / 2 := by
  have h := C9_blend_fraction_formula 1 1 (3 / 2) exLerpEntity exHdr
    (by norm_num) (by norm_num) (by norm_num [exLerpEntity, exEntity])
    (by norm_num [exLerpEntity, exEntity]) (by norm_num [exLerpEntity, exEntity])
    (by norm_num [exLerpEntity, exEntity])
    (by norm_num [readAt, checkedFrame, exLerpEntity, exEntity, exHdr])
  refine ⟨?_, ?_, ?_⟩
  · rw [h.1]; norm_num [VectorMA, VectorSubtract, exLerpEntity, exEntity]
  · rw [h.2.1]; norm_num [VectorMA, VectorSubtract, wrapDelta, exLerpEntity, exEntity]
  · rw [h.2.2]; norm_num [exLerpEntity, exEntity]

/-- C10. Blend-fraction boundary.  For every `now` (before the previous
timestamp and after the current one included) and timestamps with
`previous < current`, the blend that `R_AliasSetupFrame` passes on and the
origin and angle fractions of `R_AliasDrawModel` lie in `[0, 1]`. -/
theorem C10_blend_fraction_bounds (nq : Bool) (r_lerpmodels cl_time : ℚ) (viewent : Bool)
    (e : entity_t) (pahdr : aliashdr_t)
    (_hframe : e.previousframetime < e.currentframetime)
    (_horigin : e.previousorigintime < e.currentorigintime)
    (_hangles : e.previousanglestime < e.currentanglestime) :
    (0 ≤ (R_AliasSetupFrame nq r_lerpmodels cl_time viewent e pahdr).blend ∧
      (R_AliasSetupFrame nq r_lerpmodels cl_time viewent e pahdr).blend ≤ 1) ∧
    (0 ≤ originFrac cl_time e ∧ originFrac cl_time e ≤ 1) ∧
    (0 ≤ anglesFrac cl_time e ∧ anglesFrac cl_time e ≤ 1) :=
  ⟨R_AliasSetupFrame_blend_mem nq r_lerpmodels cl_time viewent e pahdr,
    qclamp_unit_mem _, qclamp_unit_mem _⟩

/-- C10, witness: timestamps 0 and 1 with `now = 5`, after the current
timestamp: all three fractions are clamped to 1. -/
theorem C10_blend_fraction_bounds_witness :
    (R_AliasSetupFrame true 1 5 false exLerpEntity exHdr).blend = 1 ∧
    originFrac 5 exLerpEntity = 1 ∧ anglesFrac 5 exLerpEntity = 1 ∧
    ((0 ≤ (R_AliasSetupFrame true 1 5 false exLerpEntity exHdr).blend ∧
      (R_AliasSetupFrame true 1 5 false exLerpEntity exHdr).blend ≤ 1) ∧
    (0 ≤ originFrac 5 exLerpEntity ∧ originFrac 5 exLerpEntity ≤ 1) ∧
    (0 ≤ anglesFrac 5 exLerpEntity ∧ anglesFrac 5 exLerpEntity ≤ 1)) :=
  ⟨by norm_num [R_AliasSetupFrame, checkedFrame, readAt, qclamp, exLerpEntity, exEntity, exHdr],
    by norm_num [originFrac, qclamp, exLerpEntity, exEntity],
    by norm_num [anglesFrac, qclamp, exLerpEntity, exEntity],
    C10_blend_fraction_bounds true 1 5 false exLerpEntity exHdr
      (by norm_num [exLerpEntity, exEntity]) (by norm_num [exLerpEntity, exEntity])
      (by norm_num [exLerpEntity, exEntity])⟩

/-! ## Witnesses at concrete inputs -/

theorem exFrustum_culls_behind :
    R_CullBox exFrustum ⟨-20, -1, -1⟩ ⟨-10, 1, 1⟩ = true := by
  rw [R_CullBox_iff]
  refine ⟨0, ?_⟩
  rw [BoxOnPlaneSide_eq_two]
  have hs : (exFrustum 0).signbits = 2 := by
    norm_num [exFrustum, R_SetFrustum, frustumNormal, exView, VectorAdd, SignbitsForPlane]
    rfl
  have hn : (exFrustum 0).normal = ⟨1, -1, 0⟩ := by
    simp [exFrustum, R_SetFrustum, frustumNormal, exView, VectorAdd]
  have hd : (exFrustum 0).dist = 0 := by
    simp [exFrustum, R_SetFrustum, frustumNormal, exView, VectorAdd, DotProduct]
  rw [hs, hn, hd]
  have b0 : (2 : Fin 8).val.testBit 0 = false := by decide
  have b1 : (2 : Fin 8).val.testBit 1 = true := by decide
  have b2 : (2 : Fin 8).val.testBit 2 = false := by decide
  rw [b0, b1, b2]
  norm_num [cornerHi, cornerLo]

/-- C1, witness: for the camera at the origin looking along +X with FOV 90, a
box behind the camera is culled and lies wholly outside one plane, and a box
around the origin is not culled. -/
theorem C1_frustum_culling_sound_witness :
    R_CullBox (R_SetFrustum 0 exView (fun _ => ⟨0, 0, 0⟩) (fun _ => ⟨⟨0, 0, 0⟩, 0, 0, 0⟩))
      ⟨-20, -1, -1⟩ ⟨-10, 1, 1⟩ = true ∧
    (∃ i, ∀ p, InBox ⟨-20, -1, -1⟩ ⟨-10, 1, 1⟩ p →
      DotProduct (R_SetFrustum 0 exView (fun _ => ⟨0, 0, 0⟩)
          (fun _ => ⟨⟨0, 0, 0⟩, 0, 0, 0⟩) i).normal p
        < (R_SetFrustum 0 exView (fun _ => ⟨0, 0, 0⟩) (fun _ => ⟨⟨0, 0, 0⟩, 0, 0, 0⟩) i).dist) ∧
    InBox ⟨-16, -16, -24⟩ ⟨16, 16, 32⟩ exView.r_origin ∧
    R_CullBox (R_SetFrustum 0 exView (fun _ => ⟨0, 0, 0⟩) (fun _ => ⟨⟨0, 0, 0⟩, 0, 0, 0⟩))
      ⟨-16, -16, -24⟩ ⟨16, 16, 32⟩ = false :=
  have hin : InBox ⟨-16, -16, -24⟩ ⟨16, 16, 32⟩ exView.r_origin := by
    norm_num [InBox, exView]
  ⟨exFrustum_culls_behind,
    ((C1_frustum_culling_sound exView (fun _ => ⟨0, 0, 0⟩) (fun _ => ⟨⟨0, 0, 0⟩, 0, 0, 0⟩)
      ⟨-20, -1, -1⟩ ⟨-10, 1, 1⟩).2.1 exFrustum_culls_behind).1,
    hin,
    (C1_frustum_culling_sound exView (fun _ => ⟨0, 0, 0⟩) (fun _ => ⟨⟨0, 0, 0⟩, 0, 0, 0⟩)
      ⟨-16, -16, -24⟩ ⟨16, 16, 32⟩).2.2 hin⟩

theorem exFrustum_keeps_near :
    R_CullBox exFrustum ⟨-16, -16, -24⟩ ⟨16, 16, 32⟩ = false :=
  R_SetFrustum_keeps_origin_box exView _ _ _ _ (by norm_num [InBox, exView])

/-- C2, witness: for the frustum of `exView`, the box behind the camera is
classified outside by a plane, and the box around the origin is rejected only
after four tests. -/
theorem C2_cullbox_iff_some_plane_outside_witness :
    (∃ i : Fin 4, BoxOnPlaneSide ⟨-20, -1, -1⟩ ⟨-10, 1, 1⟩ (exFrustum i) = 2) ∧
    (R_CullBox_traced exFrustum ⟨-16, -16, -24⟩ ⟨16, 16, 32⟩).2 = 4 :=
  ⟨(C2_cullbox_iff_some_plane_outside exFrustum ⟨-20, -1, -1⟩ ⟨-10, 1, 1⟩).1.1
      exFrustum_culls_behind,
    (C2_cullbox_iff_some_plane_outside exFrustum ⟨-16, -16, -24⟩ ⟨16, 16, 32⟩).2.2.1
      exFrustum_keeps_near⟩

/-- C3, witness: the list sprite, alias, sprite, brush is drawn as alias 1,
brush 3, then sprites 0 and 2. -/
theorem C3_two_pass_draw_order_witness :
    R_DrawEntitiesOnList 1 [exSprite, exEntity, exSprite, exBrush]
      = [DrawCall.R_AliasDrawModel 1, DrawCall.R_DrawBrushModel 3,
          DrawCall.R_DrawSpriteModel 0, DrawCall.R_DrawSpriteModel 2] ∧
    ((R_DrawEntitiesOnList 1 [exSprite, exEntity, exSprite, exBrush]).map DrawCall.ent).Nodup :=
  ⟨by
      simp [R_DrawEntitiesOnList, drawLoop, firstPassCase, secondPassCase, exSprite,
        exEntity, exBrush],
    (C3_two_pass_draw_order 1 one_ne_zero [exSprite, exEntity, exSprite, exBrush]).2.2⟩

/-! ## Mirror reflection, angle wrap, shading row -/

theorem R_Mirror_vieworg_dist (v n : vec3_t) (d : ℚ) (hn : DotProduct n n = 1) :
    DotProduct (R_Mirror_vieworg v n d) n - d = -(DotProduct v n - d) := by
  unfold R_Mirror_vieworg VectorMA DotProduct at *
  simp only []
  linear_combination (-2 * (v.x * n.x + v.y * n.y + v.z * n.z - d)) * hn

/-- C11. Mirror round-trip.  The reflection of `R_Mirror` is
`v - 2 (v.n - d) n`; for a unit normal, reflecting twice gives the point back
and the signed distance to the plane changes sign. -/
theorem C11_mirror_round_trip (v n : vec3_t) (d : ℚ) (hn : DotProduct n n = 1) :
    R_Mirror_vieworg v n d
      = ⟨v.x - 2 * (DotProduct v n - d) * n.x, v.y - 2 * (DotProduct v n - d) * n.y,
          v.z - 2 * (DotProduct v n - d) * n.z⟩ ∧
    R_Mirror_vieworg (R_Mirror_vieworg v n d) n d = v ∧
    DotProduct (R_Mirror_vieworg v n d) n - d = -(DotProduct v n - d) := by
  refine ⟨?_, ?_, R_Mirror_vieworg_dist v n d hn⟩
  · unfold R_Mirror_vieworg VectorMA
    simp only [vec3_t.mk.injEq]
    refine ⟨by ring, by ring, by ring⟩
  · have h := R_Mirror_vieworg_dist v n d hn
    have e : R_Mirror_vieworg (R_Mirror_vieworg v n d) n d
        = VectorMA (R_Mirror_vieworg v n d)
            (-2 * (DotProduct (R_Mirror_vieworg v n d) n - d)) n := rfl
    rw [e, h]
    unfold R_Mirror_vieworg VectorMA
    cases v
    simp only [vec3_t.mk.injEq]
    refine ⟨by ring, by ring, by ring⟩

/-- C11, witness: the plane with unit normal `(3/5, 4/5, 0)` at distance 2 and
the point `(1, 2, 3)`, whose image is `(19/25, 42/25, 3)`. -/
theorem C11_mirror_round_trip_witness :
    DotProduct ⟨3 / 5, 4 / 5, 0⟩ ⟨3 / 5, 4 / 5, 0⟩ = 1 ∧
    R_Mirror_vieworg ⟨1, 2, 3⟩ ⟨3 / 5, 4 / 5, 0⟩ 2 = ⟨19 / 25, 42 / 25, 3⟩ ∧
    R_Mirror_vieworg (R_Mirror_vieworg ⟨1, 2, 3⟩ ⟨3 / 5, 4 / 5, 0⟩ 2) ⟨3 / 5, 4 / 5, 0⟩ 2
      = ⟨1, 2, 3⟩ :=
  ⟨by norm_num [DotProduct],
    by norm_num [R_Mirror_vieworg, VectorMA, DotProduct],
    (C11_mirror_round_trip ⟨1, 2, 3⟩ ⟨3 / 5, 4 / 5, 0⟩ 2 (by norm_num [DotProduct])).2.1⟩

theorem wrapDelta_cases (d : ℚ) :
    wrapDelta d = d ∨ wrapDelta d = d - 360 ∨ wrapDelta d = d + 360 := by
  unfold wrapDelta
  split_ifs
  · exact Or.inr (Or.inl rfl)
  · exact Or.inr (Or.inr rfl)
  · exact Or.inl rfl

theorem wrapDelta_range (d : ℚ) (h : |d| ≤ 540) : |wrapDelta d| ≤ 180 := by
  rw [abs_le] at h ⊢
  unfold wrapDelta
  split_ifs with h1 h2
  · constructor <;> linarith [h.1, h.2]
  · constructor <;> linarith [h.1, h.2]
  · constructor <;> linarith [h.1, h.2]

/-- C12 (as stated) fails: the wrap step subtracts or adds 360 only once.  For
a yaw going from 0 to 600 the delta after the wrap is 240, outside
`[-180, 180]`, and the fully interpolated yaw is 240. -/
theorem C12_counterexample_single_wrap :
    wrapDelta (VectorSubtract exSpinEntity.currentangles exSpinEntity.previousangles).y = 240 ∧
    ¬ (-180 ≤ wrapDelta
          (VectorSubtract exSpinEntity.currentangles exSpinEntity.previousangles).y ∧
        wrapDelta (VectorSubtract exSpinEntity.currentangles exSpinEntity.previousangles).y
          ≤ 180) ∧
    lerp_angles true 1 2 false exSpinEntity = ⟨0, 240, 0⟩ := by
  have h : wrapDelta
      (VectorSubtract exSpinEntity.currentangles exSpinEntity.previousangles).y = 240 := by
    norm_num [wrapDelta, VectorSubtract, exSpinEntity, exEntity]
  refine ⟨h, ?_, ?_⟩
  · rw [h]; norm_num
  · norm_num [lerp_angles, anglesFrac, qclamp, wrapDelta, VectorMA, VectorSubtract,
      exSpinEntity, exEntity]

/-- C12 (amended). On each of the three axes the delta that `R_AliasDrawModel`
interpolates along (`lerpvec[i]` after the wrap step) differs from
`current - previous` by 0, 360 or -360, and it lies in `[-180, 180]` whenever
`|current - previous| <= 540`. -/
theorem C12_angle_delta_wrap (e : entity_t) :
    (∀ d ∈ [(VectorSubtract e.currentangles e.previousangles).x,
          (VectorSubtract e.currentangles e.previousangles).y,
          (VectorSubtract e.currentangles e.previousangles).z],
      (∃ k : Int, (k = 0 ∨ k = 1 ∨ k = -1) ∧ wrapDelta d = d + 360 * k) ∧
      (|d| ≤ 540 → -180 ≤ wrapDelta d ∧ wrapDelta d ≤ 180)) ∧
    (VectorSubtract e.currentangles e.previousangles).x = e.currentangles.x - e.previousangles.x ∧
    (VectorSubtract e.currentangles e.previousangles).y = e.currentangles.y - e.previousangles.y ∧
    (VectorSubtract e.currentangles e.previousangles).z
      = e.currentangles.z - e.previousangles.z := by
  refine ⟨fun d _ => ⟨?_, fun h => abs_le.1 (wrapDelta_range d h)⟩, rfl, rfl, rfl⟩
  rcases wrapDelta_cases d with h | h | h
  · exact ⟨0, Or.inl rfl, by rw [h]; norm_num⟩
  · exact ⟨-1, Or.inr (Or.inr rfl), by rw [h]; push_cast; ring⟩
  · exact ⟨1, Or.inr (Or.inl rfl), by rw [h]; push_cast; ring⟩

/-- C12, witness: a yaw going from 350 to 10 is interpolated along +20, one
from 0 to 600 along 240 = 600 - 360. -/
theorem C12_angle_delta_wrap_witness :
    wrapDelta (10 - 350) = 20 ∧
    (|(10 - 350 : ℚ)| ≤ 540 → -180 ≤ wrapDelta (10 - 350) ∧ wrapDelta (10 - 350) ≤ 180) ∧
    (∃ k : Int, (k = 0 ∨ k = 1 ∨ k = -1) ∧
      wrapDelta (VectorSubtract exSpinEntity.currentangles exSpinEntity.previousangles).y
        = (VectorSubtract exSpinEntity.currentangles exSpinEntity.previousangles).y
          + 360 * k) :=
  ⟨by norm_num [wrapDelta],
    fun h => abs_le.1 (wrapDelta_range _ h),
    ((C12_angle_delta_wrap exSpinEntity).1 _ (by simp)).1⟩

theorem shadeRow_eq (yaw : ℚ) : (shadeRow yaw : Int) = shadequant yaw % 16 := by
  unfold shadeRow
  have h := Nat.and_pow_two_sub_one_eq_mod (shadequant yaw % 4294967296).toNat 4
  have h16 : SHADEDOT_QUANT - 1 = 2 ^ 4 - 1 := rfl
  rw [h16, h]
  omega

/-- C13 (as stated) fails for negative yaw: the `(int)` cast truncates toward
zero.  For a yaw of -10 degrees the row is 0, while
`floor(-10 * 16 / 360) mod 16` is 15. -/
theorem C13_counterexample_negative_yaw :
    shadeRow (-10) = 0 ∧ ⌊(-10 : ℚ) * (16 / 360)⌋ % 16 = 15 ∧
    (shadeRow (-10) : Int) ≠ ⌊(-10 : ℚ) * (16 / 360)⌋ % 16 := by
  have htr : shadequant (-10) = 0 := by
    unfold shadequant truncToInt SHADEDOT_QUANT
    rw [if_neg (by norm_num), Int.ceil_eq_iff]
    norm_num
  have hrow : shadeRow (-10) = 0 := by
    have := shadeRow_eq (-10)
    rw [htr] at this
    omega
  have hfl : ⌊(-10 : ℚ) * (16 / 360)⌋ = -1 := by
    rw [Int.floor_eq_iff]; norm_num
  refine ⟨hrow, by rw [hfl]; rfl, ?_⟩
  rw [hrow, hfl]; decide

/-- C13 (amended). For every yaw the row of the shading table selected by
`R_AliasDrawModel` is `(int)(yaw * 16 / 360)`, truncated toward zero, reduced
modulo 16; it is always a valid index of the 16-row table, and for
`yaw >= 0` it is `floor(yaw * 16 / 360) mod 16`. -/
theorem C13_shading_row (yaw : ℚ) :
    shadeRow yaw < 16 ∧
    (shadeRow yaw : Int) = truncToInt (yaw * (16 / 360)) % 16 ∧
    (0 ≤ yaw → (shadeRow yaw : Int) = ⌊yaw * (16 / 360)⌋ % 16) := by
  have h := shadeRow_eq yaw
  have hq : shadequant yaw = truncToInt (yaw * (16 / 360)) := by
    unfold shadequant SHADEDOT_QUANT; norm_num
  refine ⟨by omega, by rw [h, hq], fun hy => ?_⟩
  rw [h, hq]
  unfold truncToInt
  rw [if_pos (mul_nonneg hy (by norm_num))]

/-- C13, witness: a yaw of 100 degrees selects row 4 and one of -100 degrees
row 12. -/
theorem C13_shading_row_witness :
    (shadeRow 100 : Int) = 4 ∧ (shadeRow (-100) : Int) = 12 ∧ shadeRow (-100) < 16 := by
  have h100 : ⌊(100 : ℚ) * (16 / 360)⌋ = 4 := by
    rw [Int.floor_eq_iff]; norm_num
  have hm100 : truncToInt ((-100 : ℚ) * (16 / 360)) = -4 := by
    unfold truncToInt
    rw [if_neg (by norm_num), Int.ceil_eq_iff]
    norm_num
  refine ⟨?_, ?_, (C13_shading_row (-100)).1⟩
  · rw [(C13_shading_row 100).2.2 (by norm_num), h100]; rfl
  · rw [(C13_shading_row (-100)).2.1, hm100]; rfl

/-! ## Frame range check, timing anomalies, view weapon -/

theorem R_AliasSetupFrame_nolerp (nq : Bool) (r_lerpmodels cl_time : ℚ) (viewent : Bool)
    (e : entity_t) (pahdr : aliashdr_t)
    (h : ¬ (nq = true ∧ r_lerpmodels ≠ 0 ∧ ¬ (e.currentframetime < e.previousframetime)
      ∧ ¬ (e.currentframetime - e.previousframetime > 1) ∧ viewent = false)) :
    R_AliasSetupFrame nq r_lerpmodels cl_time viewent e pahdr
      = { currentpose :=
            if (readAt pahdr.frames (checkedFrame e pahdr) ⟨0, 0⟩).numposes > 1 then
              (readAt pahdr.frames (checkedFrame e pahdr) ⟨0, 0⟩).firstpose
                + Mod_FindInterval
                    (fun i => readAt pahdr.poseintervals
                      ((readAt pahdr.frames (checkedFrame e pahdr) ⟨0, 0⟩).firstpose + i) 0)
                    (readAt pahdr.frames (checkedFrame e pahdr) ⟨0, 0⟩).numposes
                    (cl_time + e.syncbase)
            else (readAt pahdr.frames (checkedFrame e pahdr) ⟨0, 0⟩).firstpose
          previouspose :=
            if (readAt pahdr.frames (checkedFrame e pahdr) ⟨0, 0⟩).numposes > 1 then
              (readAt pahdr.frames (checkedFrame e pahdr) ⟨0, 0⟩).firstpose
                + Mod_FindInterval
                    (fun i => readAt pahdr.poseintervals
                      ((readAt pahdr.frames (checkedFrame e pahdr) ⟨0, 0⟩).firstpose + i) 0)
                    (readAt pahdr.frames (checkedFrame e pahdr) ⟨0, 0⟩).numposes
                    (cl_time + e.syncbase)
            else (readAt pahdr.frames (checkedFrame e pahdr) ⟨0, 0⟩).firstpose
          blend := 1
          frameidx := [checkedFrame e pahdr] } := by
  unfold R_AliasSetupFrame
  simp only []
  rw [if_neg h]

theorem Mod_FindInterval_lt (intervals : Nat → ℚ) (numintervals : Int) (time : ℚ)
    (h : 1 < numintervals) :
    (Mod_FindInterval intervals numintervals time : Int) < numintervals := by
  unfold Mod_FindInterval
  have := (poseSearch_spec intervals (poseTargetTime intervals numintervals time)
    (numintervals - 1).toNat 0).2.1
  omega

theorem R_AliasSetupFrame_nolerp_clamps (nq : Bool) (cl_time : ℚ) (viewent : Bool)
    (e : entity_t) (pahdr : aliashdr_t)
    (hbad : e.frame < 0 ∨ e.frame ≥ pahdr.numframes)
    (hposes : 1 ≤ (readAt pahdr.frames 0 ⟨0, 0⟩).numposes) :
    (R_AliasSetupFrame nq 0 cl_time viewent e pahdr).frameidx = [0] ∧
    (readAt pahdr.frames 0 ⟨0, 0⟩).firstpose
      ≤ (R_AliasSetupFrame nq 0 cl_time viewent e pahdr).currentpose ∧
    (R_AliasSetupFrame nq 0 cl_time viewent e pahdr).currentpose
      < (readAt pahdr.frames 0 ⟨0, 0⟩).firstpose + (readAt pahdr.frames 0 ⟨0, 0⟩).numposes := by
  have hc : checkedFrame e pahdr = 0 := by
    unfold checkedFrame
    rw [if_pos (by rcases hbad with h | h; exact Or.inr h; exact Or.inl h)]
  rw [R_AliasSetupFrame_nolerp nq 0 cl_time viewent e pahdr (by simp), hc]
  simp only []
  refine ⟨trivial, ?_, ?_⟩
  · split_ifs
    · omega
    · exact le_refl _
  · split_ifs with h
    · have := Mod_FindInterval_lt
        (fun i => readAt pahdr.poseintervals ((readAt pahdr.frames 0 ⟨0, 0⟩).firstpose + i) 0)
        (readAt pahdr.frames 0 ⟨0, 0⟩).numposes (cl_time + e.syncbase) h
      omega
    · omega

/-- C14, at the failing input: with pose interpolation on, an entity whose
frame index 5 is out of range for a one-frame model makes `R_AliasSetupFrame`
index `pahdr->frames` at 5 (through `e->currentframe` and `e->previousframe`),
outside `[0, numframes)`; with interpolation off the same entity only uses
index 0. -/
theorem C14_lerp_path_skips_range_check :
    (exBadFrameEntity.frame < 0 ∨ exBadFrameEntity.frame ≥ exHdr.numframes) ∧
    (R_AliasSetupFrame true 1 (3 / 2) false exBadFrameEntity exHdr).frameidx = [0, 5, 5] ∧
    ¬ (∀ idx ∈ (R_AliasSetupFrame true 1 (3 / 2) false exBadFrameEntity exHdr).frameidx,
        0 ≤ idx ∧ idx < exHdr.numframes) ∧
    (R_AliasSetupFrame true 0 (3 / 2) false exBadFrameEntity exHdr).frameidx = [0] := by
  have h : (R_AliasSetupFrame true 1 (3 / 2) false exBadFrameEntity exHdr).frameidx
      = [0, 5, 5] := by
    norm_num [R_AliasSetupFrame, checkedFrame, readAt, exBadFrameEntity, exEntity, exHdr]
  refine ⟨by norm_num [exBadFrameEntity, exEntity, exHdr], h, ?_, ?_⟩
  · rw [h]
    intro hall
    have := hall 5 (by simp)
    norm_num [exHdr] at this
  · exact (R_AliasSetupFrame_nolerp_clamps true (3 / 2) false exBadFrameEntity exHdr
      (by norm_num [exBadFrameEntity, exEntity, exHdr])
      (by norm_num [readAt, exHdr])).1

/-- C15. Timing anomalies snap.  With pose interpolation on, an entity whose
`currentframetime < previousframetime` or whose
`currentframetime - previousframetime > 1` gets
`currentpose = previouspose`, equal to the pose chosen with interpolation off
(the first pose of its checked frame, plus `Mod_FindInterval` for a multi-pose
frame), and is drawn with blend 1. -/
theorem C15_timing_anomaly_snaps (nq : Bool) (r_lerpmodels cl_time : ℚ) (viewent : Bool)
    (e : entity_t) (pahdr : aliashdr_t)
    (hanomaly : e.currentframetime < e.previousframetime
      ∨ e.currentframetime - e.previousframetime > 1) :
    (R_AliasSetupFrame nq r_lerpmodels cl_time viewent e pahdr).blend = 1 ∧
    (R_AliasSetupFrame nq r_lerpmodels cl_time viewent e pahdr).currentpose
      = (R_AliasSetupFrame nq r_lerpmodels cl_time viewent e pahdr).previouspose ∧
    R_AliasSetupFrame nq r_lerpmodels cl_time viewent e pahdr
      = R_AliasSetupFrame nq 0 cl_time viewent e pahdr ∧
    (R_AliasSetupFrame nq r_lerpmodels cl_time viewent e pahdr).currentpose
      = (readAt pahdr.frames (checkedFrame e pahdr) ⟨0, 0⟩).firstpose
        + (if (readAt pahdr.frames (checkedFrame e pahdr) ⟨0, 0⟩).numposes > 1 then
            (Mod_FindInterval
              (fun i => readAt pahdr.poseintervals
                ((readAt pahdr.frames (checkedFrame e pahdr) ⟨0, 0⟩).firstpose + i) 0)
              (readAt pahdr.frames (checkedFrame e pahdr) ⟨0, 0⟩).numposes
              (cl_time + e.syncbase) : Int)
          else 0) := by
  have hno : ¬ (nq = true ∧ r_lerpmodels ≠ 0 ∧ ¬ (e.currentframetime < e.previousframetime)
      ∧ ¬ (e.currentframetime - e.previousframetime > 1) ∧ viewent = false) := by
    rintro ⟨_, _, h1, h2, _⟩
    rcases hanomaly with h | h
    · exact h1 h
    · exact h2 h
  rw [R_AliasSetupFrame_nolerp nq r_lerpmodels cl_time viewent e pahdr hno,
    R_AliasSetupFrame_nolerp nq 0 cl_time viewent e pahdr (by simp)]
  refine ⟨rfl, rfl, rfl, ?_⟩
  simp only []
  split_ifs <;> simp

/-- C15, witness: frame timestamps 0 and 2 (more than 1 apart) with
interpolation on: pose 0 twice and blend 1. -/
theorem C15_timing_anomaly_snaps_witness :
    (R_AliasSetupFrame true 1 1 false exStaleEntity exHdr).blend = 1 ∧
    (R_AliasSetupFrame true 1 1 false exStaleEntity exHdr).currentpose
      = (R_AliasSetupFrame true 1 1 false exStaleEntity exHdr).previouspose :=
  ⟨(C15_timing_anomaly_snaps true 1 1 false exStaleEntity exHdr
      (Or.inr (by norm_num [exStaleEntity, exEntity]))).1,
    (C15_timing_anomaly_snaps true 1 1 false exStaleEntity exHdr
      (Or.inr (by norm_num [exStaleEntity, exEntity]))).2.1⟩

/-- C16. View-weapon exemption.  For the view weapon (`e == &cl.viewent`),
whatever the build, the values of `r_lerpmove` and `r_lerpmodels` and the
timestamps, `lerp_origin` is `e->origin`, `lerp_angles` is `e->angles`, and
`R_AliasSetupFrame` sets `currentpose = previouspose` (the pose chosen with
interpolation off) and draws with blend 1. -/
theorem C16_view_weapon_exempt (nq : Bool) (r_lerpmove r_lerpmodels cl_time : ℚ)
    (e : entity_t) (pahdr : aliashdr_t) :
    lerp_origin nq r_lerpmove cl_time true e = e.origin ∧
    lerp_angles nq r_lerpmove cl_time true e = e.angles ∧
    (R_AliasSetupFrame nq r_lerpmodels cl_time true e pahdr).currentpose
      = (R_AliasSetupFrame nq r_lerpmodels cl_time true e pahdr).previouspose ∧
    (R_AliasSetupFrame nq r_lerpmodels cl_time true e pahdr).blend = 1 ∧
    R_AliasSetupFrame nq r_lerpmodels cl_time true e pahdr
      = R_AliasSetupFrame nq 0 cl_time true e pahdr := by
  refine ⟨?_, ?_, ?_⟩
  · unfold lerp_origin
    rw [if_neg (by simp)]
  · unfold lerp_angles
    rw [if_neg (by simp)]
  · rw [R_AliasSetupFrame_nolerp nq r_lerpmodels cl_time true e pahdr (by simp),
      R_AliasSetupFrame_nolerp nq 0 cl_time true e pahdr (by simp)]
    exact ⟨rfl, rfl, rfl⟩

/-! ## End-to-end culling -/

theorem R_SetFrustum_keeps_box_of_inside_point (v : ViewState) (rotated : Fin 4 → vec3_t)
    (old : Frustum) (mins maxs p : vec3_t) (hp : InBox mins maxs p)
    (hin : ∀ i, (R_SetFrustum 0 v rotated old i).dist
      ≤ DotProduct (R_SetFrustum 0 v rotated old i).normal p) :
    R_CullBox (R_SetFrustum 0 v rotated old) mins maxs = false := by
  by_contra hne
  have hc : R_CullBox (R_SetFrustum 0 v rotated old) mins maxs = true := by
    simpa using hne
  obtain ⟨i, hi⟩ := (R_CullBox_iff _ mins maxs).1 hc
  exact absurd (R_SetFrustum_outside v rotated old mins maxs i hi p hp) (not_lt.mpr (hin i))

theorem exFrustum_keeps_box :
    R_CullBox exFrustum ⟨490, -10, -10⟩ ⟨510, 10, 10⟩ = false := by
  apply R_SetFrustum_keeps_box_of_inside_point exView _ _ _ _ ⟨500, 0, 0⟩
  · norm_num [InBox]
  · intro i
    fin_cases i <;>
      norm_num [R_SetFrustum, frustumNormal, exView, VectorAdd, VectorSubtract, DotProduct]

theorem exBoxEntity_not_culled (nq : Bool) (cl_time : ℚ) :
    R_AliasDrawModel_culled nq 0 cl_time false exFrustum exBoxEntity = false := by
  have h : lerp_origin nq 0 cl_time false exBoxEntity = ⟨500, 0, 0⟩ := by
    unfold lerp_origin
    rw [if_neg (by simp)]
    rfl
  unfold R_AliasDrawModel_culled
  rw [h]
  have hmins : VectorAdd ⟨500, 0, 0⟩ exBoxEntity.model.mins = ⟨490, -10, -10⟩ := by
    norm_num [VectorAdd, exBoxEntity]
  have hmaxs : VectorAdd ⟨500, 0, 0⟩ exBoxEntity.model.maxs = ⟨510, 10, 10⟩ := by
    norm_num [VectorAdd, exBoxEntity]
  rw [hmins, hmaxs]
  exact exFrustum_keeps_box

theorem scene_drawn (nq : Bool) (cl_time : ℚ) (brushDraws : entity_t → Bool)
    (spriteUp spriteRight : entity_t → vec3_t)
    (Mod_GetSpriteFrame : entity_t → mspriteframe_t) (o : vec3_t) :
    entitiesDrawn 1 nq 0 cl_time exFrustum brushDraws spriteUp spriteRight Mod_GetSpriteFrame
        [spriteAt o, exBoxEntity]
      = [DrawCall.R_AliasDrawModel 1, DrawCall.R_DrawSpriteModel 0] := by
  have hlist : R_DrawEntitiesOnList 1 [spriteAt o, exBoxEntity]
      = [DrawCall.R_AliasDrawModel 1, DrawCall.R_DrawSpriteModel 0] := by
    simp [R_DrawEntitiesOnList, drawLoop, firstPassCase, secondPassCase, spriteAt, exSprite,
      exBoxEntity, exEntity]
  unfold entitiesDrawn
  rw [hlist]
  simp [List.filter, submitsGeometry, exBoxEntity_not_culled, R_DrawSpriteModel]

/-- C17 (as stated) fails: the sprite behind the camera is not culled.  With
the camera at the origin facing +X and FOV 90, `R_DrawEntitiesOnList` calls
`R_DrawSpriteModel` for the sprite at `(-100, 0, 0)` and that call submits a
quad whose four vertices all have `x = -100`. -/
theorem C17_counterexample_sprite_not_culled :
    DrawCall.R_DrawSpriteModel 0 ∈
      R_DrawEntitiesOnList 1 [spriteAt ⟨-100, 0, 0⟩, exBoxEntity] ∧
    DrawCall.R_DrawSpriteModel 0 ∈
      entitiesDrawn 1 true 0 0 exFrustum (fun _ => true) (fun _ => exView.vup)
        (fun _ => exView.vright) (fun _ => exSpriteFrame)
        [spriteAt ⟨-100, 0, 0⟩, exBoxEntity] ∧
    R_DrawSpriteModel exView.vup exView.vright exSpriteFrame (spriteAt ⟨-100, 0, 0⟩)
      = [⟨-100, 8, -8⟩, ⟨-100, 8, 8⟩, ⟨-100, -8, 8⟩, ⟨-100, -8, -8⟩] := by
  refine ⟨?_, ?_, ?_⟩
  · simp [R_DrawEntitiesOnList, drawLoop, firstPassCase, secondPassCase, spriteAt, exSprite,
      exBoxEntity, exEntity]
  · rw [scene_drawn]; simp
  · norm_num [R_DrawSpriteModel, VectorMA, spriteAt, exSprite, exEntity, exView, exSpriteFrame]

/-- C17 (amended). With the camera at the origin facing +X and FOV 90, the
opaque box entity at distance 500 along +X with half-extent 10 is not culled
by `R_CullBox` and is drawn in pass 1, and a sprite entity on the visible
list, wherever it lies (behind the camera included), is not culled either: it
is drawn in pass 2, after the box. -/
theorem C17_end_to_end_scene (nq : Bool) (cl_time : ℚ) (brushDraws : entity_t → Bool)
    (spriteUp spriteRight : entity_t → vec3_t)
    (Mod_GetSpriteFrame : entity_t → mspriteframe_t) (o : vec3_t) :
    R_AliasDrawModel_culled nq 0 cl_time false exFrustum exBoxEntity = false ∧
    R_CullBox exFrustum (VectorAdd exBoxEntity.origin exBoxEntity.model.mins)
      (VectorAdd exBoxEntity.origin exBoxEntity.model.maxs) = false ∧
    entitiesDrawn 1 nq 0 cl_time exFrustum brushDraws spriteUp spriteRight Mod_GetSpriteFrame
        [spriteAt o, exBoxEntity]
      = [DrawCall.R_AliasDrawModel 1, DrawCall.R_DrawSpriteModel 0] ∧
    (R_DrawSpriteModel (spriteUp (spriteAt o)) (spriteRight (spriteAt o))
      (Mod_GetSpriteFrame (spriteAt o)) (spriteAt o)).length = 4 := by
  refine ⟨exBoxEntity_not_culled nq cl_time, ?_,
    scene_drawn nq cl_time brushDraws spriteUp spriteRight Mod_GetSpriteFrame o, rfl⟩
  have hmins : VectorAdd exBoxEntity.origin exBoxEntity.model.mins = ⟨490, -10, -10⟩ := by
    norm_num [VectorAdd, exBoxEntity]
  have hmaxs : VectorAdd exBoxEntity.origin exBoxEntity.model.maxs = ⟨510, 10, 10⟩ := by
    norm_num [VectorAdd, exBoxEntity]
  rw [hmins, hmaxs]
  exact exFrustum_keeps_box

/-! ## Post-process blend -/

theorem polyBlendGamma_mem (i : PolyBlendInput) :
    1 / 4 ≤ polyBlendGamma i ∧ polyBlendGamma i ≤ 1 := by
  unfold polyBlendGamma
  split_ifs with h1 h2 h3
  · exact ⟨le_refl _, by norm_num⟩
  · exact ⟨by norm_num, le_refl _⟩
  · exact ⟨not_lt.mp h2, not_lt.mp h3⟩
  · exact ⟨by norm_num, le_refl _⟩

theorem R_PolyBlend_quads (i : PolyBlendInput) (q0 : Quad) :
    quadsDrawn (R_PolyBlend i) q0
      = (if i.gl_polyblend ≠ 0 ∧ i.v_blend3 ≠ 0 then [colourBlendQuad i q0] else [])
        ++ (if polyBlendGamma i < 1 then [gammaQuad i] else []) := by
  unfold R_PolyBlend
  by_cases hb : i.gl_polyblend ≠ 0 ∧ i.v_blend3 ≠ 0 <;>
    by_cases hg : polyBlendGamma i < 1 <;>
    simp [hb, hg, quadsDrawn, GL_DrawBlendPoly, colourBlendQuad, gammaQuad]

theorem R_PolyBlend_state (i : PolyBlendInput) (s : GLState)
    (h : (i.gl_polyblend ≠ 0 ∧ i.v_blend3 ≠ 0) ∨ polyBlendGamma i < 1) :
    runGL (R_PolyBlend i) s = ⟨true, false, false, true⟩ := by
  unfold R_PolyBlend
  rw [if_pos h]
  by_cases hb : i.gl_polyblend ≠ 0 ∧ i.v_blend3 ≠ 0 <;>
    by_cases hg : polyBlendGamma i < 1 <;>
    simp [hb, hg, runGL, GLState.set, GL_DrawBlendPoly]

/-- C18 (as stated) fails: the gamma is the square of the display gamma,
limited to `[0.25, 1.0]`.  For a windowed display with gamma 0.7 the gamma quad
is drawn with 0.49, not 0.7; and for gamma -2 with no screen blend the display
gamma clamped to `[0.25, 1.0]` is 0.25 < 1, yet `R_PolyBlend` issues no GL
call at all. -/
theorem C18_counterexample_gamma_squared :
    polyBlendGamma exBlendInput = 49 / 100 ∧
    qclamp exBlendInput.v_gamma (1 / 4) 1 = 7 / 10 ∧
    exNegGammaInput.VID_IsFullScreen = false ∧
    qclamp exNegGammaInput.v_gamma (1 / 4) 1 < 1 ∧
    R_PolyBlend exNegGammaInput = [] := by
  refine ⟨?_, ?_, rfl, ?_, ?_⟩
  · norm_num [polyBlendGamma, exBlendInput]
  · norm_num [qclamp, exBlendInput]
  · norm_num [qclamp, exNegGammaInput, exBlendInput]
  · norm_num [R_PolyBlend, polyBlendGamma, exNegGammaInput, exBlendInput]

/-- C18 (amended). The gamma of `R_PolyBlend` is the square of the display
gamma limited to `[0.25, 1.0]`, and 1.0 in full-screen mode when a hardware
gamma ramp is available or the fallback is disabled.  The quads drawn are the
colour-blend quad exactly when screen blending is on and `v_blend[3]` is
nonzero, followed by the gamma quad exactly when gamma < 1.0; when neither
holds no GL call is issued. -/
theorem C18_post_process_quads (i : PolyBlendInput) (q0 : Quad) :
    (1 / 4 ≤ polyBlendGamma i ∧ polyBlendGamma i ≤ 1) ∧
    (i.VID_IsFullScreen = true ∧ (i.VID_SetGammaRamp = true ∨ i._gl_allowgammafallback = 0) →
      polyBlendGamma i = 1) ∧
    (¬ (i.VID_IsFullScreen = true ∧
        (i.VID_SetGammaRamp = true ∨ i._gl_allowgammafallback = 0)) →
      polyBlendGamma i = qclamp (i.v_gamma * i.v_gamma) (1 / 4) 1) ∧
    quadsDrawn (R_PolyBlend i) q0
      = (if i.gl_polyblend ≠ 0 ∧ i.v_blend3 ≠ 0 then [colourBlendQuad i q0] else [])
        ++ (if polyBlendGamma i < 1 then [gammaQuad i] else []) ∧
    (¬ (i.gl_polyblend ≠ 0 ∧ i.v_blend3 ≠ 0) ∧ ¬ polyBlendGamma i < 1 → R_PolyBlend i = []) := by
  refine ⟨polyBlendGamma_mem i, ?_, ?_, R_PolyBlend_quads i q0, ?_⟩
  · rintro ⟨hf, hr⟩
    unfold polyBlendGamma
    rw [if_neg]
    rintro (h | ⟨h1, h2⟩)
    · rw [hf] at h; exact Bool.noConfusion h
    · rcases hr with hr | hr
      · rw [hr] at h1; exact Bool.noConfusion h1
      · exact h2 hr
  · intro hn
    unfold polyBlendGamma qclamp
    rw [if_pos]
    by_contra hcon
    push_neg at hcon
    apply hn
    refine ⟨by simpa using hcon.1, ?_⟩
    by_cases hr : i.VID_SetGammaRamp = true
    · exact Or.inl hr
    · exact Or.inr (hcon.2 (by simpa using hr))
  · rintro ⟨hb, hg⟩
    unfold R_PolyBlend
    rw [if_neg]
    rintro (h | h)
    · exact hb h
    · exact hg h

/-- C18, witness: a windowed display with gamma 0.7 and a red flash: the
colour-blend quad, then the gamma quad with alpha 0.49. -/
theorem C18_post_process_quads_witness :
    quadsDrawn (R_PolyBlend exBlendInput) ⟨none, none⟩
      = [⟨some (1, 0, 0, 1 / 2), none⟩,
          ⟨some (1, 1, 1, 49 / 100),
            some (GLFactor.GL_DST_COLOR, GLFactor.GL_ONE_MINUS_SRC_ALPHA)⟩] := by
  have hg : polyBlendGamma exBlendInput = 49 / 100 := by
    norm_num [polyBlendGamma, exBlendInput]
  rw [(C18_post_process_quads exBlendInput ⟨none, none⟩).2.2.2.1]
  rw [if_pos (by norm_num [exBlendInput]), if_pos (by rw [hg]; norm_num)]
  simp only [colourBlendQuad, gammaQuad, hg]
  norm_num [exBlendInput]

/-- C20 (as stated) fails: nothing is saved or restored.  From the state left
by `R_SetupGL` (alpha test off, depth test on), `R_PolyBlend` drawing its quads
ends with alpha test on and depth test off. -/
theorem C20_counterexample_flags_not_restored :
    quadsDrawn (R_PolyBlend exBlendInput) ⟨none, none⟩ ≠ [] ∧
    (runGL R_SetupGL_drawparms ⟨true, true, false, true⟩).alpha_test = false ∧
    (runGL R_SetupGL_drawparms ⟨true, true, false, true⟩).depth_test = true ∧
    (runGL (R_PolyBlend exBlendInput)
      (runGL R_SetupGL_drawparms ⟨true, true, false, true⟩)).alpha_test = true ∧
    (runGL (R_PolyBlend exBlendInput)
      (runGL R_SetupGL_drawparms ⟨true, true, false, true⟩)).depth_test = false := by
  have hstate := R_PolyBlend_state exBlendInput
    (runGL R_SetupGL_drawparms ⟨true, true, false, true⟩)
    (Or.inl (by norm_num [exBlendInput]))
  refine ⟨?_, rfl, rfl, by rw [hstate], by rw [hstate]⟩
  rw [R_PolyBlend_quads, if_pos (by norm_num [exBlendInput])]
  simp

theorem R_PolyBlend_draws (i : PolyBlendInput) (q0 : Quad)
    (hq : quadsDrawn (R_PolyBlend i) q0 ≠ []) :
    (i.gl_polyblend ≠ 0 ∧ i.v_blend3 ≠ 0) ∨ polyBlendGamma i < 1 := by
  by_contra hcon
  apply hq
  unfold R_PolyBlend
  rw [if_neg hcon]
  rfl

/-- C20 (amended). For every combination of enable flags before the call,
after `R_PolyBlend` has drawn at least one quad alpha test and texturing are
enabled and depth test and blending are disabled; so the alpha-test and
texturing flags equal their values before the call exactly when they were
enabled, and the depth-test flag exactly when it was disabled. -/
theorem C20_post_process_end_state (i : PolyBlendInput) (q0 : Quad) (s : GLState)
    (hdraws : quadsDrawn (R_PolyBlend i) q0 ≠ []) :
    runGL (R_PolyBlend i) s
      = { alpha_test := true, blend := false, depth_test := false, texture_2d := true } ∧
    ((runGL (R_PolyBlend i) s).alpha_test = s.alpha_test ↔ s.alpha_test = true) ∧
    ((runGL (R_PolyBlend i) s).texture_2d = s.texture_2d ↔ s.texture_2d = true) ∧
    ((runGL (R_PolyBlend i) s).depth_test = s.depth_test ↔ s.depth_test = false) := by
  rw [R_PolyBlend_state i s (R_PolyBlend_draws i q0 hdraws)]
  refine ⟨rfl, ?_, ?_, ?_⟩
  · exact ⟨fun h => h.symm, fun h => h.symm⟩
  · exact ⟨fun h => h.symm, fun h => h.symm⟩
  · exact ⟨fun h => h.symm, fun h => h.symm⟩

/-- C20, witness: the flash of `exBlendInput` drawn from a state with
everything enabled. -/
theorem C20_post_process_end_state_witness :
    quadsDrawn (R_PolyBlend exBlendInput) ⟨none, none⟩ ≠ [] ∧
    runGL (R_PolyBlend exBlendInput) ⟨true, true, true, true⟩
      = { alpha_test := true, blend := false, depth_test := false, texture_2d := true } :=
  have hq : quadsDrawn (R_PolyBlend exBlendInput) ⟨none, none⟩ ≠ [] := by
    rw [R_PolyBlend_quads, if_pos (by norm_num [exBlendInput])]
    simp
  ⟨hq, (C20_post_process_end_state exBlendInput ⟨none, none⟩ ⟨true, true, true, true⟩ hq).1⟩

/-! ## Lighting floor of the view model -/

theorem addDlights_floor (Length : vec3_t → ℚ) (cl_time : ℚ) (lerp_origin : vec3_t)
    (c : ℚ) (cl_dlights : List dlight_t) :
    ∀ l : ℚ × ℚ, l.1 = l.2 → c ≤ l.1 →
      (addDlights Length cl_time lerp_origin cl_dlights l).1
        = (addDlights Length cl_time lerp_origin cl_dlights l).2 ∧
      c ≤ (addDlights Length cl_time lerp_origin cl_dlights l).1 := by
  induction cl_dlights with
  | nil => intro l h1 h2; exact ⟨h1, h2⟩
  | cons dl rest ih =>
    intro l h1 h2
    unfold addDlights
    split_ifs with hd hadd
    · apply ih
      · simp only []; rw [h1]
      · simp only []; linarith
    · exact ih l h1 h2
    · exact ih l h1 h2

theorem clampLighting_floor (a : ℚ) (h : 24 ≤ a) :
    24 ≤ (clampLighting a a).1 ∧ 24 ≤ (clampLighting a a).2 := by
  unfold clampLighting
  simp only []
  constructor
  · split_ifs <;> linarith
  · split_ifs <;> linarith

theorem lighting_tail_floor (p : Bool) (flame : Prop) [Decidable flame] (l1 : ℚ × ℚ)
    (he : l1.1 = l1.2) (hf : 24 ≤ l1.1) :
    24 ≤ (if p = true then
            (if (clampLighting l1.1 l1.2).1 < 8 then ((8 : ℚ), (8 : ℚ))
              else clampLighting l1.1 l1.2)
          else if flame then ((256 : ℚ), (256 : ℚ)) else clampLighting l1.1 l1.2).1 ∧
    24 ≤ (if p = true then
            (if (clampLighting l1.1 l1.2).1 < 8 then ((8 : ℚ), (8 : ℚ))
              else clampLighting l1.1 l1.2)
          else if flame then ((256 : ℚ), (256 : ℚ)) else clampLighting l1.1 l1.2).2 := by
  have hcl := clampLighting_floor l1.1 hf
  rw [← he]
  split_ifs with hp h8 hfl
  · exfalso; linarith [hcl.1]
  · exact hcl
  · constructor <;> norm_num
  · exact hcl

/-- C19. View-model lighting floor.  For the view entity, whatever
`R_LightPoint` returns and whatever the dynamic lights are (any build, any
model name), `ambientlight` and `shadelight` at the end of the lighting
computation of `R_AliasDrawModel`, before the division by 200, are both at
least 24. -/
theorem C19_view_model_light_floor (nq playerEntity : Bool) (modelname : String)
    (lightpoint : ℚ) (Length : vec3_t → ℚ) (cl_time : ℚ) (lerp_origin : vec3_t)
    (cl_dlights : List dlight_t) :
    24 ≤ (aliasLighting nq true playerEntity modelname lightpoint Length cl_time lerp_origin
      cl_dlights).1 ∧
    24 ≤ (aliasLighting nq true playerEntity modelname lightpoint Length cl_time lerp_origin
      cl_dlights).2 := by
  unfold aliasLighting
  simp only []
  have hfloor : ∀ l0 : ℚ × ℚ, l0.1 = l0.2 → 24 ≤ l0.1 →
      (addDlights Length cl_time lerp_origin cl_dlights l0).1
        = (addDlights Length cl_time lerp_origin cl_dlights l0).2 ∧
      24 ≤ (addDlights Length cl_time lerp_origin cl_dlights l0).1 :=
    addDlights_floor Length cl_time lerp_origin 24 cl_dlights
  by_cases hl : lightpoint < 24
  · rw [if_pos (show True ∧ lightpoint < 24 from ⟨trivial, hl⟩)]
    obtain ⟨he, hf⟩ := hfloor (24, 24) rfl (le_refl _)
    exact lighting_tail_floor
      (if nq = true then playerEntity else decide (modelname = "progs/player.mdl"))
      (modelname = "progs/flame.mdl" ∨ modelname = "progs/flame2.mdl")
      (addDlights Length cl_time lerp_origin cl_dlights (24, 24)) he hf
  · rw [if_neg (show ¬ (True ∧ lightpoint < 24) from fun h => hl h.2)]
    obtain ⟨he, hf⟩ := hfloor (lightpoint, lightpoint) rfl (not_lt.mp hl)
    exact lighting_tail_floor
      (if nq = true then playerEntity else decide (modelname = "progs/player.mdl"))
      (modelname = "progs/flame.mdl" ∨ modelname = "progs/flame2.mdl")
      (addDlights Length cl_time lerp_origin cl_dlights (lightpoint, lightpoint)) he hf

/-- C19, witness: the view model in a pitch-dark spot with no dynamic light
gets `(24, 24)`; next to a light of radius 300 it gets `(128, 64)`. -/
theorem C19_view_model_light_floor_witness :
    aliasLighting true true false "progs/v_shot.mdl" 0 (fun _ => 0) 0 ⟨0, 0, 0⟩ [] = (24, 24) ∧
    aliasLighting true true false "progs/v_shot.mdl" 0 (fun _ => 0) 0 ⟨0, 0, 0⟩
      [⟨⟨0, 0, 0⟩, 300, 1⟩] = (128, 64) ∧
    24 ≤ (aliasLighting true true false "progs/v_shot.mdl" 0 (fun _ => 0) 0 ⟨0, 0, 0⟩
      [⟨⟨0, 0, 0⟩, 300, 1⟩]).2 :=
  ⟨by norm_num [aliasLighting, addDlights, clampLighting]; decide,
    by norm_num [aliasLighting, addDlights, clampLighting]; decide,
    (C19_view_model_light_floor true false "progs/v_shot.mdl" 0 (fun _ => 0) 0 ⟨0, 0, 0⟩
      [⟨⟨0, 0, 0⟩, 300, 1⟩]).2⟩

/-! ## Console input -/

theorem consoleLoop_bounds (keys : List Int) :
    ∀ (st : ConsoleState) (writes echo : List Int),
      0 ≤ st.len → st.len ≤ 255 → (∀ i ∈ writes, 0 ≤ i ∧ i ≤ 255) →
      0 ≤ (consoleLoop keys st writes echo).state.len ∧
      (consoleLoop keys st writes echo).state.len ≤ 255 ∧
      (∀ i ∈ (consoleLoop keys st writes echo).writes, 0 ≤ i ∧ i ≤ 255) ∧
      ((consoleLoop keys st writes echo).returnsText = true →
        (consoleLoop keys st writes echo).state.len = 0) := by
  induction keys with
  | nil =>
    intro st writes echo h0 h1 hw
    exact ⟨h0, h1, hw, fun h => Bool.noConfusion h⟩
  | cons c rest ih =>
    intro st writes echo h0 h1 hw
    unfold consoleLoop
    split_ifs with hcr hbs hlen hfull
    · refine ⟨le_refl _, by norm_num, ?_, fun _ => rfl⟩
      intro i hi
      rcases List.mem_cons.1 hi with rfl | hi
      · exact ⟨h0, h1⟩
      · exact hw i hi
    · apply ih
      · show 0 ≤ st.len - 1
        omega
      · show st.len - 1 ≤ 255
        omega
      · intro i hi
        rcases List.mem_cons.1 hi with rfl | hi
        · constructor <;> omega
        · exact hw i hi
    · exact ih st writes _ h0 h1 hw
    · refine ⟨le_refl _, by norm_num, ?_, fun _ => rfl⟩
      intro i hi
      rcases List.mem_cons.1 hi with rfl | hi
      · constructor <;> norm_num
      · rcases List.mem_cons.1 hi with rfl | hi
        · exact ⟨h0, h1⟩
        · exact hw i hi
    · apply ih
      · show 0 ≤ st.len + 1
        omega
      · show st.len + 1 ≤ 255
        omega
      · intro i hi
        rcases List.mem_cons.1 hi with rfl | hi
        · constructor <;> omega
        · rcases List.mem_cons.1 hi with rfl | hi
          · exact ⟨h0, h1⟩
          · exact hw i hi

theorem consoleCalls_bounds (batches : List (List Int)) :
    ∀ (pending : List Int) (st : ConsoleState), 0 ≤ st.len → st.len ≤ 255 →
      ∀ r ∈ consoleCalls batches pending st,
        0 ≤ r.state.len ∧ r.state.len ≤ 255 ∧ (∀ i ∈ r.writes, 0 ≤ i ∧ i ≤ 255) ∧
        (r.returnsText = true → r.state.len = 0) := by
  induction batches with
  | nil => intro pending st _ _ r hr; simp [consoleCalls] at hr
  | cons arrived more ih =>
    intro pending st h0 h1 r hr
    have hb := consoleLoop_bounds (pending ++ arrived) st [] [] h0 h1 (by simp)
    unfold consoleCalls at hr
    rcases List.mem_cons.1 hr with rfl | hr
    · exact hb
    · exact ih _ _ hb.1 hb.2.1 r hr

/-- C22. Console line buffer stays in bounds.  Over any run of calls of
`Sys_ConsoleInput` from program start, whatever keys arrive before each call,
`0 <= len <= 255` at every return and every write to `text[]` uses an index in
`0..255`.  A backspace on an empty line leaves `text` and `len` as they were
and writes nothing.  When the line holds 255 characters, the next ordinary
character makes the call return `text` with `len = 0` and `text[0] = 0`. -/
theorem C22_console_buffer_in_bounds :
    (∀ (batches : List (List Int)), ∀ r ∈ consoleCalls batches [] consoleInit,
      0 ≤ r.state.len ∧ r.state.len ≤ 255 ∧ (∀ i ∈ r.writes, 0 ≤ i ∧ i ≤ 255)) ∧
    (∀ (st : ConsoleState) (rest writes echo : List Int), st.len = 0 →
      consoleLoop (8 :: rest) st writes echo = consoleLoop rest st writes (8 :: echo) ∧
      (Sys_ConsoleInput [8] st).state = st ∧ (Sys_ConsoleInput [8] st).writes = [] ∧
      (Sys_ConsoleInput [8] st).returnsText = false) ∧
    (∀ (st : ConsoleState) (c : Int) (rest : List Int), st.len = 255 → c ≠ 13 → c ≠ 8 →
      (Sys_ConsoleInput (c :: rest) st).returnsText = true ∧
      (Sys_ConsoleInput (c :: rest) st).state.len = 0 ∧
      (Sys_ConsoleInput (c :: rest) st).state.text 0 = 0 ∧
      (Sys_ConsoleInput (c :: rest) st).pending = rest ∧
      (Sys_ConsoleInput (c :: rest) st).writes = [0, 255]) := by
  refine ⟨?_, ?_, ?_⟩
  · intro batches r hr
    have h := consoleCalls_bounds batches [] consoleInit (le_refl _) (by decide) r hr
    exact ⟨h.1, h.2.1, h.2.2.1⟩
  · intro st rest writes echo hlen
    have h8 : consoleLoop (8 :: rest) st writes echo
        = consoleLoop rest st writes (8 :: echo) := by
      rw [consoleLoop, if_neg (by decide), if_pos rfl, if_neg (by simp [hlen])]
    refine ⟨h8, ?_, ?_, ?_⟩
    · unfold Sys_ConsoleInput
      rw [consoleLoop, if_neg (by decide), if_pos rfl, if_neg (by simp [hlen])]
      rfl
    · unfold Sys_ConsoleInput
      rw [consoleLoop, if_neg (by decide), if_pos rfl, if_neg (by simp [hlen])]
      rfl
    · unfold Sys_ConsoleInput
      rw [consoleLoop, if_neg (by decide), if_pos rfl, if_neg (by simp [hlen])]
      rfl
  · intro st c rest hlen hcr hbs
    unfold Sys_ConsoleInput
    rw [consoleLoop, if_neg hcr, if_neg hbs, if_pos (by rw [hlen]; rfl)]
    refine ⟨rfl, rfl, ?_, rfl, ?_⟩
    · simp
    · simp [hlen]

/-- C22, witness: 256 letters `a` typed from program start make the call
return `text` with the line reset; a backspace typed first changes nothing. -/
theorem C22_console_buffer_in_bounds_witness :
    (Sys_ConsoleInput (List.replicate 256 97) consoleInit).returnsText = true ∧
    (Sys_ConsoleInput (List.replicate 256 97) consoleInit).state.len = 0 ∧
    (∀ r ∈ consoleCalls [[104, 105], [8, 8, 8], [13]] [] consoleInit,
      0 ≤ r.state.len ∧ r.state.len ≤ 255 ∧ (∀ i ∈ r.writes, 0 ≤ i ∧ i ≤ 255)) ∧
    (Sys_ConsoleInput [8] consoleInit).writes = [] :=
  ⟨by set_option maxRecDepth 20000 in decide,
    by set_option maxRecDepth 20000 in decide,
    C22_console_buffer_in_bounds.1 [[104, 105], [8, 8, 8], [13]],
    (C22_console_buffer_in_bounds.2.1 consoleInit [] [] [] rfl).2.2.1⟩

/-! ## Skin flood fill -/

theorem fifo_mask_eq (n : Nat) : n &&& FLOODFILL_FIFO_MASK = n % 4096 := by
  have h := Nat.and_pow_two_sub_one_eq_mod n 12
  have e : FLOODFILL_FIFO_MASK = 2 ^ 12 - 1 := rfl
  rw [e, h]

theorem pixelIndex_inj (w h : Nat) (p q : Nat × Nat) (hp : ValidPixel w h p)
    (hq : ValidPixel w h q) (e : pixelIndex w p = pixelIndex w q) : p = q := by
  obtain ⟨px, py⟩ := p
  obtain ⟨qx, qy⟩ := q
  unfold pixelIndex at e
  unfold ValidPixel at hp hq
  simp only at e hp hq
  have hw : 0 < w := by omega
  have h1 : (px + w * py) % w = px := by
    rw [Nat.add_mul_mod_self_left]; exact Nat.mod_eq_of_lt hp.1
  have h2 : (qx + w * qy) % w = qx := by
    rw [Nat.add_mul_mod_self_left]; exact Nat.mod_eq_of_lt hq.1
  have h3 : (px + w * py) / w = py := by
    rw [Nat.add_mul_div_left _ _ hw, Nat.div_eq_of_lt hp.1, Nat.zero_add]
  have h4 : (qx + w * qy) / w = qy := by
    rw [Nat.add_mul_div_left _ _ hw, Nat.div_eq_of_lt hq.1, Nat.zero_add]
  rw [e] at h1 h3
  have ex : px = qx := by rw [← h1, h2]
  have ey : py = qy := by rw [← h3, h4]
  rw [ex, ey]

theorem pixelIndex_lt (w h : Nat) (p : Nat × Nat) (hp : ValidPixel w h p) :
    pixelIndex w p < w * h := by
  unfold pixelIndex
  unfold ValidPixel at hp
  have h1 : w * (p.2 + 1) ≤ w * h := Nat.mul_le_mul_left w hp.2
  have h2 : w * (p.2 + 1) = w * p.2 + w := by ring
  omega

theorem pushed_le (w h : Nat) (fifo : Nat → Nat × Nat) (m : Nat)
    (hv : ∀ j < m, ValidPixel w h (fifo j))
    (hinj : ∀ i < m, ∀ j < m, fifo i = fifo j → i = j) : m ≤ w * h := by
  have hcard := Finset.card_le_card_of_injOn (fun j => pixelIndex w (fifo j))
    (s := Finset.range m) (t := Finset.range (w * h))
    (fun j hj => by
      have hj' : j < m := by simpa using hj
      simpa using pixelIndex_lt w h _ (hv j hj'))
    (fun i hi j hj e => by
      have hi' : i < m := by simpa using hi
      have hj' : j < m := by simpa using hj
      exact hinj i hi' j hj' (pixelIndex_inj w h _ _ (hv i hi') (hv j hj') e))
  simpa using hcard

theorem adjacent_valid (w h : Nat) (p q : Nat × Nat) (hp : ValidPixel w h p)
    (ha : Adjacent w h p q) : ValidPixel w h q ∧ q ≠ p := by
  obtain ⟨px, py⟩ := p
  unfold ValidPixel at hp
  simp only at hp
  rcases ha with ⟨h1, rfl⟩ | ⟨h1, rfl⟩ | ⟨h1, rfl⟩ | ⟨h1, rfl⟩
  · simp only at h1
    refine ⟨⟨by simp only; omega, hp.2⟩, fun e => ?_⟩
    have := congrArg Prod.fst e
    simp only at this; omega
  · simp only at h1
    refine ⟨⟨by simp only; omega, hp.2⟩, fun e => ?_⟩
    have := congrArg Prod.fst e
    simp only at this; omega
  · simp only at h1
    refine ⟨⟨hp.1, by simp only; omega⟩, fun e => ?_⟩
    have := congrArg Prod.snd e
    simp only at this; omega
  · simp only at h1
    refine ⟨⟨hp.1, by simp only; omega⟩, fun e => ?_⟩
    have := congrArg Prod.snd e
    simp only at this; omega

theorem FLOODFILL_STEP_spec (w h : Nat) (sk0 : Nat → Nat) (hsz : w * h < 4096)
    (hc : sk0 0 ≠ 255) (o : Nat) (v : FloodVars) (q : Nat × Nat)
    (hinv : FloodInv w h sk0 o v.skin v.fifo v.inpt) (ho : o < v.inpt)
    (hfdc : v.fdc ≠ sk0 0) (hadj : Adjacent w h (v.fifo o) q) :
    FloodInv w h sk0 o (FLOODFILL_STEP (sk0 0) (pixelIndex w q) q.1 q.2 v).skin
      (FLOODFILL_STEP (sk0 0) (pixelIndex w q) q.1 q.2 v).fifo
      (FLOODFILL_STEP (sk0 0) (pixelIndex w q) q.1 q.2 v).inpt ∧
    v.inpt ≤ (FLOODFILL_STEP (sk0 0) (pixelIndex w q) q.1 q.2 v).inpt ∧
    (∀ j < v.inpt, (FLOODFILL_STEP (sk0 0) (pixelIndex w q) q.1 q.2 v).fifo j = v.fifo j) ∧
    (FLOODFILL_STEP (sk0 0) (pixelIndex w q) q.1 q.2 v).fdc ≠ sk0 0 ∧
    (sk0 (pixelIndex w q) = sk0 0 →
      ∃ i < (FLOODFILL_STEP (sk0 0) (pixelIndex w q) q.1 q.2 v).inpt,
        (FLOODFILL_STEP (sk0 0) (pixelIndex w q) q.1 q.2 v).fifo i = q) := by
  obtain ⟨hqv, hqne⟩ := adjacent_valid w h (v.fifo o) q (hinv.valid o ho).1 hadj
  by_cases hcol : v.skin (pixelIndex w q) = sk0 0
  · -- the neighbour has the fill colour: it was never entered
    have hnot : ∀ j < v.inpt, v.fifo j ≠ q := by
      intro j hj e
      by_cases hjo : j = o
      · rw [hjo] at e; exact hqne e.symm
      · apply hinv.marked j hj hjo
        rw [e]; exact hcol
    have horig : sk0 (pixelIndex w q) = sk0 0 := by
      rw [← hinv.kept q hqv hnot]; exact hcol
    have hcomp : InComponent w h sk0 q :=
      InComponent.step (v.fifo o) q (hinv.valid o ho).2 hadj horig
    have hfold : ∀ j < v.inpt, Function.update v.fifo v.inpt q j = v.fifo j := by
      intro j hj
      exact Function.update_noteq (by omega) _ _
    have hfnew : Function.update v.fifo v.inpt q v.inpt = q := Function.update_same _ _ _
    have hvalid : ∀ j < v.inpt + 1, ValidPixel w h (Function.update v.fifo v.inpt q j) ∧
        InComponent w h sk0 (Function.update v.fifo v.inpt q j) := by
      intro j hj
      by_cases hji : j = v.inpt
      · rw [hji, hfnew]; exact ⟨hqv, hcomp⟩
      · rw [hfold j (by omega)]; exact hinv.valid j (by omega)
    have hinj : ∀ i < v.inpt + 1, ∀ j < v.inpt + 1,
        Function.update v.fifo v.inpt q i = Function.update v.fifo v.inpt q j → i = j := by
      intro i hi j hj e
      by_cases hii : i = v.inpt
      · by_cases hji : j = v.inpt
        · rw [hii, hji]
        · rw [hii, hfnew, hfold j (by omega)] at e
          exact absurd e.symm (hnot j (by omega))
      · by_cases hji : j = v.inpt
        · rw [hji, hfnew, hfold i (by omega)] at e
          exact absurd e (hnot i (by omega))
        · rw [hfold i (by omega), hfold j (by omega)] at e
          exact hinv.inj i (by omega) j (by omega) e
    have hbound : v.inpt + 1 ≤ w * h :=
      pushed_le w h _ (v.inpt + 1) (fun j hj => (hvalid j hj).1) hinj
    have hs : (FLOODFILL_STEP (sk0 0) (pixelIndex w q) q.1 q.2 v).skin
        = Function.update v.skin (pixelIndex w q) 255 := by
      simp [FLOODFILL_STEP, hcol]
    have hf : (FLOODFILL_STEP (sk0 0) (pixelIndex w q) q.1 q.2 v).fifo
        = Function.update v.fifo v.inpt q := by
      simp [FLOODFILL_STEP, hcol]
    have hi : (FLOODFILL_STEP (sk0 0) (pixelIndex w q) q.1 q.2 v).inpt = v.inpt + 1 := by
      have : (FLOODFILL_STEP (sk0 0) (pixelIndex w q) q.1 q.2 v).inpt
          = (v.inpt + 1) &&& FLOODFILL_FIFO_MASK := by
        simp [FLOODFILL_STEP, hcol]
      rw [this, fifo_mask_eq]
      exact Nat.mod_eq_of_lt (by omega)
    have hd : (FLOODFILL_STEP (sk0 0) (pixelIndex w q) q.1 q.2 v).fdc = v.fdc := by
      simp [FLOODFILL_STEP, hcol]
    rw [hs, hf, hi, hd]
    have hskin_other : ∀ p, ValidPixel w h p → p ≠ q →
        Function.update v.skin (pixelIndex w q) 255 (pixelIndex w p)
          = v.skin (pixelIndex w p) := by
      intro p hp hpq
      apply Function.update_noteq
      intro e
      exact hpq (pixelIndex_inj w h p q hp hqv e)
    refine ⟨⟨?_, hvalid, hinj, ?_, ?_, ?_⟩, by omega, hfold, hfdc,
      fun _ => ⟨v.inpt, by omega, hfnew⟩⟩
    · exact ⟨by omega, by rw [hfold 0 hinv.first.1]; exact hinv.first.2⟩
    · intro j hj hjo
      by_cases hji : j = v.inpt
      · rw [hji, hfnew, Function.update_same]
        exact fun e => hc e.symm
      · rw [hfold j (by omega),
          hskin_other _ (hinv.valid j (by omega)).1 (hnot j (by omega))]
        exact hinv.marked j (by omega) hjo
    · intro p hp hpn
      have hpq : p ≠ q := fun e => hpn v.inpt (by omega) (by rw [hfnew, e])
      rw [hskin_other p hp hpq]
      apply hinv.kept p hp
      intro j hj e
      exact hpn j (by omega) (by rw [hfold j hj]; exact e)
    · intro j hj p hadjp hp
      rw [hfold j (by omega)] at hadjp
      obtain ⟨i, hi', e⟩ := hinv.closed j hj p hadjp hp
      exact ⟨i, by omega, by rw [hfold i hi']; exact e⟩
  · -- the neighbour does not have the fill colour: only `fdc` may change
    have hs : (FLOODFILL_STEP (sk0 0) (pixelIndex w q) q.1 q.2 v).skin = v.skin := by
      unfold FLOODFILL_STEP
      rw [if_neg hcol]
      split_ifs <;> rfl
    have hf : (FLOODFILL_STEP (sk0 0) (pixelIndex w q) q.1 q.2 v).fifo = v.fifo := by
      unfold FLOODFILL_STEP
      rw [if_neg hcol]
      split_ifs <;> rfl
    have hi : (FLOODFILL_STEP (sk0 0) (pixelIndex w q) q.1 q.2 v).inpt = v.inpt := by
      unfold FLOODFILL_STEP
      rw [if_neg hcol]
      split_ifs <;> rfl
    have hd : (FLOODFILL_STEP (sk0 0) (pixelIndex w q) q.1 q.2 v).fdc ≠ sk0 0 := by
      unfold FLOODFILL_STEP
      rw [if_neg hcol]
      split_ifs
      · exact hcol
      · exact hfdc
    rw [hs, hf, hi]
    refine ⟨hinv, le_refl _, fun _ _ => rfl, hd, fun horig => ?_⟩
    by_contra hno
    push_neg at hno
    exact hcol ((hinv.kept q hqv hno).trans horig)

theorem guarded_step_spec (w h : Nat) (sk0 : Nat → Nat) (hsz : w * h < 4096)
    (hc : sk0 0 ≠ 255) (o : Nat) (v : FloodVars) (q : Nat × Nat)
    (g : Prop) [Decidable g] (pos nx ny : Nat)
    (hinv : FloodInv w h sk0 o v.skin v.fifo v.inpt) (ho : o < v.inpt)
    (hfdc : v.fdc ≠ sk0 0)
    (hg : g → Adjacent w h (v.fifo o) q ∧ pos = pixelIndex w q ∧ nx = q.1 ∧ ny = q.2) :
    FloodInv w h sk0 o (if g then FLOODFILL_STEP (sk0 0) pos nx ny v else v).skin
      (if g then FLOODFILL_STEP (sk0 0) pos nx ny v else v).fifo
      (if g then FLOODFILL_STEP (sk0 0) pos nx ny v else v).inpt ∧
    v.inpt ≤ (if g then FLOODFILL_STEP (sk0 0) pos nx ny v else v).inpt ∧
    (∀ j < v.inpt, (if g then FLOODFILL_STEP (sk0 0) pos nx ny v else v).fifo j = v.fifo j) ∧
    (if g then FLOODFILL_STEP (sk0 0) pos nx ny v else v).fdc ≠ sk0 0 ∧
    (g → sk0 (pixelIndex w q) = sk0 0 →
      ∃ i < (if g then FLOODFILL_STEP (sk0 0) pos nx ny v else v).inpt,
        (if g then FLOODFILL_STEP (sk0 0) pos nx ny v else v).fifo i = q) := by
  by_cases hgt : g
  · obtain ⟨hadj, hpos, hnx, hny⟩ := hg hgt
    rw [if_pos hgt, hpos, hnx, hny]
    obtain ⟨h1, h2, h3, h4, h5⟩ := FLOODFILL_STEP_spec w h sk0 hsz hc o v q hinv ho hfdc hadj
    exact ⟨h1, h2, h3, h4, fun _ => h5⟩
  · rw [if_neg hgt]
    exact ⟨hinv, le_refl _, fun _ _ => rfl, hfdc, fun hgt' => absurd hgt' hgt⟩

theorem floodIter_spec (w h : Nat) (sk0 : Nat → Nat) (hsz : w * h < 4096)
    (hc : sk0 0 ≠ 255) (filledcolor : Nat) (hfc : filledcolor ≠ sk0 0) (s : FloodState)
    (hinv : FloodInv w h sk0 s.outpt s.skin s.fifo s.inpt) (ho : s.outpt < s.inpt) :
    FloodInv w h sk0 (s.outpt + 1) (floodIter (sk0 0) filledcolor w h s).skin
      (floodIter (sk0 0) filledcolor w h s).fifo (floodIter (sk0 0) filledcolor w h s).inpt ∧
    (floodIter (sk0 0) filledcolor w h s).outpt = s.outpt + 1 ∧
    s.inpt ≤ (floodIter (sk0 0) filledcolor w h s).inpt := by
  obtain ⟨x, hx⟩ : ∃ x, x = (s.fifo s.outpt).1 := ⟨_, rfl⟩
  obtain ⟨y, hy⟩ : ∃ y, y = (s.fifo s.outpt).2 := ⟨_, rfl⟩
  have hp : s.fifo s.outpt = (x, y) := by rw [hx, hy]
  have hpv : ValidPixel w h (x, y) := by rw [← hp]; exact (hinv.valid _ ho).1
  have hxw : x < w := hpv.1
  have hyh : y < h := hpv.2
  -- left neighbour
  obtain ⟨v1, hv1⟩ : ∃ v1 : FloodVars, v1 = if x > 0 then
      FLOODFILL_STEP (sk0 0) (x + w * y - 1) (x - 1) y ⟨s.skin, s.fifo, s.inpt, filledcolor⟩
      else ⟨s.skin, s.fifo, s.inpt, filledcolor⟩ := ⟨_, rfl⟩
  have h1 := guarded_step_spec w h sk0 hsz hc s.outpt ⟨s.skin, s.fifo, s.inpt, filledcolor⟩
    (x - 1, y) (x > 0) (x + w * y - 1) (x - 1) y hinv ho hfc
    (fun hg => ⟨by rw [show (FloodVars.mk s.skin s.fifo s.inpt filledcolor).fifo s.outpt
          = (x, y) from hp]; exact Or.inl ⟨hg, rfl⟩,
      by unfold pixelIndex; simp only; omega, rfl, rfl⟩)
  rw [← hv1] at h1
  obtain ⟨inv1, le1, keep1, fdc1, done1⟩ := h1
  have hp1 : v1.fifo s.outpt = (x, y) := by rw [keep1 _ ho]; exact hp
  -- right neighbour
  obtain ⟨v2, hv2⟩ : ∃ v2 : FloodVars, v2 = if x < w - 1 then
      FLOODFILL_STEP (sk0 0) (x + w * y + 1) (x + 1) y v1 else v1 := ⟨_, rfl⟩
  have h2 := guarded_step_spec w h sk0 hsz hc s.outpt v1
    (x + 1, y) (x < w - 1) (x + w * y + 1) (x + 1) y inv1 (by simp only at le1; omega) fdc1
    (fun hg => ⟨by rw [hp1]; exact Or.inr (Or.inl ⟨hg, rfl⟩),
      by unfold pixelIndex; simp only; omega, rfl, rfl⟩)
  rw [← hv2] at h2
  obtain ⟨inv2, le2, keep2, fdc2, done2⟩ := h2
  simp only at le1 keep1
  have hp2 : v2.fifo s.outpt = (x, y) := by rw [keep2 _ (by omega)]; exact hp1
  -- upper neighbour
  obtain ⟨v3, hv3⟩ : ∃ v3 : FloodVars, v3 = if y > 0 then
      FLOODFILL_STEP (sk0 0) (x + w * y - w) x (y - 1) v2 else v2 := ⟨_, rfl⟩
  have h3 := guarded_step_spec w h sk0 hsz hc s.outpt v2
    (x, y - 1) (y > 0) (x + w * y - w) x (y - 1) inv2 (by omega) fdc2
    (fun hg => ⟨by rw [hp2]; exact Or.inr (Or.inr (Or.inl ⟨hg, rfl⟩)),
      by
        unfold pixelIndex
        simp only
        have e1 : w * (y - 1) = w * y - w := by rw [Nat.mul_sub, Nat.mul_one]
        have e2 : w ≤ w * y := Nat.le_mul_of_pos_right w hg
        omega, rfl, rfl⟩)
  rw [← hv3] at h3
  obtain ⟨inv3, le3, keep3, fdc3, done3⟩ := h3
  have hp3 : v3.fifo s.outpt = (x, y) := by rw [keep3 _ (by omega)]; exact hp2
  -- lower neighbour
  obtain ⟨v4, hv4⟩ : ∃ v4 : FloodVars, v4 = if y < h - 1 then
      FLOODFILL_STEP (sk0 0) (x + w * y + w) x (y + 1) v3 else v3 := ⟨_, rfl⟩
  have h4 := guarded_step_spec w h sk0 hsz hc s.outpt v3
    (x, y + 1) (y < h - 1) (x + w * y + w) x (y + 1) inv3 (by omega) fdc3
    (fun hg => ⟨by rw [hp3]; exact Or.inr (Or.inr (Or.inr ⟨hg, rfl⟩)),
      by
        unfold pixelIndex
        simp only
        have e1 : w * (y + 1) = w * y + w := by rw [Nat.mul_add, Nat.mul_one]
        omega, rfl, rfl⟩)
  rw [← hv4] at h4
  obtain ⟨inv4, le4, keep4, fdc4, done4⟩ := h4
  have hp4 : v4.fifo s.outpt = (x, y) := by rw [keep4 _ (by omega)]; exact hp3
  have ho4 : s.outpt < v4.inpt := by omega
  -- the state after the iteration
  have e : floodIter (sk0 0) filledcolor w h s
      = { skin := Function.update v4.skin (x + w * y) v4.fdc
          fifo := v4.fifo
          inpt := v4.inpt
          outpt := (s.outpt + 1) &&& FLOODFILL_FIFO_MASK } := by
    rw [hv4, hv3, hv2, hv1, hx, hy]
    rfl
  have hbound : v4.inpt ≤ w * h :=
    pushed_le w h v4.fifo v4.inpt (fun j hj => (inv4.valid j hj).1) inv4.inj
  have hidx : x + w * y = pixelIndex w (x, y) := rfl
  rw [e]
  simp only
  refine ⟨⟨inv4.first, inv4.valid, inv4.inj, ?_, ?_, ?_⟩, ?_, by omega⟩
  · intro j hj hjo
    by_cases hjh : j = s.outpt
    · rw [hjh, hp4, hidx, Function.update_same]
      exact fdc4
    · have hne : v4.fifo j ≠ (x, y) := by
        intro e'
        rw [← hp4] at e'
        exact hjh (inv4.inj j hj s.outpt ho4 e')
      rw [hidx, Function.update_noteq]
      · exact inv4.marked j hj hjh
      · intro e'
        exact hne (pixelIndex_inj w h _ _ (inv4.valid j hj).1 hpv e')
  · intro q hq hqn
    have hne : q ≠ (x, y) := fun e' => hqn s.outpt ho4 (by rw [hp4, e'])
    rw [hidx, Function.update_noteq]
    · exact inv4.kept q hq hqn
    · intro e'
      exact hne (pixelIndex_inj w h _ _ hq hpv e')
  · intro j hj q hadj hq
    by_cases hjo : j < s.outpt
    · exact inv4.closed j hjo q hadj hq
    · have hjh : j = s.outpt := by omega
      rw [hjh, hp4] at hadj
      rcases hadj with ⟨hg, rfl⟩ | ⟨hg, rfl⟩ | ⟨hg, rfl⟩ | ⟨hg, rfl⟩
      · obtain ⟨i, hi, ei⟩ := done1 hg hq
        exact ⟨i, by omega, by rw [keep4 i (by omega), keep3 i (by omega),
          keep2 i (by omega)]; exact ei⟩
      · obtain ⟨i, hi, ei⟩ := done2 hg hq
        exact ⟨i, by omega, by rw [keep4 i (by omega), keep3 i (by omega)]; exact ei⟩
      · obtain ⟨i, hi, ei⟩ := done3 hg hq
        exact ⟨i, by omega, by rw [keep4 i (by omega)]; exact ei⟩
      · obtain ⟨i, hi, ei⟩ := done4 hg hq
        exact ⟨i, hi, ei⟩
  · rw [fifo_mask_eq]
    exact Nat.mod_eq_of_lt (by omega)

theorem floodLoop_spec (w h : Nat) (sk0 : Nat → Nat) (hsz : w * h < 4096)
    (hc : sk0 0 ≠ 255) (filledcolor : Nat) (hfc : filledcolor ≠ sk0 0) :
    ∀ (fuel : Nat) (s : FloodState),
      FloodInv w h sk0 s.outpt s.skin s.fifo s.inpt → s.outpt ≤ s.inpt →
      w * h - s.outpt < fuel →
      ∃ s1, floodLoop (sk0 0) filledcolor w h fuel s = some s1 ∧
        FloodInv w h sk0 s1.outpt s1.skin s1.fifo s1.inpt ∧ s1.outpt = s1.inpt := by
  intro fuel
  induction fuel with
  | zero => intro s _ _ hf; omega
  | succ fuel ih =>
    intro s hinv hle hf
    by_cases hdone : s.outpt = s.inpt
    · exact ⟨s, by simp [floodLoop, hdone], hinv, hdone⟩
    · have ho : s.outpt < s.inpt := by omega
      have hbound : s.inpt ≤ w * h :=
        pushed_le w h s.fifo s.inpt (fun j hj => (hinv.valid j hj).1) hinv.inj
      obtain ⟨inv1, hout, hin⟩ := floodIter_spec w h sk0 hsz hc filledcolor hfc s hinv ho
      rw [← hout] at inv1
      obtain ⟨s1, hrun, hinv1, hfin⟩ :=
        ih (floodIter (sk0 0) filledcolor w h s) inv1 (by omega) (by omega)
      exact ⟨s1, by simp [floodLoop, hdone, hrun], hinv1, hfin⟩

theorem floodInv_final (w h : Nat) (sk0 skin : Nat → Nat) (fifo : Nat → Nat × Nat)
    (inpt : Nat) (hinv : FloodInv w h sk0 inpt skin fifo inpt) (p : Nat × Nat)
    (hp : ValidPixel w h p) :
    (InComponent w h sk0 p → skin (pixelIndex w p) ≠ sk0 0) ∧
    (¬ InComponent w h sk0 p → skin (pixelIndex w p) = sk0 (pixelIndex w p)) := by
  have hentered : ∀ q, InComponent w h sk0 q → ∃ j < inpt, fifo j = q := by
    intro q hq
    induction hq with
    | start => exact ⟨0, hinv.first.1, hinv.first.2⟩
    | step a b _ hadj hcol ih =>
      obtain ⟨j, hj, e⟩ := ih
      rw [← e] at hadj
      exact hinv.closed j hj b hadj hcol
  constructor
  · intro hcomp
    obtain ⟨j, hj, e⟩ := hentered p hcomp
    rw [← e]
    exact hinv.marked j hj (by omega)
  · intro hno
    apply hinv.kept p hp
    intro j hj e
    exact hno (e ▸ (hinv.valid j hj).2)

theorem floodInv_init (w h : Nat) (skin : Nat → Nat) (fifo0 : Nat → Nat × Nat)
    (hw : 1 ≤ w) (hh : 1 ≤ h) :
    FloodInv w h skin 0 skin (Function.update fifo0 0 (0, 0))
      ((0 + 1) &&& FLOODFILL_FIFO_MASK) := by
  have h1 : (0 + 1) &&& FLOODFILL_FIFO_MASK = 1 := by decide
  rw [h1]
  refine ⟨⟨by omega, by simp⟩, ?_, ?_, ?_, fun _ _ _ => rfl, ?_⟩
  · intro j hj
    have hj0 : j = 0 := by omega
    rw [hj0, Function.update_same]
    exact ⟨⟨by simp only; omega, by simp only; omega⟩, InComponent.start⟩
  · intro i hi j hj _
    omega
  · intro j hj hj0
    omega
  · intro j hj
    omega

/-- C21. Skin flood fill.  For a skin of width `w >= 1` and height `h >= 1`
with `w * h < 4096`, `GL_FloodFillSkin` terminates (any fuel above `w * h` is
enough).  If the top-left colour is the fill-target colour or 255 the skin is
unchanged.  Otherwise every pixel of the 4-connected component of pixel
`(0, 0)` among the pixels of its colour ends with a different colour, and
every pixel outside that component keeps its value. -/
theorem C21_flood_fill_skin (d_8to24table : Nat → Nat) (fifo0 : Nat → Nat × Nat)
    (skin : Nat → Nat) (w h fuel : Nat) (hw : 1 ≤ w) (hh : 1 ≤ h)
    (hsize : w * h < 4096) (hfuel : w * h < fuel) :
    ∃ skin1, GL_FloodFillSkin d_8to24table fifo0 fuel skin w h = some skin1 ∧
      ((skin 0 = findFilledColor d_8to24table ∨ skin 0 = 255) → skin1 = skin) ∧
      (¬ (skin 0 = findFilledColor d_8to24table ∨ skin 0 = 255) →
        ∀ p, ValidPixel w h p →
          (InComponent w h skin p → skin1 (pixelIndex w p) ≠ skin 0) ∧
          (¬ InComponent w h skin p → skin1 (pixelIndex w p) = skin (pixelIndex w p))) := by
  by_cases hskip : skin 0 = findFilledColor d_8to24table ∨ skin 0 = 255
  · refine ⟨skin, by simp [GL_FloodFillSkin, hskip], fun _ => rfl, fun h => absurd hskip h⟩
  · have hc : skin 0 ≠ 255 := fun e => hskip (Or.inr e)
    have hfc : findFilledColor d_8to24table ≠ skin 0 := fun e => hskip (Or.inl e.symm)
    obtain ⟨s1, hrun, hinv1, hfin⟩ :=
      floodLoop_spec w h skin hsize hc (findFilledColor d_8to24table) hfc fuel
        { skin := skin
          fifo := Function.update fifo0 0 (0, 0)
          inpt := (0 + 1) &&& FLOODFILL_FIFO_MASK
          outpt := 0 }
        (floodInv_init w h skin fifo0 hw hh) (Nat.zero_le _) (by simpa using hfuel)
    refine ⟨s1.skin, ?_, fun h => absurd h hskip, fun _ p hp => ?_⟩
    · unfold GL_FloodFillSkin
      rw [if_neg hskip, hrun]
      rfl
    · rw [hfin] at hinv1
      exact floodInv_final w h skin s1.skin s1.fifo s1.inpt hinv1 p hp

/-- C21, witness: the 2 by 2 skin 1 1 / 2 1 with fill-target colour 0: the
three pixels of colour 1 connected to the corner all become 2, the colour of
their neighbour, and the pixel of colour 2 stays. -/
theorem C21_flood_fill_skin_witness :
    (GL_FloodFillSkin exPalette (fun _ => (0, 0)) 5 exSkin 2 2).map
        (fun f => [f 0, f 1, f 2, f 3]) = some [2, 2, 2, 2] ∧
    ∃ skin1, GL_FloodFillSkin exPalette (fun _ => (0, 0)) 5 exSkin 2 2 = some skin1 ∧
      ((exSkin 0 = findFilledColor exPalette ∨ exSkin 0 = 255) → skin1 = exSkin) ∧
      (¬ (exSkin 0 = findFilledColor exPalette ∨ exSkin 0 = 255) →
        ∀ p, ValidPixel 2 2 p →
          (InComponent 2 2 exSkin p → skin1 (pixelIndex 2 p) ≠ exSkin 0) ∧
          (¬ InComponent 2 2 exSkin p → skin1 (pixelIndex 2 p) = exSkin (pixelIndex 2 p))) :=
  ⟨by decide,
    C21_flood_fill_skin exPalette (fun _ => (0, 0)) exSkin 2 2 5 (by decide) (by decide)
      (by decide) (by decide)⟩

end GLRMain
